import Mathlib

/-!
# RSDKv5 hardware renderer: render-state queue, ring allocator and compositor

A shallow embedding of `RSDK/Graphics/Rendering.hpp` and of the hardware
rendering part of `RSDK/Graphics/GLFW/GLFWRenderDevice.cpp`.

Conventions of the embedding:

* `uint32` values are natural numbers; every operation that can leave the
  range is written with an explicit `% 2 ^ 32`.
* `int32` values are integers; a reinterpreting copy into a `uint32` is
  `toU32`.
* object pointers (`Shader *`, `GFXSurface *`) are addresses, `0` being
  `nullptr`; `RenderVertex *` and `uint16 *` pointers into the mapped vertex
  and index buffers are element offsets from `vertMap` and `indexMap`.
* code whose behaviour is undefined on some input (indexing a `std::vector`
  out of range, dereferencing a pointer to no object, a failing `assert`)
  returns `Option`/`Except`.
-/

namespace RSDK

/-- Reinterpretation of an `int32` bit pattern as a `uint32`. -/
def toU32 (x : Int) : Nat := (x % 4294967296).toNat

/-- The command record `struct RenderState` of `Rendering.hpp`. -/
structure RenderState where
  shader : Nat := 0
  fbShader : Nat := 0
  texture : Nat := 0
  clip_X1 : Nat := 0
  clip_Y1 : Nat := 0
  clip_X2 : Nat := 0
  clip_Y2 : Nat := 0
  vertexBuffer : Nat := 0
  indexBuffer : Nat := 0
  vertexCount : Nat := 0
  indexCount : Nat := 0
  shaderSize : Nat := 0
  fbShaderSize : Nat := 0
deriving DecidableEq, Repr

/-- The class `RenderStateQueue`: backing `std::vector`, read cursor `i`,
the sentinel `_default` and the write cursor `size`. -/
structure RenderStateQueue where
  _vector : List RenderState := []
  i : Nat := 0
  _default : RenderState := {}
  size : Nat := 0
deriving DecidableEq, Repr

namespace RenderStateQueue

/-- Method `push`: overwrite the slot at the write cursor when the storage already
has one, append otherwise; then `size++`. -/
def push (q : RenderStateQueue) (value : RenderState) : RenderStateQueue :=
  { q with
    _vector := if q._vector.length > q.size then q._vector.set q.size value
               else q._vector ++ [value]
    size := (q.size + 1) % 2 ^ 32 }

/-- Method `pop`: `return _vector[i++]`; `none` when `i` is outside the storage. -/
def pop (q : RenderStateQueue) : Option (RenderState × RenderStateQueue) :=
  match q._vector[q.i]? with
  | some v => some (v, { q with i := (q.i + 1) % 2 ^ 32 })
  | none => none

/-- Method `finish`: both cursors back to zero, the storage is kept. -/
def finish (q : RenderStateQueue) : RenderStateQueue :=
  { q with i := 0, size := 0 }

/-- Method `empty`: `i >= size`. -/
def empty (q : RenderStateQueue) : Bool := decide (q.i ≥ q.size)

/-- Method `front`: the sentinel when the read cursor is outside the storage, the
stored element at the read cursor otherwise. -/
def front (q : RenderStateQueue) : RenderState :=
  if q._vector.length ≤ q.i then q._default
  else q._vector.getD q.i q._default

/-- Method `last`: the sentinel when `size == 0`, `_vector[size - 1]` otherwise
(`none` when that index is outside the storage). -/
def last (q : RenderStateQueue) : Option RenderState :=
  if q.size = 0 then some q._default
  else q._vector[q.size - 1]?

end RenderStateQueue

/-- One step of a queue client: a `push` or a `pop`. -/
inductive QueueOp where
  | push (value : RenderState)
  | pop
deriving DecidableEq, Repr

/-- The values pushed by a sequence of operations, in order. -/
def pushedValues : List QueueOp → List RenderState
  | [] => []
  | .push v :: ops => v :: pushedValues ops
  | .pop :: ops => pushedValues ops

/-- The number of pops in a sequence of operations. -/
def popCount : List QueueOp → Nat
  | [] => 0
  | .push _ :: ops => popCount ops
  | .pop :: ops => popCount ops + 1

/-- Whether every `pop` of the sequence is issued while `empty()` is false. -/
def popsGuarded (q : RenderStateQueue) : List QueueOp → Bool
  | [] => true
  | .push v :: ops => popsGuarded (q.push v) ops
  | .pop :: ops =>
    !q.empty &&
      (match q.pop with
       | some (_, q') => popsGuarded q' ops
       | none => true)

/-- Runs the operations on the queue and collects what the pops return;
`none` when a `pop` reads outside the storage. -/
def runOps (q : RenderStateQueue) : List QueueOp → Option (RenderStateQueue × List RenderState)
  | [] => some (q, [])
  | .push v :: ops => runOps (q.push v) ops
  | .pop :: ops =>
    match q.pop with
    | some (v, q') =>
      (match runOps q' ops with
       | some (q'', out) => some (q'', v :: out)
       | none => none)
    | none => none

/-! ### Shader objects -/

/-- The dynamic class of a shader object; it selects the `SetArgs` override. -/
inductive ShaderClass where
  | RectShader | CircleShader | SpriteShader | DevTextShader | TileShader | FillShader
  | FBNoneShader | FBBlendShader | FBAlphaShader | FBAddShader | FBSubShader
  | FBTintShader | FBMaskedShader | FBUnmaskedShader
deriving DecidableEq, Repr

/-- A shader object: `Shader::internal` (the GL program handle kept in a
`void *`), the members the FB classes add, the three factors of `FillShader`
and the layer index of `TileShader` (the palette copies of `TileShader` and
`SpriteShader` are only uploaded as a texture and are left out). A `float`
member is kept as its bit pattern, it is only stored and passed on. -/
structure Shader where
  cls : ShaderClass
  internal : Nat := 0
  alpha : Nat := 0
  intensity : Nat := 0
  lookupTable : Nat := 0
  color : Int := 0
  aR : Nat := 0
  aG : Nat := 0
  aB : Nat := 0
  layer : Nat := 0
deriving DecidableEq, Repr

/-- A global shader singleton such as `fbNoneShader`: where it lives and
what it holds. -/
structure ShaderGlobal where
  addr : Nat
  obj : Shader
deriving DecidableEq, Repr

/-! ### The part of the GL context the compositor drives -/

/-- Argument of `glBlendEquation`. -/
inductive BlendEquation where
  | GL_FUNC_ADD | GL_FUNC_SUBTRACT
deriving DecidableEq, Repr

/-- Arguments of `glBlendFunc`. -/
inductive BlendFactor where
  | GL_ZERO | GL_ONE | GL_SRC_ALPHA | GL_ONE_MINUS_SRC_ALPHA
deriving DecidableEq, Repr

/-- Framebuffer objects the compositor binds: the scratch target `tFB` and
the per-screen targets `screenFB[s]`. -/
inductive Framebuffer where
  | tFB
  | screenFB (s : Nat)
deriving DecidableEq, Repr

/-- A draw call as issued, with the context state it is issued under.
`glDrawElementsBaseVertex` is the geometry pass of a command (`indices` is
the byte offset `iOff * sizeof(uint16)`, `clip` the command's clip
rectangle handed to `glScissor`, before the `scaling` factors);
`glDrawArrays` is the full-screen resolve pass. -/
inductive GLDraw where
  | glDrawElementsBaseVertex (target : Framebuffer) (program : Nat) (count indices basevertex : Nat)
      (clip : Nat × Nat × Nat × Nat)
  | glDrawArrays (target : Framebuffer) (program : Nat) (first count : Nat)
      (equation : BlendEquation) (sfactor dfactor : BlendFactor)
deriving DecidableEq, Repr

/-- Context state: bound framebuffer, `GL_BLEND`, `GL_SCISSOR_TEST`, blend
equation and factors, program in use, the draw calls issued so far, and the
values (bit patterns of floats) handed to the last `glUniform` call for the
uniform named `alpha`. -/
structure GLState where
  framebuffer : Framebuffer := .tFB
  blend : Bool := false
  scissorTest : Bool := false
  blendEquation : BlendEquation := .GL_FUNC_ADD
  sfactor : BlendFactor := .GL_ONE
  dfactor : BlendFactor := .GL_ZERO
  program : Nat := 0
  draws : List GLDraw := []
  uniformAlpha : List Nat := []
deriving DecidableEq, Repr

/-- Bit pattern of the `float` literal `0.5`. -/
def FLOAT_HALF : Nat := 0x3F000000

/-- Whether a draw call is a resolve pass. -/
def GLDraw.isResolve : GLDraw → Bool
  | .glDrawArrays .. => true
  | .glDrawElementsBaseVertex .. => false

/-- Number of resolve passes among draw calls. -/
def resolvePasses (draws : List GLDraw) : Nat := draws.countP GLDraw.isResolve

/-! ### Renderer state -/

/-- The macro `VERTEX_LIMIT`, defined as `(0x4000)`. -/
def VERTEX_LIMIT : Nat := 0x4000

/-- Modelled from the spec: the ink enumeration is declared outside the given
sources; the eight modes in the order the spec lists them (none, blend, alpha,
add, subtract, tint, masked, unmasked). -/
def INK_NONE : Int := 0
/-- Modelled from the spec: see `INK_NONE`. -/
def INK_BLEND : Int := 1
/-- Modelled from the spec: see `INK_NONE`. -/
def INK_ALPHA : Int := 2
/-- Modelled from the spec: see `INK_NONE`. -/
def INK_ADD : Int := 3
/-- Modelled from the spec: see `INK_NONE`. -/
def INK_SUB : Int := 4
/-- Modelled from the spec: see `INK_NONE`. -/
def INK_TINT : Int := 5
/-- Modelled from the spec: see `INK_NONE`. -/
def INK_MASKED : Int := 6
/-- Modelled from the spec: see `INK_NONE`. -/
def INK_UNMASKED : Int := 7

/-- Modelled from the spec: `ScreenInfo` is declared outside the given
sources; the four `int32` clip bounds `clipBound_X1, clipBound_Y1,
clipBound_X2, clipBound_Y2` lie in this order, which is what the 16-byte
`memcpy` of `PushCurrentState` relies on; `size_y` is the member `size.y`
the vertical-scroll layer function reads, `pitch` the member `FillScreen`
reads as well. -/
structure ScreenInfo where
  clipBound_X1 : Int := 0
  clipBound_Y1 : Int := 0
  clipBound_X2 : Int := 0
  clipBound_Y2 : Int := 0
  size_y : Int := 0
  pitch : Int := 0
deriving DecidableEq, Repr

/-- Ways a call leaves the defined behaviour of the program. -/
inductive Fault where
  | assertion
  | outOfRange
  | badPointer
  | fuel
deriving DecidableEq, Repr

/-- The globals of the hardware renderer: ring offsets `vboOff`/`iboOff`,
the arrays `currentState`, `renderStates` and `screens`,
`videoSettings.screenCount`, the FB shader singletons, `tintLookupTable`,
`maskColor`, the shader objects created with `new` (`heap`, by address), the
addresses handed to `delete` (`freed`) and the GL context. -/
structure HWState where
  vboOff : Nat := 6
  iboOff : Nat := 0
  currentState : List RenderState := []
  renderStates : List RenderStateQueue := []
  screens : List ScreenInfo := []
  screenCount : Nat := 0
  fbNoneShader : ShaderGlobal
  fbBlendShader : ShaderGlobal
  fbAlphaShader : ShaderGlobal
  fbAddShader : ShaderGlobal
  fbSubShader : ShaderGlobal
  fbTintShader : ShaderGlobal
  fbMaskedShader : ShaderGlobal
  fbUnmaskedShader : ShaderGlobal
  tintLookupTable : Nat := 0
  maskColor : Int := 0
  heap : List (Nat × Shader) := []
  freed : List Nat := []
  gl : GLState := {}
deriving DecidableEq, Repr

/-- The FB shader singletons by address. -/
def HWState.globals (st : HWState) : List (Nat × Shader) :=
  [st.fbNoneShader, st.fbBlendShader, st.fbAlphaShader, st.fbAddShader, st.fbSubShader,
   st.fbTintShader, st.fbMaskedShader, st.fbUnmaskedShader].map fun g => (g.addr, g.obj)

/-- The shader object a `Shader *` points to: an object made by `new` or one
of the singletons; `none` for `nullptr` and for an address holding no shader.
Storage reclamation is not tracked: `delete` only records the address. -/
def HWState.shaderAt (st : HWState) (p : Nat) : Option Shader :=
  if p = 0 then none
  else match st.heap.lookup p with
    | some o => some o
    | none => st.globals.lookup p

/-- Element `k` of a C array indexed by an `int32`. -/
def arrayAt {α : Type} (l : List α) (k : Int) : Except Fault α :=
  if k < 0 then .error .outOfRange
  else match l[k.toNat]? with
    | some a => .ok a
    | none => .error .outOfRange

/-- Function `GetFBShader(ink, alpha)`: a copy of the singleton of the ink mode, made
with `new` at the address `p` the allocator hands out, carrying the
parameter of the mode; `nullptr` for any other `ink`. -/
def GetFBShader (st : HWState) (p : Nat) (ink : Int) (alpha : Nat) : Nat × HWState :=
  if ink = INK_NONE then (p, { st with heap := (p, st.fbNoneShader.obj) :: st.heap })
  else if ink = INK_BLEND then (p, { st with heap := (p, st.fbBlendShader.obj) :: st.heap })
  else if ink = INK_ALPHA then
    (p, { st with heap := (p, { st.fbAlphaShader.obj with alpha := alpha }) :: st.heap })
  else if ink = INK_ADD then
    (p, { st with heap := (p, { st.fbAddShader.obj with intensity := alpha }) :: st.heap })
  else if ink = INK_SUB then
    (p, { st with heap := (p, { st.fbSubShader.obj with intensity := alpha }) :: st.heap })
  else if ink = INK_TINT then
    (p, { st with heap :=
      (p, { st.fbTintShader.obj with lookupTable := st.tintLookupTable }) :: st.heap })
  else if ink = INK_MASKED then
    (p, { st with heap := (p, { st.fbMaskedShader.obj with color := st.maskColor }) :: st.heap })
  else if ink = INK_UNMASKED then
    (p, { st with heap :=
      (p, { st.fbUnmaskedShader.obj with color := st.maskColor }) :: st.heap })
  else (0, st)

/-- The virtual `SetArgs`, as far as it reaches the context state above: the
FB classes None, Blend, Alpha, Add and Sub set the blend equation and
factors, and all of these but None pass a value for the uniform `alpha`
(`0.5`, `alpha`, `intensity`, `intensity`); `FillShader` passes its three
factors for `alpha` and sets no blend state; Tint, Masked and Unmasked have
an empty body; the drawing classes only set other uniforms and textures
(`SpriteShader` also rewrites the third component of the records of the
scratch array `attributeBuf`, which is not part of this state). -/
def Shader.SetArgs (sh : Shader) (gl : GLState) : GLState :=
  match sh.cls with
  | .FBNoneShader =>
    { gl with blendEquation := .GL_FUNC_ADD, sfactor := .GL_SRC_ALPHA,
              dfactor := .GL_ONE_MINUS_SRC_ALPHA }
  | .FBBlendShader =>
    { gl with blendEquation := .GL_FUNC_ADD, sfactor := .GL_SRC_ALPHA,
              dfactor := .GL_ONE_MINUS_SRC_ALPHA, uniformAlpha := [FLOAT_HALF] }
  | .FBAlphaShader =>
    { gl with blendEquation := .GL_FUNC_ADD, sfactor := .GL_SRC_ALPHA,
              dfactor := .GL_ONE_MINUS_SRC_ALPHA, uniformAlpha := [sh.alpha] }
  | .FBAddShader =>
    { gl with blendEquation := .GL_FUNC_ADD, sfactor := .GL_SRC_ALPHA, dfactor := .GL_ONE,
              uniformAlpha := [sh.intensity] }
  | .FBSubShader =>
    { gl with blendEquation := .GL_FUNC_SUBTRACT, sfactor := .GL_SRC_ALPHA, dfactor := .GL_ONE,
              uniformAlpha := [sh.intensity] }
  | .FillShader => { gl with uniformAlpha := [sh.aR, sh.aG, sh.aB] }
  | _ => gl

/-- Method `Shader::Use`: `glUseProgram((GLuint)internal)`. -/
def Shader.Use (sh : Shader) (gl : GLState) : GLState :=
  { gl with program := sh.internal }

/-! ### The compositor -/

/-- What the drain loop of one screen changes: the screen's queue, the GL
context, the deleted addresses and the running offsets `vOff`, `iOff`. -/
structure Drain where
  queue : RenderStateQueue
  gl : GLState
  freed : List Nat
  vOff : Nat
  iOff : Nat
deriving DecidableEq, Repr

/-- The condition of the `if` that decides a resolve pass, evaluated left to
right as `||` and `&&` do:
`current.fbShader != fbNoneShader.internal || renderStates[s].empty() ||
(front().fbShader && front().fbShader->internal != fbNoneShader.internal)`.
The first operand compares the pointer `current.fbShader` itself with the
program handle. -/
def resolveNow (st : HWState) (current : RenderState) (q : RenderStateQueue) :
    Except Fault Bool :=
  if current.fbShader ≠ st.fbNoneShader.obj.internal then .ok true
  else if q.empty then .ok true
  else if q.front.fbShader = 0 then .ok false
  else match st.shaderAt q.front.fbShader with
    | some nxt => .ok (decide (nxt.internal ≠ st.fbNoneShader.obj.internal))
    | none => .error .badPointer

/-- One iteration of `while (!renderStates[s].empty())`: pop, geometry pass
into the scratch target, then the resolve pass when `resolveNow` says so.
The locals `first`, `last` and `firstState` are written and never read. -/
def drainStep (st : HWState) (s : Nat) (d : Drain) : Except Fault Drain :=
  match d.queue.pop with
  | none => .error .outOfRange
  | some (current, q) =>
    match st.shaderAt current.shader with
    | none => .error .badPointer
    | some sh =>
      let gl1 : GLState := sh.SetArgs (sh.Use d.gl)
      let gl2 : GLState := { gl1 with blend := false }
      let gl3 : GLState := { gl2 with draws := gl2.draws ++
        [.glDrawElementsBaseVertex gl2.framebuffer gl2.program current.indexCount
          (d.iOff * 2) d.vOff
          (current.clip_X1, current.clip_Y1, current.clip_X2, current.clip_Y2)] }
      let vOff := (d.vOff + current.vertexCount) % 2 ^ 32
      let iOff := (d.iOff + current.indexCount) % 2 ^ 32
      match resolveNow st current q with
      | .error e => .error e
      | .ok false => .ok { queue := q, gl := gl3, freed := d.freed, vOff := vOff, iOff := iOff }
      | .ok true =>
        match st.shaderAt current.fbShader with
        | none => .error .badPointer
        | some fb =>
          let gl4 : GLState := { gl3 with framebuffer := .screenFB s, blend := true, scissorTest := false }
          let gl5 : GLState := fb.SetArgs (fb.Use gl4)
          let gl6 : GLState := { gl5 with draws := gl5.draws ++
            [.glDrawArrays gl5.framebuffer gl5.program 0 6 gl5.blendEquation gl5.sfactor
              gl5.dfactor] }
          let gl7 : GLState := { gl6 with framebuffer := .tFB, scissorTest := true }
          .ok { queue := q, gl := gl7, freed := d.freed ++ [current.shader, current.fbShader],
                vOff := vOff, iOff := iOff }

/-- The loop `while (!renderStates[s].empty()) { ... }`, at most `fuel`
iterations. -/
def drainLoop (st : HWState) (s : Nat) : Nat → Drain → Except Fault Drain
  | 0, d => if d.queue.empty then .ok d else .error .fuel
  | fuel + 1, d =>
    if d.queue.empty then .ok d
    else match drainStep st s d with
      | .ok d' => drainLoop st s fuel d'
      | .error e => .error e

/-- Body of `for (s = 0; s < videoSettings.screenCount; ++s)`: drain the
queue of screen `s`, then `renderStates[s].finish()`. Every iteration of the
drain loop advances the read cursor, so `size - i` iterations empty it. -/
def drainScreen (st : HWState) (s : Nat) (vOff iOff : Nat) : Except Fault (HWState × Nat × Nat) :=
  match st.renderStates[s]? with
  | none => .error .outOfRange
  | some q =>
    match drainLoop st s (q.size - q.i)
        { queue := q, gl := st.gl, freed := st.freed, vOff := vOff, iOff := iOff } with
    | .error e => .error e
    | .ok d =>
      .ok ({ st with renderStates := st.renderStates.set s d.queue.finish,
                     gl := d.gl, freed := d.freed }, d.vOff, d.iOff)

/-- The screens `s, s + 1, ..., s + n - 1` in turn. -/
def drainScreens : Nat → Nat → HWState → Nat → Nat → Except Fault (HWState × Nat × Nat)
  | 0, _, st, vOff, iOff => .ok (st, vOff, iOff)
  | n + 1, s, st, vOff, iOff =>
    match drainScreen st s vOff iOff with
    | .error e => .error e
    | .ok (st', vOff', iOff') => drainScreens n (s + 1) st' vOff' iOff'

/-- Function `RenderDevice::CopyFrameBuffer` (hardware path): bind and clear the
scratch target, drain every active screen starting the running offsets at
`vOff = 6`, `iOff = 0`, then reset `vboOff = 6`, `iboOff = 0`. -/
def CopyFrameBuffer (st : HWState) : Except Fault HWState :=
  let st0 := { st with gl := { st.gl with framebuffer := .tFB, scissorTest := true } }
  match drainScreens st0.screenCount 0 st0 6 0 with
  | .error e => .error e
  | .ok (st', _, _) => .ok { st' with vboOff := 6, iboOff := 0 }

/-! ### The ring allocator and the push of the current state -/

/-- Function `AllocateVertexBuffer(count)`: the assertion, the flush when the request
does not fit, and the start of the returned region as an offset from
`vertMap` (the same offset on the `glMapBufferRange` path). -/
def AllocateVertexBuffer (st : HWState) (count : Nat) : Except Fault (Nat × HWState) :=
  if ¬ count ≤ VERTEX_LIMIT then .error .assertion
  else if (st.vboOff + count) % 2 ^ 32 > VERTEX_LIMIT + 6 then
    match CopyFrameBuffer st with
    | .error e => .error e
    | .ok st' => .ok (st'.vboOff, st')
  else .ok (st.vboOff, st)

/-- Function `AllocateIndexBuffer(count)`: as above on the index buffer, as an offset
from `indexMap`. -/
def AllocateIndexBuffer (st : HWState) (count : Nat) : Except Fault (Nat × HWState) :=
  if ¬ count ≤ VERTEX_LIMIT then .error .assertion
  else if (st.iboOff + count) % 2 ^ 32 > VERTEX_LIMIT then
    match CopyFrameBuffer st with
    | .error e => .error e
    | .ok st' => .ok (st'.iboOff, st')
  else .ok (st.iboOff, st)

/-- The command `PushCurrentState` queues: the current state with the clip
bounds of the screen copied in and `clip_X2`, `clip_Y2` turned into width and
height by the two `uint32` subtractions. -/
def queuedState (state : RenderState) (scr : ScreenInfo) : RenderState :=
  { state with
    clip_X1 := toU32 scr.clipBound_X1
    clip_Y1 := toU32 scr.clipBound_Y1
    clip_X2 := (toU32 scr.clipBound_X2 + 2 ^ 32 - toU32 scr.clipBound_X1) % 2 ^ 32
    clip_Y2 := (toU32 scr.clipBound_Y2 + 2 ^ 32 - toU32 scr.clipBound_Y1) % 2 ^ 32 }

/-- Function `PushCurrentState` up to the special case: clip bounds, push on the
screen's queue, advance of the ring offsets, reset of the counts. -/
def pushAndAdvance (st : HWState) (screen : Int) : Except Fault HWState :=
  match arrayAt st.currentState screen, arrayAt st.screens screen,
      arrayAt st.renderStates screen with
  | .ok state, .ok scr, .ok q =>
    let cmd := queuedState state scr
    .ok { st with
      renderStates := st.renderStates.set screen.toNat (q.push cmd)
      vboOff := (st.vboOff + cmd.vertexCount) % 2 ^ 32
      iboOff := (st.iboOff + cmd.indexCount) % 2 ^ 32
      currentState := st.currentState.set screen.toNat { cmd with indexCount := 0, vertexCount := 0 } }
  | _, _, _ => .error .outOfRange

/-- Function `PushCurrentState(screen)`: `pushAndAdvance`, then the special case
`if (state->fbShader == &fbTintShader) CopyFrameBuffer();`. -/
def PushCurrentState (st : HWState) (screen : Int) : Except Fault HWState :=
  match pushAndAdvance st screen with
  | .error e => .error e
  | .ok st' =>
    match arrayAt st'.currentState screen with
    | .error e => .error e
    | .ok state =>
      if state.fbShader = st'.fbTintShader.addr then CopyFrameBuffer st' else .ok st'

/-! ### States the compositor can drain -/

/-- A command whose `shader` and `fbShader` point to shader objects. -/
def HWState.validCmd (st : HWState) (c : RenderState) : Bool :=
  (st.shaderAt c.shader).isSome && (st.shaderAt c.fbShader).isSome

/-- A queue the drain loop can run on: the write cursor is inside the
storage and in `uint32` range, and the commands from the read cursor to the
write cursor are valid. -/
def HWState.drainableQueue (st : HWState) (q : RenderStateQueue) : Bool :=
  decide (q.size ≤ q._vector.length) && decide (q.size < 2 ^ 32) &&
    ((q._vector.take q.size).drop q.i).all st.validCmd

/-- A state in which every active screen has a drainable queue. -/
def HWState.drainable (st : HWState) : Bool :=
  decide (st.screenCount ≤ st.renderStates.length) &&
    (st.renderStates.take st.screenCount).all st.drainableQueue

/-- The frame of the drain: `st'` differs from `st` at most in the queues,
the GL context and the deleted addresses. -/
def HWState.drainFrame (st st' : HWState) : Prop :=
  ∃ rs gl fr, st' = { st with renderStates := rs, gl := gl, freed := fr }

/-- The draw code writing `currentState[screen]`: the state with that
entry replaced. -/
def HWState.setCurrent (st : HWState) (screen : Nat) (state : RenderState) : HWState :=
  { st with currentState := st.currentState.set screen state }

/-- Number of commands between the read and the write cursor. -/
def RenderStateQueue.pending (q : RenderStateQueue) : Nat := q.size - q.i

/-- Every pending command of the queue is followed by a resolve pass: the
condition `resolveNow` holds once the command is popped. -/
def HWState.allResolve (st : HWState) (q : RenderStateQueue) : Prop :=
  ∀ k c, q.i ≤ k → k < q.size → q._vector[k]? = some c →
    resolveNow st c { q with i := k + 1 } = .ok true

/-- The draw calls of `n` commands each resolved on its own, as
resolve-pass flags: geometry pass, resolve pass, `n` times. -/
def resolvePattern : Nat → List Bool
  | 0 => []
  | n + 1 => false :: true :: resolvePattern n

/-! ### Concrete inputs -/

/-- A command with a quad's worth of geometry. -/
def quadCmd (shader fbShader : Nat) : RenderState :=
  { shader := shader, fbShader := fbShader, vertexCount := 4, indexCount := 6 }

/-- A queue session: two stale slots kept from an earlier frame, then three
pushes interleaved with three pops. -/
def demoOps : List QueueOp :=
  [.push (quadCmd 5000 6000), .pop, .push (quadCmd 5000 6100), .push (quadCmd 5000 6200),
   .pop, .pop]

/-- A just-finished queue that kept two slots of storage. -/
def demoReusedQueue : RenderStateQueue :=
  { _vector := [quadCmd 1 2, quadCmd 3 4], i := 0, size := 0 }

/-- A singleton of class `c` at address `a` with program handle `h`. -/
def demoGlobal (a h : Nat) (c : ShaderClass) : ShaderGlobal :=
  { addr := a, obj := { cls := c, internal := h } }

/-- One active screen with an empty queue, clip bounds `(0, 0, 424, 240)`,
the singletons at addresses 1000, 1040, ... with program handles 8 to 15,
and no object made by `new`. -/
def demoState : HWState :=
  { fbNoneShader := demoGlobal 1000 8 .FBNoneShader
    fbBlendShader := demoGlobal 1040 9 .FBBlendShader
    fbAlphaShader := demoGlobal 1080 10 .FBAlphaShader
    fbAddShader := demoGlobal 1120 11 .FBAddShader
    fbSubShader := demoGlobal 1160 12 .FBSubShader
    fbTintShader := demoGlobal 1200 13 .FBTintShader
    fbMaskedShader := demoGlobal 1240 14 .FBMaskedShader
    fbUnmaskedShader := demoGlobal 1280 15 .FBUnmaskedShader
    currentState := [{}]
    renderStates := [{}]
    screens := [{ clipBound_X2 := 424, clipBound_Y2 := 240 }]
    screenCount := 1 }

/-- What a draw entry point does around `PushCurrentState`: a copy of the
rectangle shader (program 4) made by `new` at address `ps`, the FB shader
that `GetFBShader(ink, 77)` makes at address `p`, four vertices and six
indices, then the push on screen 0. -/
def demoDraw (st : HWState) (ps p : Nat) (ink : Int) : Except Fault HWState :=
  let st0 : HWState := { st with heap := (ps, { cls := .RectShader, internal := 4 }) :: st.heap }
  let r := GetFBShader st0 p ink 77
  let state : RenderState := r.2.currentState.getD 0 {}
  let state' : RenderState :=
    { state with shader := ps, fbShader := r.1, vertexCount := 4, indexCount := 6 }
  PushCurrentState { r.2 with currentState := r.2.currentState.set 0 state' } 0

/-- The state after three draws on screen 0 with ink modes none, alpha,
none, each with its own two shader objects. -/
def demoThreeQueued : Except Fault HWState :=
  match demoDraw demoState 5000 6000 INK_NONE with
  | .error e => .error e
  | .ok a =>
    match demoDraw a 5100 6100 INK_ALPHA with
    | .error e => .error e
    | .ok b => demoDraw b 5200 6200 INK_NONE

/-- The cursors `(i, size)` of every queue and the ring offsets
`(vboOff, iboOff)` of a result. -/
def ringSummary (r : Except Fault HWState) : Option (List (Nat × Nat) × Nat × Nat) :=
  match r with
  | .ok st => some (st.renderStates.map (fun q => (q.i, q.size)), st.vboOff, st.iboOff)
  | .error _ => none

/-- State `demoState` with a quad pending on screen 0 whose FB shader is a heap
copy at address 6000. -/
def demoPending : HWState :=
  { demoState with
    currentState := [quadCmd 5000 6000]
    heap := [(6000, { cls := .FBNoneShader, internal := 8 }),
             (5000, { cls := .RectShader, internal := 4 })] }

/-- The state `demoThreeQueued` evaluates to: three quads queued on screen 0,
each with its own copy of the rectangle shader (at 5000, 5100, 5200) and its
own FB shader, heap copies of the none, alpha and none singletons (at 6000,
6100, 6200). -/
def demoQueued : HWState :=
  { demoState with
    vboOff := 18
    iboOff := 18
    currentState := [{ quadCmd 5200 6200 with
      clip_X2 := 424, clip_Y2 := 240, vertexCount := 0, indexCount := 0 }]
    renderStates := [{
      _vector := [{ quadCmd 5000 6000 with clip_X2 := 424, clip_Y2 := 240 },
                  { quadCmd 5100 6100 with clip_X2 := 424, clip_Y2 := 240 },
                  { quadCmd 5200 6200 with clip_X2 := 424, clip_Y2 := 240 }]
      i := 0
      size := 3 }]
    heap := [(6200, { cls := .FBNoneShader, internal := 8 }),
             (5200, { cls := .RectShader, internal := 4 }),
             (6100, { cls := .FBAlphaShader, internal := 10, alpha := 77 }),
             (5100, { cls := .RectShader, internal := 4 }),
             (6000, { cls := .FBNoneShader, internal := 8 }),
             (5000, { cls := .RectShader, internal := 4 })] }

/-- A state whose ring is nearly full: one queued command of 16380 vertices
and 16380 indices (shader objects at 5000 and 6000), offsets
`(16386, 16380)`, and a command pending on screen 0 with shader objects of its
own (at 5100 and 6100). -/
def demoNearFull : HWState :=
  { demoState with
    vboOff := 16386
    iboOff := 16380
    currentState := [{ shader := 5100, fbShader := 6100 }]
    renderStates := [{
      _vector := [{ shader := 5000, fbShader := 6000, vertexCount := 16380, indexCount := 16380 }]
      i := 0
      size := 1 }]
    heap := [(6100, { cls := .FBNoneShader, internal := 8 }),
             (5100, { cls := .RectShader, internal := 4 }),
             (6000, { cls := .FBNoneShader, internal := 8 }),
             (5000, { cls := .RectShader, internal := 4 })] }

/-- The draw calls a result has issued. -/
def drawsOf (r : Except Fault HWState) : List GLDraw :=
  match r with
  | .ok st => st.gl.draws
  | .error _ => []

/-! ### The 3D overlay entry point -/

/-- Function `Draw3DScene(sceneID)`: the guard
`if (sceneID >= SCENE3D_COUNT || true) return;` and, behind it, the rest of
the function (`body`: the flush, the face depths, the staging, the sort and
the push). `SCENE3D_COUNT` is declared outside the given sources and is a
parameter. -/
def Draw3DScene (SCENE3D_COUNT : Nat) (body : HWState → Except Fault HWState) (st : HWState)
    (sceneID : Nat) : Except Fault HWState :=
  if decide (sceneID ≥ SCENE3D_COUNT) || true then .ok st else body st

/-! ### Layer textures -/

/-- Modelled from the spec: the layer type tag is declared outside the given
sources; the four types the spec names, and any other value of the `uint8`
tag. -/
inductive LayerType where
  | LAYER_HSCROLL | LAYER_VSCROLL | LAYER_ROTOZOOM | LAYER_BASIC
  | other (tag : Nat)
deriving DecidableEq, Repr

/-- Modelled from the spec: `TileLayer` is declared outside the given
sources; the members the layer functions read: type tag, size in tiles and
the power-of-two shifts (the tile layout is only uploaded as a texture and is
left out). -/
structure TileLayer where
  type : LayerType := .LAYER_HSCROLL
  xsize : Nat := 0
  ysize : Nat := 0
  widthShift : Nat := 0
  heightShift : Nat := 0
deriving DecidableEq, Repr

/-- A `glTexImage2D` call of `PrepareLayerTextures`: the texture it
(re)allocates (`layerTextures[l]` or `attribTextures[l]`) and its size. -/
inductive TexImage where
  | layerTexture (l : Nat) (width height : Nat)
  | attribTexture (l : Nat) (width height : Nat)
deriving DecidableEq, Repr

/-- The loop of `PrepareLayerTextures` from layer `l` on. The zero-size test
leaves the function (`return`). `width` and `height` are the powers of two
the source computes in floating point from `pixWidth` and `pixHeight`. -/
def PrepareLayerTextures.loop (width height : Nat) : Nat → List TileLayer → List TexImage
  | _, [] => []
  | l, layer :: rest =>
    if layer.xsize = 0 ∨ layer.ysize = 0 then []
    else
      TexImage.layerTexture l (2 ^ layer.widthShift) (2 ^ layer.heightShift) ::
        (match layer.type with
          | .LAYER_BASIC | .LAYER_HSCROLL => TexImage.attribTexture l 1 height
          | .LAYER_VSCROLL => TexImage.attribTexture l width 1
          | _ => TexImage.attribTexture l width height) ::
        PrepareLayerTextures.loop width height (l + 1) rest

/-- Function `PrepareLayerTextures()` over the array `tileLayers`: the
textures it (re)allocates, in order. -/
def PrepareLayerTextures (width height : Nat) (tileLayers : List TileLayer) : List TexImage :=
  PrepareLayerTextures.loop width height 0 tileLayers

/-! ### Display shaders -/

/-- Modelled from the spec: `ShaderEntry` is declared outside the given
sources; the three members `LoadShader` and `InitShaders` use. -/
structure ShaderEntry where
  name : String := ""
  programID : Nat := 0
  linear : Bool := false
deriving DecidableEq, Repr

/-- The statics and settings `InitShaders` works on: the array `shaderList`
(its length is `SHADER_COUNT`), `shaderCount`, `userShaderCount`,
`videoSettings.shaderSupport`, `videoSettings.shaderID` and
`videoSettings.windowed`. -/
structure ShaderTable where
  shaderList : List ShaderEntry := []
  shaderCount : Nat := 0
  userShaderCount : Nat := 0
  shaderSupport : Bool := false
  shaderID : Int := 0
  windowed : Bool := false
deriving DecidableEq, Repr

/-- Function `LoadShader(fileName, linear)`: nothing when the name is already
listed or the list is full; otherwise the entry at `shaderCount` is filled
with what `GL_LoadShader` returns (`load`, 0 on failure) and `shaderCount` is
incremented, whatever the returned handle is. -/
def LoadShader (load : String → String → Nat) (t : ShaderTable) (fileName : String)
    (linear : Bool) : ShaderTable :=
  if (t.shaderList.take t.shaderCount).any (fun e => e.name == fileName) then t
  else if t.shaderCount = t.shaderList.length then t
  else
    { t with
      shaderList := t.shaderList.set t.shaderCount
        { name := fileName
          programID := load "Data/Shaders/OGL/None.vs" ("Data/Shaders/OGL/" ++ fileName ++ ".fs")
          linear := linear }
      shaderCount := t.shaderCount + 1 }

/-- The fallback of `InitShaders` (`if (!maxShaders)`): no shader support,
one shader, slot 0 holding the built-in program `backupProgram`. -/
def InitShaders.fallback (backupProgram : Nat) (t : ShaderTable) : ShaderTable :=
  { t with
    shaderSupport := false
    shaderCount := 1
    shaderList := t.shaderList.modifyHead fun e =>
      { e with programID := backupProgram, linear := if t.windowed then false else e.linear } }

/-- The first part of `InitShaders()`, up to `maxShaders = shaderCount`:
shader support is assumed and the listed shaders are loaded. `modLoader` is
the build flag `RETRO_USE_MOD_LOADER`; `modShaders` are the shaders the mod
callbacks load. -/
def InitShaders.loads (load : String → String → Nat) (modLoader : Bool)
    (modShaders : List (String × Bool)) (t : ShaderTable) : ShaderTable :=
  let t0 : ShaderTable := { t with shaderSupport := true }
  let t1 : ShaderTable := if modLoader then { t0 with shaderCount := 0 } else t0
  let t2 := LoadShader load t1 "None" false
  let t3 := LoadShader load t2 "Clean" true
  let t4 := LoadShader load t3 "CRT-Yeetron" true
  let t5 := LoadShader load t4 "CRT-Yee64" true
  let t6 : ShaderTable :=
    if modLoader then
      let m := modShaders.foldl (fun a e => LoadShader load a e.1 e.2) t5
      { m with userShaderCount := m.shaderCount }
    else t5
  let t7 := LoadShader load t6 "YUV-420" true
  let t8 := LoadShader load t7 "YUV-422" true
  let t9 := LoadShader load t8 "YUV-444" true
  LoadShader load t9 "RGB-Image" true

/-- Function `InitShaders()`: the loads, the fallback when no shader is
counted (`if (!maxShaders)`), and the clamp of `videoSettings.shaderID`. -/
def InitShaders (load : String → String → Nat) (modLoader : Bool)
    (modShaders : List (String × Bool)) (backupProgram : Nat) (t : ShaderTable) : ShaderTable :=
  let t10 := InitShaders.loads load modLoader modShaders t
  let maxShaders : Int := if t10.shaderCount = 0 then 1 else t10.shaderCount
  let t11 := if t10.shaderCount = 0 then InitShaders.fallback backupProgram t10 else t10
  { t11 with shaderID := max (if t11.shaderID ≥ maxShaders then 0 else t11.shaderID) 0 }

/-! ### Blending -/

/-- The singletons have the classes they are declared with. -/
def HWState.singletonsTyped (st : HWState) : Bool :=
  decide (st.fbNoneShader.obj.cls = .FBNoneShader) &&
  decide (st.fbBlendShader.obj.cls = .FBBlendShader) &&
  decide (st.fbAlphaShader.obj.cls = .FBAlphaShader) &&
  decide (st.fbAddShader.obj.cls = .FBAddShader) &&
  decide (st.fbSubShader.obj.cls = .FBSubShader) &&
  decide (st.fbTintShader.obj.cls = .FBTintShader) &&
  decide (st.fbMaskedShader.obj.cls = .FBMaskedShader) &&
  decide (st.fbUnmaskedShader.obj.cls = .FBUnmaskedShader)

/-- The weight a blend factor stands for, given the alpha of the source
fragment. -/
def BlendFactor.weight (f : BlendFactor) (srcAlpha : ℚ) : ℚ :=
  match f with
  | .GL_ZERO => 0
  | .GL_ONE => 1
  | .GL_SRC_ALPHA => srcAlpha
  | .GL_ONE_MINUS_SRC_ALPHA => 1 - srcAlpha

/-- Clamping of a colour component to `[0, 1]`. -/
def clamp01 (x : ℚ) : ℚ := max 0 (min 1 x)

/-- The blending stage of OpenGL on one colour component, components being
fractions of the channel maximum: `GL_FUNC_ADD` gives
`src * sfactor + dst * dfactor`, `GL_FUNC_SUBTRACT` gives
`src * sfactor - dst * dfactor`, clamped to `[0, 1]`. -/
def glBlend (gl : GLState) (src dst srcAlpha : ℚ) : ℚ :=
  match gl.blendEquation with
  | .GL_FUNC_ADD =>
    clamp01 (src * gl.sfactor.weight srcAlpha + dst * gl.dfactor.weight srcAlpha)
  | .GL_FUNC_SUBTRACT =>
    clamp01 (src * gl.sfactor.weight srcAlpha - dst * gl.dfactor.weight srcAlpha)

/-- The object behind the pointer `GetFBShader(ink, alpha)` returns, in the
state it leaves. -/
def GetFBShader.made (st : HWState) (p : Nat) (ink : Int) (alpha : Nat) : Option Shader :=
  (GetFBShader st p ink alpha).2.shaderAt (GetFBShader st p ink alpha).1

/-! ### The deformation encoders and the tile-layer draw calls -/

/-- A `float` value, named by the expression that produced it: the
conversion of an integer (`ofInt`; the literals `-1.0`, `0.0`, `1.0` and the
converted `uint8` of the line buffer are of this form), the quotient
`n / (float)(1UL << shift)` of the encoders (`quot`), or any other bit
pattern (`raw`). Equal names are equal floats. -/
inductive Flt where
  | ofInt (n : Int)
  | quot (n : Int) (shift : Nat)
  | raw (bits : Nat)
deriving DecidableEq, Repr

/-- Modelled from the spec: `ScanlineInfo` is declared outside the given
sources; the members the encoders read, `position.x`, `position.y`,
`deform.x` and `deform.y`, all `int32`. -/
structure ScanlineInfo where
  position_x : Int := 0
  position_y : Int := 0
  deform_x : Int := 0
  deform_y : Int := 0
deriving DecidableEq, Repr

/-- The struct `RenderVertex`: `float3 pos`, `uint32 color`, `float2 tex`. -/
structure RenderVertex where
  pos : Flt × Flt × Flt := (.ofInt 0, .ofInt 0, .ofInt 0)
  color : Nat := 0
  tex : Flt × Flt := (.ofInt 0, .ofInt 0)
deriving DecidableEq, Repr

/-- What the draw entry points read besides the renderer state: the arrays
`scanlines` and `gfxLineBuffer`, `videoSettings.pixWidth` and
`videoSettings.pixHeight`, the pointer `currentScreen` (as the index `k` with
`currentScreen == &screens[k]`), the three tile-shader singletons and the
singletons `rectShader` and `fillShader`. -/
structure DrawEnv where
  scanlines : List ScanlineInfo := []
  gfxLineBuffer : List Nat := []
  pixWidth : Int := 0
  pixHeight : Int := 0
  currentScreen : Nat := 0
  tileDShader : Shader := { cls := .TileShader }
  tileHShader : Shader := { cls := .TileShader }
  tileVShader : Shader := { cls := .TileShader }
  rectShader : Shader := { cls := .RectShader }
  fillShader : Shader := { cls := .FillShader }
deriving DecidableEq, Repr

/-- The scratch array `attributeBuf` (floats, four per record) and the
mapped vertex and index buffers `vertMap` and `indexMap`. -/
structure Buffers where
  attributeBuf : List Flt := []
  vertMap : List RenderVertex := []
  indexMap : List Nat := []
deriving DecidableEq, Repr

/-- An `int32` sum; the overflow, undefined in C++, is taken as the
two's-complement wrap-around. -/
def wrap32 (x : Int) : Int := (x + 2147483648) % 4294967296 - 2147483648

/-- The three stores `*++attBuf = x; *++attBuf = y; *++attBuf = z; ++attBuf;`
for record `k`: components `4k`, `4k + 1` and `4k + 2` are written, component
`4k + 3` is stepped over. -/
def writeRecord (buf : List Flt) (k : Nat) (x y z : Flt) : Except Fault (List Flt) :=
  if 4 * k + 2 < buf.length then
    .ok (((buf.set (4 * k) x).set (4 * k + 1) y).set (4 * k + 2) z)
  else .error .outOfRange

/-- The encoder loop of `DrawLayerHScroll` with `n` iterations left: row
`cy`, the pointers `scanline` and `lineBuffer` as indices into `scanlines`
and `gfxLineBuffer`. -/
def DrawLayerHScroll.encode (scanlines : List ScanlineInfo) (gfxLineBuffer : List Nat)
    (scr : ScreenInfo) (layer : TileLayer) :
    Nat → Nat → Int → Int → List Flt → Except Fault (List Flt)
  | 0, _, _, _, buf => .ok buf
  | n + 1, cy, scanline, lineBuffer, buf =>
    match arrayAt scanlines scanline, arrayAt gfxLineBuffer lineBuffer with
    | .ok sl, .ok lb =>
      match writeRecord buf cy (.quot sl.position_x (20 + layer.widthShift))
          (.quot sl.position_y (20 + layer.heightShift)) (.ofInt lb) with
      | .error e => .error e
      | .ok buf1 =>
        if scr.clipBound_Y1 ≤ (cy : Int) ∧ (cy : Int) < scr.clipBound_Y2 then
          DrawLayerHScroll.encode scanlines gfxLineBuffer scr layer n (cy + 1) (scanline + 1)
            (lineBuffer + 1) buf1
        else
          DrawLayerHScroll.encode scanlines gfxLineBuffer scr layer n (cy + 1) scanline
            lineBuffer buf1
    | _, _ => .error .outOfRange

/-- The encoder loop of `DrawLayerVScroll` with `n` iterations left: column
`cx`; `scanline` advances inside the horizontal clip bounds, `lineBuffer`
while `cx < currentScreen->size.y`. -/
def DrawLayerVScroll.encode (scanlines : List ScanlineInfo) (gfxLineBuffer : List Nat)
    (scr : ScreenInfo) (layer : TileLayer) :
    Nat → Nat → Int → Int → List Flt → Except Fault (List Flt)
  | 0, _, _, _, buf => .ok buf
  | n + 1, cx, scanline, lineBuffer, buf =>
    match arrayAt scanlines scanline, arrayAt gfxLineBuffer lineBuffer with
    | .ok sl, .ok lb =>
      match writeRecord buf cx (.quot sl.position_x (20 + layer.widthShift))
          (.quot sl.position_y (20 + layer.heightShift)) (.ofInt lb) with
      | .error e => .error e
      | .ok buf1 =>
        DrawLayerVScroll.encode scanlines gfxLineBuffer scr layer n (cx + 1)
          (if scr.clipBound_X1 ≤ (cx : Int) ∧ (cx : Int) < scr.clipBound_X2 then scanline + 1
           else scanline)
          (if (cx : Int) < scr.size_y then lineBuffer + 1 else lineBuffer) buf1
    | _, _ => .error .outOfRange

/-- The inner loop of `DrawLayerRotozoom` with `n` iterations left: column
`cx` of the row whose scanline entry is `sl` and line-buffer entry `lb`,
record `k`, running position `posX`, `posY`. -/
def DrawLayerRotozoom.row (scr : ScreenInfo) (layer : TileLayer) (sl : ScanlineInfo) (lb : Nat) :
    Nat → Nat → Nat → Int → Int → List Flt → Except Fault (List Flt)
  | 0, _, _, _, _, buf => .ok buf
  | n + 1, cx, k, posX, posY, buf =>
    match writeRecord buf k (.quot posX (20 + layer.widthShift))
        (.quot posY (20 + layer.heightShift)) (.ofInt lb) with
    | .error e => .error e
    | .ok buf1 =>
      if scr.clipBound_X1 ≤ (cx : Int) ∧ (cx : Int) < scr.clipBound_X2 then
        DrawLayerRotozoom.row scr layer sl lb n (cx + 1) (k + 1) (wrap32 (posX + sl.deform_x))
          (wrap32 (posY + sl.deform_y)) buf1
      else DrawLayerRotozoom.row scr layer sl lb n (cx + 1) (k + 1) posX posY buf1

/-- The outer loop of `DrawLayerRotozoom` with `n` iterations left: row `cy`,
first record `k` of the row, `pixWidth` records per row. -/
def DrawLayerRotozoom.encode (scanlines : List ScanlineInfo) (gfxLineBuffer : List Nat)
    (scr : ScreenInfo) (layer : TileLayer) (pixWidth : Nat) :
    Nat → Nat → Nat → Int → Int → List Flt → Except Fault (List Flt)
  | 0, _, _, _, _, buf => .ok buf
  | n + 1, cy, k, scanline, lineBuffer, buf =>
    match arrayAt scanlines scanline, arrayAt gfxLineBuffer lineBuffer with
    | .ok sl, .ok lb =>
      match DrawLayerRotozoom.row scr layer sl lb pixWidth 0 k sl.position_x sl.position_y buf with
      | .error e => .error e
      | .ok buf1 =>
        if scr.clipBound_Y1 ≤ (cy : Int) ∧ (cy : Int) < scr.clipBound_Y2 then
          DrawLayerRotozoom.encode scanlines gfxLineBuffer scr layer pixWidth n (cy + 1)
            (k + pixWidth) (scanline + 1) (lineBuffer + 1) buf1
        else
          DrawLayerRotozoom.encode scanlines gfxLineBuffer scr layer pixWidth n (cy + 1)
            (k + pixWidth) scanline lineBuffer buf1
    | _, _ => .error .outOfRange

/-- The horizontal-scroll encoder (`DrawLayerHScroll`, the loop and the
three pointer initialisations before it) on the attribute array `buf`. -/
def encodeHScroll (env : DrawEnv) (scr : ScreenInfo) (layer : TileLayer) (buf : List Flt) :
    Except Fault (List Flt) :=
  DrawLayerHScroll.encode env.scanlines env.gfxLineBuffer scr layer env.pixHeight.toNat 0
    scr.clipBound_Y1 scr.clipBound_Y1 buf

/-- The vertical-scroll encoder (`DrawLayerVScroll`). -/
def encodeVScroll (env : DrawEnv) (scr : ScreenInfo) (layer : TileLayer) (buf : List Flt) :
    Except Fault (List Flt) :=
  DrawLayerVScroll.encode env.scanlines env.gfxLineBuffer scr layer env.pixWidth.toNat 0
    scr.clipBound_X1 0 buf

/-- The rotozoom encoder (`DrawLayerRotozoom`). -/
def encodeRotozoom (env : DrawEnv) (scr : ScreenInfo) (layer : TileLayer) (buf : List Flt) :
    Except Fault (List Flt) :=
  DrawLayerRotozoom.encode env.scanlines env.gfxLineBuffer scr layer env.pixWidth.toNat
    env.pixHeight.toNat 0 0 scr.clipBound_Y1 scr.clipBound_Y1 buf

/-- Entry `j` of the table `quadIndices` that `SetupHWRendering` fills:
quad `j / 6` contributes `4i + 0, 4i + 1, 4i + 2, 4i + 1, 4i + 3, 4i + 2`;
`none` past the end of the table. -/
def quadIndices (j : Nat) : Option Nat :=
  if j < VERTEX_LIMIT / 4 * 6 then some (4 * (j / 6) + [0, 1, 2, 1, 3, 2].getD (j % 6) 0)
  else none

/-- Stores of `vals` at elements `off, off + 1, ...` of an array. -/
def writeList {α : Type} (buf : List α) (off : Nat) (vals : List α) : Except Fault (List α) :=
  if off + vals.length ≤ buf.length then
    .ok (buf.take off ++ vals ++ buf.drop (off + vals.length))
  else .error .outOfRange

/-- Function `AddQuadsToBuffer(indexBuffer, count)`: the `memcpy` of the first
`6 * count` entries of `quadIndices` to the index region at `indexBuffer`. -/
def AddQuadsToBuffer (indexMap : List Nat) (indexBuffer : Nat) (count : Nat) :
    Except Fault (List Nat) :=
  match (List.range (count * 6)).mapM quadIndices with
  | some vals => writeList indexMap indexBuffer vals
  | none => .error .outOfRange

/-- The four vertices every layer function stores: corners `(-1, -1)`,
`(1, -1)`, `(-1, 1)`, `(1, 1)` at depth `1.0`, colour `0xFFFFFF`, texture
coordinates `(0, 0)`, `(1, 0)`, `(0, 1)`, `(1, 1)`. -/
def layerQuad : List RenderVertex :=
  [{ pos := (.ofInt (-1), .ofInt (-1), .ofInt 1), color := 0xFFFFFF, tex := (.ofInt 0, .ofInt 0) },
   { pos := (.ofInt 1, .ofInt (-1), .ofInt 1), color := 0xFFFFFF, tex := (.ofInt 1, .ofInt 0) },
   { pos := (.ofInt (-1), .ofInt 1, .ofInt 1), color := 0xFFFFFF, tex := (.ofInt 0, .ofInt 1) },
   { pos := (.ofInt 1, .ofInt 1, .ofInt 1), color := 0xFFFFFF, tex := (.ofInt 1, .ofInt 1) }]

/-- A store through the pointer `state = currentState + s`. -/
def HWState.modifyCurrent (st : HWState) (s : Int) (f : RenderState → RenderState) :
    Except Fault HWState :=
  match arrayAt st.currentState s with
  | .error e => .error e
  | .ok state => .ok (st.setCurrent s.toNat (f state))

/-- What the draw entry points do with the renderer state once their
geometry is known, for the screen index `s` they computed: the stores of
`shader`, `fbShader` and `texture` through `state = currentState + s`, then
`state->vertexBuffer = AllocateVertexBuffer(vertexCount)`,
`state->indexBuffer = AllocateIndexBuffer(indexCount)`, the two `+=` on the
counts and `PushCurrentState(s)`. Returns the two regions as well. -/
def stageAndPush (st : HWState) (s : Int) (shader fbShader : Nat) (vertexCount indexCount : Nat) :
    Except Fault (Nat × Nat × HWState) :=
  match st.modifyCurrent s
      (fun state => { state with shader := shader, fbShader := fbShader, texture := 0 }) with
  | .error e => .error e
  | .ok st1 =>
    match AllocateVertexBuffer st1 vertexCount with
    | .error e => .error e
    | .ok (v, st2) =>
      match st2.modifyCurrent s (fun state => { state with vertexBuffer := v }) with
      | .error e => .error e
      | .ok st3 =>
        match AllocateIndexBuffer st3 indexCount with
        | .error e => .error e
        | .ok (i, st4) =>
          match st4.modifyCurrent s (fun state => { state with
              indexBuffer := i
              vertexCount := (state.vertexCount + vertexCount) % 2 ^ 32
              indexCount := (state.indexCount + indexCount) % 2 ^ 32 }) with
          | .error e => .error e
          | .ok st5 =>
            match PushCurrentState st5 s with
            | .error e => .error e
            | .ok st6 => .ok (v, i, st6)

/-- The part the three layer functions share after their encoder loop, for
the tile-shader singleton `tile` they copy and the layer index `l`:
`s = screens - currentScreen`, the copies `new TileShader(tile)` at address
`p` and `new FBNoneShader(fbNoneShader)` at address `pf`, `shader->layer = l`
(a `uint8`), the staging and push of four vertices and six indices, and the
stores of the quad into the two regions. The texture uploads are not part of
the state. -/
def DrawLayer.queueQuad (env : DrawEnv) (p pf : Nat) (st : HWState) (bufs : Buffers)
    (tile : Shader) (l : Nat) : Except Fault (HWState × Buffers) :=
  let s : Int := (0 : Int) - (env.currentScreen : Int)
  let st0 : HWState :=
    { st with heap := (pf, st.fbNoneShader.obj) :: (p, { tile with layer := l % 256 }) :: st.heap }
  match stageAndPush st0 s p pf 4 6 with
  | .error e => .error e
  | .ok (v, i, st1) =>
    match AddQuadsToBuffer bufs.indexMap i 1, writeList bufs.vertMap v layerQuad with
    | .ok indexMap, .ok vertMap => .ok (st1, { bufs with indexMap := indexMap, vertMap := vertMap })
    | _, _ => .error .outOfRange

/-- Function `DrawLayerHScroll(layer)`, `layer` being `&tileLayers[l]`. -/
def DrawLayerHScroll (env : DrawEnv) (p pf : Nat) (st : HWState) (bufs : Buffers) (l : Nat)
    (layer : TileLayer) : Except Fault (HWState × Buffers) :=
  if layer.xsize = 0 ∨ layer.ysize = 0 then .ok (st, bufs)
  else
    match arrayAt st.screens env.currentScreen with
    | .error e => .error e
    | .ok scr =>
      match encodeHScroll env scr layer bufs.attributeBuf with
      | .error e => .error e
      | .ok att =>
        DrawLayer.queueQuad env p pf st { bufs with attributeBuf := att } env.tileHShader l

/-- The two stores `renderStates[s].last().clip_Y1 = y1` and
`renderStates[s].last().clip_Y2 = y2`; `last()` is the sentinel when
`size == 0`. -/
def RenderStateQueue.setLastClipY (q : RenderStateQueue) (y1 y2 : Nat) :
    Except Fault RenderStateQueue :=
  if q.size = 0 then .ok { q with _default := { q._default with clip_Y1 := y1, clip_Y2 := y2 } }
  else
    match q._vector[q.size - 1]? with
    | some c =>
      .ok { q with _vector := q._vector.set (q.size - 1) { c with clip_Y1 := y1, clip_Y2 := y2 } }
    | none => .error .outOfRange

/-- Function `DrawLayerVScroll(layer)`: as above with the column encoder, then the
clip rectangle of the command just queued is given the full height. -/
def DrawLayerVScroll (env : DrawEnv) (p pf : Nat) (st : HWState) (bufs : Buffers) (l : Nat)
    (layer : TileLayer) : Except Fault (HWState × Buffers) :=
  if layer.xsize = 0 ∨ layer.ysize = 0 then .ok (st, bufs)
  else
    match arrayAt st.screens env.currentScreen with
    | .error e => .error e
    | .ok scr =>
      match encodeVScroll env scr layer bufs.attributeBuf with
      | .error e => .error e
      | .ok att =>
        match DrawLayer.queueQuad env p pf st { bufs with attributeBuf := att }
            env.tileVShader l with
        | .error e => .error e
        | .ok (st1, bufs1) =>
          let s : Int := (0 : Int) - (env.currentScreen : Int)
          match arrayAt st1.renderStates s with
          | .error e => .error e
          | .ok q =>
            match q.setLastClipY 0 (toU32 scr.size_y) with
            | .error e => .error e
            | .ok q1 =>
              .ok ({ st1 with renderStates := st1.renderStates.set s.toNat q1 }, bufs1)

/-- Function `DrawLayerRotozoom(layer)`. -/
def DrawLayerRotozoom (env : DrawEnv) (p pf : Nat) (st : HWState) (bufs : Buffers) (l : Nat)
    (layer : TileLayer) : Except Fault (HWState × Buffers) :=
  if layer.xsize = 0 ∨ layer.ysize = 0 then .ok (st, bufs)
  else
    match arrayAt st.screens env.currentScreen with
    | .error e => .error e
    | .ok scr =>
      match encodeRotozoom env scr layer bufs.attributeBuf with
      | .error e => .error e
      | .ok att =>
        DrawLayer.queueQuad env p pf st { bufs with attributeBuf := att } env.tileDShader l

/-- Function `DrawLayerBasic(layer)`: `DrawLayerHScroll(layer)`. -/
def DrawLayerBasic (env : DrawEnv) (p pf : Nat) (st : HWState) (bufs : Buffers) (l : Nat)
    (layer : TileLayer) : Except Fault (HWState × Buffers) :=
  DrawLayerHScroll env p pf st bufs l layer

/-- Two runs of an encoder, one from `buf` to `r`, one from `buf'` to `r'`,
made the same stores: both kept the length, and every component is either
equal in the results or left as it was in both runs. -/
def BufAgree (buf buf' r r' : List Flt) : Prop :=
  r.length = buf.length ∧ r'.length = buf'.length ∧
    ∀ p : Nat, r'[p]? = r[p]? ∨ (r'[p]? = buf'[p]? ∧ r[p]? = buf[p]?)

/-! ### Concrete inputs of the later claims -/

/-- A 32 by 32 layer of type horizontal scroll. -/
def demoLayer : TileLayer :=
  { type := .LAYER_HSCROLL, xsize := 32, ysize := 32, widthShift := 9, heightShift := 9 }

/-- A table of eight free shader slots. -/
def demoShaderTable : ShaderTable :=
  { shaderList := List.replicate 8 {}, shaderSupport := false }

/-- Two quads queued on screen 0, each with its own copy of the rectangle
shader (at 5000, 5100) and its own heap copy of the none shader (at 6000,
6100). -/
def demoTwoNone : HWState :=
  { demoState with
    vboOff := 14
    iboOff := 12
    renderStates := [{
      _vector := [{ quadCmd 5000 6000 with clip_X2 := 424, clip_Y2 := 240 },
                  { quadCmd 5100 6100 with clip_X2 := 424, clip_Y2 := 240 }]
      i := 0
      size := 2 }]
    heap := [(6100, { cls := .FBNoneShader, internal := 8 }),
             (5100, { cls := .RectShader, internal := 4 }),
             (6000, { cls := .FBNoneShader, internal := 8 }),
             (5000, { cls := .RectShader, internal := 4 })] }

/-- Inputs of the encoders: four scanline entries, four line-buffer
entries, a 2 by 2 pixel target and three tile-shader singletons. -/
def demoDrawEnv : DrawEnv :=
  { scanlines :=
      [{ position_x := 1048576, position_y := 2097152, deform_x := 65536, deform_y := -65536 },
       { position_x := 3145728, position_y := 0, deform_x := 131072, deform_y := 1 },
       { position_x := -1048576, position_y := 5 },
       {}]
    gfxLineBuffer := [3, 1, 2, 0]
    pixWidth := 2
    pixHeight := 2
    tileDShader := { cls := .TileShader, internal := 1 }
    tileHShader := { cls := .TileShader, internal := 2 }
    tileVShader := { cls := .TileShader, internal := 3 } }

/-- A screen whose clip rectangle is the left column of the 2 by 2 target. -/
def demoClip : ScreenInfo :=
  { clipBound_X1 := 0, clipBound_Y1 := 0, clipBound_X2 := 1, clipBound_Y2 := 2, size_y := 2 }

/-- An attribute array of four records holding other data. -/
def demoAttributeBuf : List Flt := List.replicate 16 (.raw 7)

/-- Two active screens with empty queues, otherwise as `demoState`. -/
def demoTwoScreens : HWState :=
  { demoState with
    currentState := [{}, {}]
    renderStates := [{}, {}]
    screens := [{ clipBound_X2 := 424, clipBound_Y2 := 240, size_y := 240 },
                { clipBound_X2 := 424, clipBound_Y2 := 240, size_y := 240 }]
    screenCount := 2 }

/-- The attribute array `demoAttributeBuf`, twelve vertices and eight
indices of mapped storage. -/
def demoBuffers : Buffers :=
  { attributeBuf := demoAttributeBuf, vertMap := List.replicate 12 {},
    indexMap := List.replicate 8 0 }

/-- The commands between the read and the write cursor of a queue. -/
def RenderStateQueue.pendingCmds (q : RenderStateQueue) : List RenderState :=
  (q._vector.take q.size).drop q.i

/-- The pending commands of every queue, the ring offsets and the index
storage of the result of a layer function. -/
def layerSummary (r : Except Fault (HWState × Buffers)) :
    Option (List (List RenderState) × Nat × Nat × List Nat) :=
  match r with
  | .ok (st, bufs) =>
    some (st.renderStates.map RenderStateQueue.pendingCmds, st.vboOff, st.iboOff, bufs.indexMap)
  | .error _ => none

/-! ### Draw calls across screens and the offsets of the compositor -/

/-- The pending commands of the active screens in the order the compositor
drains them: screen 0 first, each queue from its read cursor on. -/
def HWState.pendingCmds (st : HWState) : List RenderState :=
  ((st.renderStates.take st.screenCount).map RenderStateQueue.pendingCmds).flatten

/-- The `count`, `indices` (a byte offset) and `basevertex` of a geometry
pass; `none` for a resolve pass. -/
def GLDraw.geometry : GLDraw → Option (Nat × Nat × Nat)
  | .glDrawElementsBaseVertex _ _ count indices basevertex _ => some (count, indices, basevertex)
  | .glDrawArrays .. => none

/-- The geometry passes among draw calls, in order. -/
def geometryPasses (draws : List GLDraw) : List (Nat × Nat × Nat) :=
  draws.filterMap GLDraw.geometry

/-- The offsets `CopyFrameBuffer` draws commands with: the locals `vOff` and
`iOff`, advanced by the counts of each command drawn
(`iOff * sizeof(uint16)` is the byte offset handed to the draw call). -/
def runningOffsets : Nat → Nat → List RenderState → List (Nat × Nat × Nat)
  | _, _, [] => []
  | vOff, iOff, c :: cs =>
    (c.indexCount, iOff * 2, vOff) ::
      runningOffsets ((vOff + c.vertexCount) % 2 ^ 32) ((iOff + c.indexCount) % 2 ^ 32) cs

/-- The values of `vOff` and `iOff` after the commands. -/
def endOffsets : Nat → Nat → List RenderState → Nat × Nat
  | vOff, iOff, [] => (vOff, iOff)
  | vOff, iOff, c :: cs =>
    endOffsets ((vOff + c.vertexCount) % 2 ^ 32) ((iOff + c.indexCount) % 2 ^ 32) cs

/-- The offsets at which the geometry of commands was allocated: the regions
`vertexBuffer` and `indexBuffer` the allocator returned, in the form of a
geometry pass. -/
def allocatedOffsets (cmds : List RenderState) : List (Nat × Nat × Nat) :=
  cmds.map fun c => (c.indexCount, c.indexBuffer * 2, c.vertexBuffer)

/-- A draw call as the renderer state sees it: the screen index handed to
`PushCurrentState`, the shader objects and the counts of the geometry. -/
structure DrawCall where
  screen : Nat
  shader : Nat
  fbShader : Nat
  vertexCount : Nat
  indexCount : Nat
deriving DecidableEq, Repr

/-- Draw calls in turn, each staged and pushed by `stageAndPush`. -/
def runDrawCalls : HWState → List DrawCall → Except Fault HWState
  | st, [] => .ok st
  | st, dc :: rest =>
    match stageAndPush st dc.screen dc.shader dc.fbShader dc.vertexCount dc.indexCount with
    | .error e => .error e
    | .ok (_, _, st') => runDrawCalls st' rest

/-- The state draw calls start from after a drain: the queues of the active
screens are empty with both cursors at zero, the ring offsets are `(6, 0)`,
the counts of every current state are zero, and the arrays hold an entry for
every active screen. -/
def HWState.fresh (st : HWState) : Bool :=
  decide (st.vboOff = 6) && decide (st.iboOff = 0) &&
    decide (st.screenCount ≤ st.renderStates.length) &&
    decide (st.screenCount ≤ st.currentState.length) &&
    decide (st.screenCount ≤ st.screens.length) &&
    (st.renderStates.take st.screenCount).all (fun q => decide (q.i = 0) && decide (q.size = 0)) &&
    (st.currentState.take st.screenCount).all
      (fun c => decide (c.vertexCount = 0) && decide (c.indexCount = 0))

/-- The draw calls a state can run and drain: each names an active screen
and two shader objects, the FB shader not being the singleton
`fbTintShader`. -/
def HWState.validCall (st : HWState) (dc : DrawCall) : Bool :=
  decide (dc.screen < st.screenCount) && (st.shaderAt dc.shader).isSome &&
    (st.shaderAt dc.fbShader).isSome && decide (dc.fbShader ≠ st.fbTintShader.addr)

/-- The pending commands of a result. -/
def pendingOf (r : Except Fault HWState) : List RenderState :=
  match r with
  | .ok st => st.pendingCmds
  | .error _ => []

/-- The drain of a result. -/
def thenCopyFrameBuffer (r : Except Fault HWState) : Except Fault HWState :=
  match r with
  | .ok st => CopyFrameBuffer st
  | .error e => .error e

/-- State `demoTwoScreens` with two copies of the rectangle shader at 5000 and
5100 and two copies of the none shader at 6000 and 6100. -/
def demoTwoScreensHeap : HWState :=
  { demoTwoScreens with
    heap := [(6100, { cls := .FBNoneShader, internal := 8 }),
             (5100, { cls := .RectShader, internal := 4 }),
             (6000, { cls := .FBNoneShader, internal := 8 }),
             (5000, { cls := .RectShader, internal := 4 })] }

/-- Two draw calls, the first on screen 1 (eight vertices, twelve indices),
the second on screen 0 (four vertices, six indices). -/
def demoInterleaved : List DrawCall :=
  [{ screen := 1, shader := 5000, fbShader := 6000, vertexCount := 8, indexCount := 12 },
   { screen := 0, shader := 5100, fbShader := 6100, vertexCount := 4, indexCount := 6 }]

/-- The same two draw calls in screen order. -/
def demoScreenOrder : List DrawCall :=
  [{ screen := 0, shader := 5100, fbShader := 6100, vertexCount := 4, indexCount := 6 },
   { screen := 1, shader := 5000, fbShader := 6000, vertexCount := 8, indexCount := 12 }]

/-- What a draw call hands to the renderer state: the shader objects and
the counts. -/
def DrawCall.key (dc : DrawCall) : Nat × Nat × Nat × Nat :=
  (dc.shader, dc.fbShader, dc.vertexCount, dc.indexCount)

/-- The same four values of a queued command. -/
def RenderState.key (c : RenderState) : Nat × Nat × Nat × Nat :=
  (c.shader, c.fbShader, c.vertexCount, c.indexCount)

/-- The frame of a draw call that does not flush: `st'` differs from `st`
at most in the queues, the ring offsets and the current states. -/
def HWState.pushFrame (st st' : HWState) : Prop :=
  ∃ rs v i cs, st' = { st with renderStates := rs, vboOff := v, iboOff := i, currentState := cs }

/-- The invariant of draw calls issued in screen order since the last drain,
the last one on screen `m`, at most `N` of them: the state can be drained,
every active screen has a current state with zero counts and a screen
record, the queues of the screens after `m` are empty, and the running
offsets of the compositor over the pending commands are the offsets at which
their geometry was allocated, ending at the ring offsets. -/
def HWState.inScreenOrder (st : HWState) (m N : Nat) : Prop :=
  st.drainable = true ∧ st.screenCount ≤ st.currentState.length ∧
    st.screenCount ≤ st.screens.length ∧ 6 ≤ st.vboOff ∧
    (∀ k state, k < st.screenCount → st.currentState[k]? = some state →
      state.vertexCount = 0 ∧ state.indexCount = 0) ∧
    (∀ k q, k < st.screenCount → st.renderStates[k]? = some q →
      q.i ≤ q.size ∧ q.size ≤ N ∧ (m < k → q.size ≤ q.i)) ∧
    runningOffsets 6 0 st.pendingCmds = allocatedOffsets st.pendingCmds ∧
    endOffsets 6 0 st.pendingCmds = (st.vboOff, st.iboOff)

/-- The base vertex and the index start of the `k`-th geometry pass of a
drain of the commands `cmds`, in closed form: 6 resp. 0 plus the counts of
the commands drawn before it, in `uint32` arithmetic. -/
def drainOffsets (cmds : List RenderState) (k : Nat) : Nat × Nat :=
  ((6 + ((cmds.take k).map RenderState.vertexCount).sum) % 2 ^ 32,
   (((cmds.take k).map RenderState.indexCount).sum) % 2 ^ 32)

/-! ### Blend state of the resolve passes -/

/-- The program, blend equation and blend factors of the resolve passes among
draw calls, in order. -/
def resolveBlend (draws : List GLDraw) :
    List (Nat × BlendEquation × BlendFactor × BlendFactor) :=
  draws.filterMap fun d =>
    match d with
    | .glDrawArrays _ program _ _ equation sfactor dfactor =>
      some (program, equation, sfactor, dfactor)
    | .glDrawElementsBaseVertex .. => none

/-- Two quads queued on screen 0, each with its own copy of the rectangle
shader (at 5000, 5100): the first with a copy of the resolve shader `first`
at address 6000, the second with a copy of the tint shader (program 13) at
address 6100. -/
def demoThenTint (first : Shader) : HWState :=
  { demoState with
    vboOff := 14
    iboOff := 12
    renderStates := [{
      _vector := [{ quadCmd 5000 6000 with clip_X2 := 424, clip_Y2 := 240 },
                  { quadCmd 5100 6100 with clip_X2 := 424, clip_Y2 := 240 }]
      i := 0
      size := 2 }]
    heap := [(6100, { cls := .FBTintShader, internal := 13 }),
             (5100, { cls := .RectShader, internal := 4 }),
             (6000, first),
             (5000, { cls := .RectShader, internal := 4 })] }

/-! ### Read bounds of the vertical-scroll encoder -/

/-- A 424 pixel wide target over a line buffer of 240 entries
(`SCREEN_YSIZE`) and 424 scanline entries. -/
def demoWideEnv : DrawEnv :=
  { scanlines := List.replicate 424 {}
    gfxLineBuffer := List.replicate 240 0
    pixWidth := 424
    pixHeight := 240 }

/-- A screen 240 lines high with the whole 424 by 240 target as clip
rectangle. -/
def demoWideScreen : ScreenInfo :=
  { clipBound_X1 := 0, clipBound_Y1 := 0, clipBound_X2 := 424, clipBound_Y2 := 240, size_y := 240 }

/-! ### The 3D overlay: face depths and the face sort -/

/-- The shift `z >> k` of an `int32`: the arithmetic shift, the floor of
`z / 2 ^ k`. -/
def asr (z : Int) (k : Nat) : Int := z / 2 ^ k

/-- The `switch (*faceVertCounts)` of `Draw3DScene` that gives a face its
depth, `vertices` being the `z` members from the current vertex on: one
vertex (and every count other than 2, 3 and 4) takes `vertices[0].z`; two
add the halves; three halve the first, add half of the second, halve the
sum, then add half of the third; four add the quarters. The sums of shifted
`int32` values stay in `int32` range. -/
def Draw3DScene.faceDepth (faceVertCount : Nat) (vertices : List Int) : Except Fault Int :=
  match faceVertCount, vertices with
  | 2, z0 :: z1 :: _ => .ok (asr z0 1 + asr z1 1)
  | 3, z0 :: z1 :: z2 :: _ => .ok (asr (asr z0 1 + asr z1 1) 1 + asr z2 1)
  | 4, z0 :: z1 :: z2 :: z3 :: _ => .ok (asr z0 2 + asr z1 2 + asr z2 2 + asr z3 2)
  | 2, _ => .error .outOfRange
  | 3, _ => .error .outOfRange
  | 4, _ => .error .outOfRange
  | _, z0 :: _ => .ok z0
  | _, [] => .error .outOfRange

/-- Modelled from the spec: `Scene3DFace` is declared outside the given
sources; the two members the face loop writes, `depth` and `index`. -/
structure Scene3DFace where
  depth : Int := 0
  index : Int := 0
deriving DecidableEq, Repr

/-- A store `a[k] = v` into the face buffer. -/
def Draw3DScene.store (a : List Scene3DFace) (k : Nat) (v : Scene3DFace) :
    Except Fault (List Scene3DFace) :=
  if k < a.length then .ok (a.set k v) else .error .outOfRange

/-- The inner loop of the face sort,
`while (j >= 0 && a[j].depth < temp.depth) { a[j + 1] = a[j]; j -= 1; }`
followed by `a[j + 1] = temp`; the first argument is `j + 1`. -/
def Draw3DScene.sortInner (temp : Scene3DFace) :
    Nat → List Scene3DFace → Except Fault (List Scene3DFace)
  | 0, a => Draw3DScene.store a 0 temp
  | j + 1, a =>
    match a[j]? with
    | none => .error .outOfRange
    | some x =>
      if x.depth < temp.depth then
        match Draw3DScene.store a (j + 1) x with
        | .error e => .error e
        | .ok a' => Draw3DScene.sortInner temp j a'
      else Draw3DScene.store a (j + 1) temp

/-- The outer loop of the face sort with `n` iterations left:
`temp = a[i]; j = i - 1;`, the inner loop, `i++`. -/
def Draw3DScene.sortOuter : Nat → Nat → List Scene3DFace → Except Fault (List Scene3DFace)
  | 0, _, a => .ok a
  | n + 1, i, a =>
    match a[i]? with
    | none => .error .outOfRange
    | some temp =>
      match Draw3DScene.sortInner temp i a with
      | .error e => .error e
      | .ok a' => Draw3DScene.sortOuter n (i + 1) a'

/-- The face sort of `Draw3DScene`, `for (i = 1; i < scn->faceCount; i++)`,
on the face buffer `a`. -/
def Draw3DScene.sortFaces (faceCount : Nat) (a : List Scene3DFace) :
    Except Fault (List Scene3DFace) :=
  Draw3DScene.sortOuter (faceCount - 1) 1 a

/-- Four faces, two of depth 5 and two of depth 9, numbered by `index`. -/
def demoFaces : List Scene3DFace :=
  [{ depth := 5, index := 0 }, { depth := 9, index := 1 }, { depth := 5, index := 2 },
   { depth := 9, index := 3 }]

/-! ### Closed forms of the deformation encoders -/

/-- The number of `c` with `a <= c < a + n` and `lo <= c < hi`: how often a
pointer that advances inside the clip bounds `[lo, hi)` has advanced over the
`n` iterations from `a` on. -/
def clipCount (lo hi : Int) : Nat → Nat → Nat
  | _, 0 => 0
  | a, n + 1 => (if lo ≤ (a : Int) ∧ (a : Int) < hi then 1 else 0) + clipCount lo hi (a + 1) n

/-- The value `x` clamped to `[lo, hi]`. -/
def clampInt (x lo hi : Int) : Int := max lo (min x hi)

/-- The position the rotozoom loop holds after `m` additions of `d` to `pos`,
each addition in `int32` arithmetic. -/
def accumulated (pos d : Int) (m : Nat) : Int :=
  if m = 0 then pos else wrap32 (pos + m * d)

/-- Components 0, 1 and 2 of record `k` of an encoder's result. -/
def recordAt (r : Except Fault (List Flt)) (k : Nat) : Option (Flt × Flt × Flt) :=
  match r with
  | .ok buf =>
    match buf[4 * k]?, buf[4 * k + 1]?, buf[4 * k + 2]? with
    | some x, some y, some z => some (x, y, z)
    | _, _, _ => none
  | .error _ => none

/-- A screen whose clip rectangle is the top row of the 2 by 2 target. -/
def demoClipTop : ScreenInfo :=
  { clipBound_X1 := 0, clipBound_Y1 := 0, clipBound_X2 := 2, clipBound_Y2 := 1, size_y := 2 }

/-! ### `FillScreen` and sequences of calls -/

theorem take_set_self (l : List RenderState) (n : Nat) (a : RenderState) :
    (l.set n a).take n = l.take n :=
  List.ext_getElem? fun k => by
    rw [List.getElem?_take, List.getElem?_take]
    split
    · next hk => rw [List.getElem?_set_ne (by omega)]
    · rfl

theorem RenderStateQueue.push_take (q : RenderStateQueue) (v : RenderState)
    (hs : q.size ≤ q._vector.length) :
    (q.push v)._vector.take (q.size + 1) = q._vector.take q.size ++ [v] := by
  unfold RenderStateQueue.push
  by_cases h : q._vector.length > q.size
  · simp only [h, if_true]
    rw [List.take_succ, take_set_self, List.getElem?_set_self h]
    rfl
  · have hl : q._vector.length = q.size := by omega
    simp only [h, if_false]
    rw [← hl, List.take_length, List.take_of_length_le (by simp)]

theorem RenderStateQueue.push_length (q : RenderStateQueue) (v : RenderState)
    (hs : q.size ≤ q._vector.length) :
    q.size + 1 ≤ (q.push v)._vector.length := by
  unfold RenderStateQueue.push
  by_cases h : q._vector.length > q.size
  · simp only [h, if_true, List.length_set]; omega
  · simp only [h, if_false, List.length_append, List.length_singleton]; omega

theorem runOps_fifo (ops : List QueueOp) :
    ∀ q : RenderStateQueue, q.i ≤ q.size → q.size ≤ q._vector.length →
      q.size + (pushedValues ops).length < 2 ^ 32 → popsGuarded q ops = true →
      ∃ q', runOps q ops =
        some (q', ((q._vector.take q.size ++ pushedValues ops).drop q.i).take (popCount ops)) := by
  induction ops with
  | nil => intro q _ _ _ _; exact ⟨q, by simp [runOps, popCount]⟩
  | cons op ops ih =>
    intro q hi hs hn hg
    cases op with
    | push v =>
      simp only [pushedValues, List.length_cons] at hn
      simp only [popsGuarded] at hg
      have hsz : (q.push v).size = q.size + 1 := by
        show (q.size + 1) % 2 ^ 32 = q.size + 1
        exact Nat.mod_eq_of_lt (by omega)
      have hi' : (q.push v).i = q.i := rfl
      obtain ⟨q', hq'⟩ := ih (q.push v) (by rw [hi', hsz]; omega)
        (by rw [hsz]; exact q.push_length v hs) (by rw [hsz]; omega) hg
      refine ⟨q', ?_⟩
      simp only [runOps, pushedValues, popCount]
      rw [hq', hsz, q.push_take v hs, hi']
      simp
    | pop =>
      simp only [popsGuarded, RenderStateQueue.empty, Bool.and_eq_true, Bool.not_eq_true',
        decide_eq_false_iff_not, not_le] at hg
      obtain ⟨hlt, hg⟩ := hg
      have hil : q.i < q._vector.length := by omega
      have hpop : q.pop = some (q._vector[q.i], { q with i := q.i + 1 }) := by
        unfold RenderStateQueue.pop
        rw [List.getElem?_eq_getElem hil]
        simp only
        rw [Nat.mod_eq_of_lt (by omega)]
      rw [hpop] at hg
      simp only [pushedValues] at hn
      obtain ⟨q', hq'⟩ := ih { q with i := q.i + 1 } (by simpa using hlt) hs hn hg
      refine ⟨q', ?_⟩
      simp only [runOps, pushedValues, popCount, hpop]
      rw [hq']
      simp only
      have hlen : q.i < (q._vector.take q.size ++ pushedValues ops).length := by
        simp only [List.length_append, List.length_take]; omega
      rw [List.drop_eq_getElem_cons hlen, List.take_succ_cons]
      congr 2
      rw [List.getElem_append_left (by simp only [List.length_take]; omega)]
      simp

/-! ### No assertion inside the compositor -/

theorem resolveNow_ne_assertion (st : HWState) (c : RenderState) (q : RenderStateQueue) :
    resolveNow st c q ≠ .error .assertion := by
  unfold resolveNow
  split
  · simp
  · split
    · simp
    · split
      · simp
      · split <;> simp

theorem drainStep_ne_assertion (st : HWState) (s : Nat) (d : Drain) :
    drainStep st s d ≠ .error .assertion := by
  unfold drainStep
  split
  · simp
  · split
    · simp
    · simp only
      split
      · next e he =>
        intro h
        injection h with h
        exact resolveNow_ne_assertion _ _ _ (h ▸ he)
      · simp
      · split <;> simp

theorem drainLoop_ne_assertion (st : HWState) (s : Nat) (fuel : Nat) :
    ∀ d, drainLoop st s fuel d ≠ .error .assertion := by
  induction fuel with
  | zero => intro d; unfold drainLoop; split <;> simp
  | succ n ih =>
    intro d
    unfold drainLoop
    split
    · simp
    · split
      · exact ih _
      · next e he =>
        intro h
        injection h with h
        exact drainStep_ne_assertion _ _ _ (h ▸ he)

theorem drainScreen_ne_assertion (st : HWState) (s vOff iOff : Nat) :
    drainScreen st s vOff iOff ≠ .error .assertion := by
  unfold drainScreen
  split
  · simp
  · split
    · next e he =>
      intro h
      injection h with h
      exact drainLoop_ne_assertion _ _ _ _ (h ▸ he)
    · simp

theorem drainScreens_ne_assertion (n : Nat) :
    ∀ s st vOff iOff, drainScreens n s st vOff iOff ≠ .error .assertion := by
  induction n with
  | zero => intro s st vOff iOff; simp [drainScreens]
  | succ n ih =>
    intro s st vOff iOff
    unfold drainScreens
    split
    · next e he =>
      intro h
      injection h with h
      exact drainScreen_ne_assertion _ _ _ _ (h ▸ he)
    · exact ih _ _ _ _

theorem CopyFrameBuffer_ne_assertion (st : HWState) :
    CopyFrameBuffer st ≠ .error .assertion := by
  unfold CopyFrameBuffer
  simp only
  split
  · next e he =>
    intro h
    injection h with h
    exact drainScreens_ne_assertion _ _ _ _ _ (h ▸ he)
  · simp

/-! ### The drain loop on drainable queues -/

theorem validCmd_of_drainableQueue {st : HWState} {q : RenderStateQueue}
    (h : st.drainableQueue q = true) {k : Nat} (hik : q.i ≤ k) (hks : k < q.size) :
    ∃ c, q._vector[k]? = some c ∧ st.validCmd c = true := by
  simp only [HWState.drainableQueue, Bool.and_eq_true, decide_eq_true_eq, List.all_eq_true] at h
  obtain ⟨⟨hlen, _⟩, hall⟩ := h
  have hk : k < q._vector.length := by omega
  refine ⟨q._vector[k], List.getElem?_eq_getElem hk, hall _ ?_⟩
  have hget : ((q._vector.take q.size).drop q.i)[k - q.i]? = some q._vector[k] := by
    rw [List.getElem?_drop, List.getElem?_take]
    have : q.i + (k - q.i) = k := by omega
    simp [this, hks, List.getElem?_eq_getElem hk]
  exact List.getElem?_mem hget

theorem drainableQueue_step {st : HWState} {q : RenderStateQueue}
    (h : st.drainableQueue q = true) :
    st.drainableQueue { q with i := q.i + 1 } = true := by
  simp only [HWState.drainableQueue, Bool.and_eq_true, decide_eq_true_eq, List.all_eq_true] at h ⊢
  obtain ⟨⟨hlen, hr⟩, hall⟩ := h
  refine ⟨⟨hlen, hr⟩, fun c hc => hall c ?_⟩
  have : List.drop (q.i + 1) (List.take q.size q._vector)
      = List.drop 1 (List.drop q.i (List.take q.size q._vector)) := by
    rw [List.drop_drop, Nat.add_comm]
  rw [this] at hc
  exact List.mem_of_mem_drop hc

theorem resolveNow_ok {st : HWState} {q : RenderStateQueue} (c : RenderState)
    (h : st.drainableQueue q = true) :
    ∃ b, resolveNow st c q = .ok b := by
  unfold resolveNow
  split
  · exact ⟨true, rfl⟩
  · split
    · exact ⟨true, rfl⟩
    · next hne =>
      split
      · exact ⟨false, rfl⟩
      · have hlt : q.i < q.size := by
          simpa [RenderStateQueue.empty] using hne
        obtain ⟨c', hc', hv⟩ := validCmd_of_drainableQueue h (Nat.le_refl _) hlt
        have hlen : q.i < q._vector.length := by
          rcases Nat.lt_or_ge q.i q._vector.length with h' | h'
          · exact h'
          · rw [List.getElem?_eq_none h'] at hc'; cases hc'
        have hfront : q.front = c' := by
          unfold RenderStateQueue.front
          rw [if_neg (by omega), List.getD_eq_getElem?_getD, hc']
          rfl
        rw [hfront]
        simp only [HWState.validCmd, Bool.and_eq_true] at hv
        obtain ⟨o, ho⟩ := Option.isSome_iff_exists.mp hv.2
        rw [ho]
        exact ⟨_, rfl⟩

theorem drainStep_ok {st : HWState} (s : Nat) (d : Drain)
    (h : st.drainableQueue d.queue = true) (hlt : d.queue.i < d.queue.size) :
    ∃ d', drainStep st s d = .ok d' ∧ d'.queue = { d.queue with i := d.queue.i + 1 } := by
  obtain ⟨c, hc, hv⟩ := validCmd_of_drainableQueue h (Nat.le_refl _) hlt
  have hr : d.queue.size < 2 ^ 32 := by
    simp only [HWState.drainableQueue, Bool.and_eq_true, decide_eq_true_eq] at h
    exact h.1.2
  have hpop : d.queue.pop = some (c, { d.queue with i := d.queue.i + 1 }) := by
    unfold RenderStateQueue.pop
    rw [hc]
    simp only
    rw [Nat.mod_eq_of_lt (by omega)]
  simp only [HWState.validCmd, Bool.and_eq_true] at hv
  obtain ⟨sh, hsh⟩ := Option.isSome_iff_exists.mp hv.1
  obtain ⟨fb, hfb⟩ := Option.isSome_iff_exists.mp hv.2
  obtain ⟨b, hb⟩ := resolveNow_ok c (drainableQueue_step h)
  unfold drainStep
  rw [hpop]
  simp only [hsh, hb]
  cases b
  · exact ⟨_, rfl, rfl⟩
  · simp only [hfb]
    exact ⟨_, rfl, rfl⟩

theorem drainLoop_ok {st : HWState} (s : Nat) (fuel : Nat) :
    ∀ d : Drain, st.drainableQueue d.queue = true → d.queue.size - d.queue.i ≤ fuel →
      ∃ d', drainLoop st s fuel d = .ok d' ∧ d'.queue.finish = d.queue.finish := by
  induction fuel with
  | zero =>
    intro d _ hf
    have he : d.queue.empty = true := by
      simp only [RenderStateQueue.empty, decide_eq_true_eq]; omega
    exact ⟨d, by simp [drainLoop, he], rfl⟩
  | succ n ih =>
    intro d h hf
    unfold drainLoop
    by_cases he : d.queue.empty = true
    · exact ⟨d, by simp [he], rfl⟩
    · have hlt : d.queue.i < d.queue.size := by
        simpa [RenderStateQueue.empty] using he
      obtain ⟨d1, hd1, hq1⟩ := drainStep_ok s d h hlt
      have h1 : st.drainableQueue d1.queue = true := by
        rw [hq1]; exact drainableQueue_step h
      obtain ⟨d', hd', hq'⟩ := ih d1 h1 (by rw [hq1]; simp only; omega)
      refine ⟨d', ?_, ?_⟩
      · simp only [he, hd1]
        exact hd'
      · rw [hq', hq1]; rfl

theorem drainableQueue_of_frame {st st' : HWState} (hf : st.drainFrame st') (q : RenderStateQueue) :
    st'.drainableQueue q = st.drainableQueue q := by
  obtain ⟨rs, gl, fr, rfl⟩ := hf
  rfl

theorem drainScreen_ok {st : HWState} {s : Nat} {q : RenderStateQueue} (vOff iOff : Nat)
    (hq : st.renderStates[s]? = some q) (h : st.drainableQueue q = true) :
    ∃ st' vOff' iOff', drainScreen st s vOff iOff = .ok (st', vOff', iOff') ∧
      st.drainFrame st' ∧ st'.renderStates = st.renderStates.set s q.finish := by
  obtain ⟨d', hd', hfin⟩ := drainLoop_ok s (q.size - q.i)
    { queue := q, gl := st.gl, freed := st.freed, vOff := vOff, iOff := iOff } h (Nat.le_refl _)
  unfold drainScreen
  rw [hq]
  simp only [hd']
  refine ⟨_, _, _, rfl, ⟨_, _, _, rfl⟩, ?_⟩
  simp only
  rw [hfin]

theorem drainScreens_ok (n : Nat) :
    ∀ (s : Nat) (st : HWState) (vOff iOff : Nat), s + n ≤ st.renderStates.length →
      (∀ k q, s ≤ k → k < s + n → st.renderStates[k]? = some q → st.drainableQueue q = true) →
      ∃ st' vOff' iOff', drainScreens n s st vOff iOff = .ok (st', vOff', iOff') ∧
        st.drainFrame st' ∧ st'.renderStates.length = st.renderStates.length ∧
        ∀ k, st'.renderStates[k]? =
          if s ≤ k ∧ k < s + n then (st.renderStates[k]?).map RenderStateQueue.finish
          else st.renderStates[k]? := by
  induction n with
  | zero =>
    intro s st vOff iOff _ _
    refine ⟨st, vOff, iOff, rfl, ⟨_, _, _, rfl⟩, rfl, fun k => ?_⟩
    rw [if_neg (by omega)]
  | succ n ih =>
    intro s st vOff iOff hlen hall
    have hs : s < st.renderStates.length := by omega
    have hq : st.renderStates[s]? = some st.renderStates[s] := List.getElem?_eq_getElem hs
    obtain ⟨st1, v1, i1, h1, hf1, hr1⟩ :=
      drainScreen_ok vOff iOff hq (hall s _ (Nat.le_refl _) (by omega) hq)
    have hlen1 : st1.renderStates.length = st.renderStates.length := by
      rw [hr1, List.length_set]
    obtain ⟨st2, v2, i2, h2, hf2, hlen2, hr2⟩ := ih (s + 1) st1 v1 i1 (by omega) (by
      intro k q hk1 hk2 hkq
      rw [drainableQueue_of_frame hf1]
      refine hall k q (by omega) (by omega) ?_
      rw [hr1, List.getElem?_set_ne (by omega)] at hkq
      exact hkq)
    refine ⟨st2, v2, i2, ?_, ?_, by omega, fun k => ?_⟩
    · unfold drainScreens
      simp only [h1]
      exact h2
    · obtain ⟨rs1, gl1, fr1, rfl⟩ := hf1
      obtain ⟨rs2, gl2, fr2, rfl⟩ := hf2
      exact ⟨rs2, gl2, fr2, rfl⟩
    · rw [hr2 k, hr1]
      by_cases hks : k = s
      · subst hks
        rw [if_neg (by omega), if_pos (by omega), List.getElem?_set_self hs, hq]
        rfl
      · rw [List.getElem?_set_ne (Ne.symm hks)]
        by_cases hk : s + 1 ≤ k ∧ k < s + 1 + n
        · rw [if_pos hk, if_pos (by omega)]
        · rw [if_neg hk, if_neg (by omega)]

theorem CopyFrameBuffer_ok (st : HWState) (h : st.drainable = true) :
    ∃ st', CopyFrameBuffer st = .ok st' ∧ st'.vboOff = 6 ∧ st'.iboOff = 0 ∧
      (∃ rs gl fr, st' = { st with renderStates := rs, gl := gl, freed := fr,
                                   vboOff := 6, iboOff := 0 }) ∧
      st'.renderStates.length = st.renderStates.length ∧
      ∀ k, st'.renderStates[k]? =
        if k < st.screenCount then (st.renderStates[k]?).map RenderStateQueue.finish
        else st.renderStates[k]? := by
  simp only [HWState.drainable, Bool.and_eq_true, decide_eq_true_eq, List.all_eq_true] at h
  obtain ⟨hlen, hall⟩ := h
  obtain ⟨st1, v1, i1, h1, hf1, hlen1, hr1⟩ := drainScreens_ok st.screenCount 0
    { st with gl := { st.gl with framebuffer := .tFB, scissorTest := true } } 6 0
    (by simpa using hlen) (by
      intro k q _ hk hkq
      have hmem : q ∈ st.renderStates.take st.screenCount := by
        refine List.getElem?_mem (n := k) ?_
        rw [List.getElem?_take]
        simp only [Nat.zero_add] at hk
        simpa [hk] using hkq
      exact hall q hmem)
  refine ⟨{ st1 with vboOff := 6, iboOff := 0 }, ?_, rfl, rfl, ?_, hlen1, fun k => ?_⟩
  · unfold CopyFrameBuffer
    simp only [h1]
  · obtain ⟨rs1, gl1, fr1, rfl⟩ := hf1
    exact ⟨rs1, gl1, fr1, rfl⟩
  · have := hr1 k
    simp only [Nat.zero_le, true_and, Nat.zero_add] at this
    exact this

/-! ### Draw calls of a drain in which every command is resolved -/

theorem Shader.SetArgs_draws (sh : Shader) (gl : GLState) :
    (sh.SetArgs gl).draws = gl.draws := by
  unfold Shader.SetArgs
  split <;> rfl

theorem resolvePattern_add (a b : Nat) :
    resolvePattern (a + b) = resolvePattern a ++ resolvePattern b := by
  induction a with
  | zero => simp [resolvePattern]
  | succ n ih => rw [Nat.succ_add]; simp [resolvePattern, ih]

theorem resolvePasses_of_pattern (n : Nat) :
    ∀ new : List GLDraw, new.map GLDraw.isResolve = resolvePattern n → resolvePasses new = n := by
  induction n with
  | zero =>
    intro new h
    simp only [resolvePattern, List.map_eq_nil_iff] at h
    subst h
    rfl
  | succ n ih =>
    intro new h
    rcases new with _ | ⟨e, _ | ⟨r, rest⟩⟩
    · simp [resolvePattern] at h
    · simp [resolvePattern] at h
    · simp only [resolvePattern, List.map_cons, List.cons.injEq] at h
      obtain ⟨he, hr, hrest⟩ := h
      have := ih rest hrest
      unfold resolvePasses at this ⊢
      rw [List.countP_cons, List.countP_cons, this, he, hr]
      simp

theorem drainStep_resolved {st : HWState} (s : Nat) {d : Drain} {c : RenderState}
    {q' : RenderStateQueue} {sh fb : Shader} (hpop : d.queue.pop = some (c, q'))
    (hsh : st.shaderAt c.shader = some sh) (hres : resolveNow st c q' = .ok true)
    (hfb : st.shaderAt c.fbShader = some fb) :
    ∃ d' new, drainStep st s d = .ok d' ∧ d'.queue = q' ∧
      d'.gl.draws = d.gl.draws ++ new ∧ new.map GLDraw.isResolve = [false, true] := by
  unfold drainStep
  rw [hpop]
  simp only [hsh, hres, hfb]
  exact ⟨_, _, rfl, rfl,
    (by simp only [Shader.SetArgs_draws, Shader.Use, List.append_assoc, List.singleton_append]
        rfl),
    (by rfl)⟩

theorem drainLoop_all_resolved {st : HWState} (s : Nat) (fuel : Nat) :
    ∀ d : Drain, st.drainableQueue d.queue = true → d.queue.pending ≤ fuel →
      st.allResolve d.queue →
      ∃ d' new, drainLoop st s fuel d = .ok d' ∧ d'.queue.finish = d.queue.finish ∧
        d'.gl.draws = d.gl.draws ++ new ∧
        new.map GLDraw.isResolve = resolvePattern d.queue.pending := by
  induction fuel with
  | zero =>
    intro d _ hf _
    unfold RenderStateQueue.pending at hf
    have he : d.queue.empty = true := by
      simp only [RenderStateQueue.empty, decide_eq_true_eq]; omega
    refine ⟨d, [], by simp [drainLoop, he], rfl, by simp, ?_⟩
    have : d.queue.pending = 0 := by unfold RenderStateQueue.pending; omega
    rw [this]; rfl
  | succ n ih =>
    intro d h hf hall
    unfold RenderStateQueue.pending at hf
    unfold drainLoop
    by_cases he : d.queue.empty = true
    · have hp : d.queue.pending = 0 := by
        simp only [RenderStateQueue.empty, decide_eq_true_eq] at he
        unfold RenderStateQueue.pending; omega
      refine ⟨d, [], by simp [he], rfl, by simp, ?_⟩
      rw [hp]; rfl
    · have hlt : d.queue.i < d.queue.size := by
        simpa [RenderStateQueue.empty] using he
      obtain ⟨c, hc, hv⟩ := validCmd_of_drainableQueue h (Nat.le_refl _) hlt
      have hr : d.queue.size < 2 ^ 32 := by
        simp only [HWState.drainableQueue, Bool.and_eq_true, decide_eq_true_eq] at h
        exact h.1.2
      have hpop : d.queue.pop = some (c, { d.queue with i := d.queue.i + 1 }) := by
        unfold RenderStateQueue.pop
        rw [hc]
        simp only
        rw [Nat.mod_eq_of_lt (by omega)]
      simp only [HWState.validCmd, Bool.and_eq_true] at hv
      obtain ⟨sh, hsh⟩ := Option.isSome_iff_exists.mp hv.1
      obtain ⟨fb, hfb⟩ := Option.isSome_iff_exists.mp hv.2
      obtain ⟨d1, new1, hd1, hq1, hdr1, hn1⟩ :=
        drainStep_resolved s hpop hsh (hall _ c (Nat.le_refl _) hlt hc) hfb
      have h1 : st.drainableQueue d1.queue = true := by
        rw [hq1]; exact drainableQueue_step h
      have hall1 : st.allResolve d1.queue := by
        rw [hq1]
        intro k c' hk1 hk2 hkc
        exact hall k c' (by simp only at hk1; omega) hk2 hkc
      have hp1 : d1.queue.pending = d.queue.pending - 1 := by
        rw [hq1]; unfold RenderStateQueue.pending; simp only; omega
      obtain ⟨d', new', hd', hq', hdr', hn'⟩ := ih d1 h1 (by rw [hp1]; unfold RenderStateQueue.pending; omega) hall1
      refine ⟨d', new1 ++ new', ?_, ?_, ?_, ?_⟩
      · simp only [he, hd1]
        exact hd'
      · rw [hq', hq1]; rfl
      · rw [hdr', hdr1, List.append_assoc]
      · have hp : d.queue.pending = 1 + d1.queue.pending := by
          rw [hp1]; unfold RenderStateQueue.pending; omega
        rw [hp, resolvePattern_add, List.map_append, hn1, hn']
        rfl

theorem allResolve_of_frame {st st' : HWState} (hf : st.drainFrame st') (q : RenderStateQueue) :
    st'.allResolve q ↔ st.allResolve q := by
  obtain ⟨rs, gl, fr, rfl⟩ := hf
  exact Iff.rfl

theorem drainScreen_all_resolved {st : HWState} {s : Nat} {q : RenderStateQueue} (vOff iOff : Nat)
    (hq : st.renderStates[s]? = some q) (h : st.drainableQueue q = true)
    (hall : st.allResolve q) :
    ∃ st' vOff' iOff' new, drainScreen st s vOff iOff = .ok (st', vOff', iOff') ∧
      st.drainFrame st' ∧ st'.renderStates = st.renderStates.set s q.finish ∧
      st'.gl.draws = st.gl.draws ++ new ∧
      new.map GLDraw.isResolve = resolvePattern q.pending := by
  obtain ⟨d', new, hd', hfin, hdr, hn⟩ := drainLoop_all_resolved s (q.size - q.i)
    { queue := q, gl := st.gl, freed := st.freed, vOff := vOff, iOff := iOff } h (Nat.le_refl _)
    hall
  unfold drainScreen
  rw [hq]
  simp only [hd']
  refine ⟨_, _, _, new, rfl, ⟨_, _, _, rfl⟩, ?_, hdr, hn⟩
  simp only
  rw [hfin]

theorem drainScreens_all_resolved (n : Nat) :
    ∀ (s : Nat) (st : HWState) (vOff iOff : Nat), s + n ≤ st.renderStates.length →
      (∀ k q, s ≤ k → k < s + n → st.renderStates[k]? = some q →
        st.drainableQueue q = true ∧ st.allResolve q) →
      ∃ st' vOff' iOff' new, drainScreens n s st vOff iOff = .ok (st', vOff', iOff') ∧
        st.drainFrame st' ∧ st'.gl.draws = st.gl.draws ++ new ∧
        new.map GLDraw.isResolve = resolvePattern
          (((st.renderStates.drop s).take n).map RenderStateQueue.pending).sum := by
  induction n with
  | zero =>
    intro s st vOff iOff _ _
    exact ⟨st, vOff, iOff, [], rfl, ⟨_, _, _, rfl⟩, by simp, by simp [resolvePattern]⟩
  | succ n ih =>
    intro s st vOff iOff hlen hall
    have hs : s < st.renderStates.length := by omega
    have hq : st.renderStates[s]? = some st.renderStates[s] := List.getElem?_eq_getElem hs
    obtain ⟨hd0, ha0⟩ := hall s _ (Nat.le_refl _) (by omega) hq
    obtain ⟨st1, v1, i1, new1, h1, hf1, hr1, hdr1, hn1⟩ :=
      drainScreen_all_resolved vOff iOff hq hd0 ha0
    obtain ⟨st2, v2, i2, new2, h2, hf2, hdr2, hn2⟩ := ih (s + 1) st1 v1 i1
      (by rw [hr1, List.length_set]; omega) (by
        intro k q hk1 hk2 hkq
        rw [drainableQueue_of_frame hf1, allResolve_of_frame hf1]
        refine hall k q (by omega) (by omega) ?_
        rw [hr1, List.getElem?_set_ne (by omega)] at hkq
        exact hkq)
    refine ⟨st2, v2, i2, new1 ++ new2, ?_, ?_, ?_, ?_⟩
    · unfold drainScreens
      simp only [h1]
      exact h2
    · obtain ⟨rs1, gl1, fr1, rfl⟩ := hf1
      obtain ⟨rs2, gl2, fr2, rfl⟩ := hf2
      exact ⟨rs2, gl2, fr2, rfl⟩
    · rw [hdr2, hdr1, List.append_assoc]
    · have hdrop : st1.renderStates.drop (s + 1) = st.renderStates.drop (s + 1) := by
        rw [hr1, List.drop_set_of_lt _ _ (Nat.lt_succ_self s)]
      rw [hdrop] at hn2
      rw [List.drop_eq_getElem_cons hs, List.take_succ_cons, List.map_cons, List.sum_cons,
        resolvePattern_add, List.map_append, hn1, hn2]

theorem CopyFrameBuffer_all_resolved (st : HWState) (hd : st.drainable = true)
    (hall : ∀ k q, k < st.screenCount → st.renderStates[k]? = some q → st.allResolve q) :
    ∃ st' new, CopyFrameBuffer st = .ok st' ∧ st'.gl.draws = st.gl.draws ++ new ∧
      new.map GLDraw.isResolve = resolvePattern
        ((st.renderStates.take st.screenCount).map RenderStateQueue.pending).sum := by
  simp only [HWState.drainable, Bool.and_eq_true, decide_eq_true_eq, List.all_eq_true] at hd
  obtain ⟨hlen, hdq⟩ := hd
  have hfr : st.drainFrame
      { st with gl := { st.gl with framebuffer := .tFB, scissorTest := true } } :=
    ⟨_, _, _, rfl⟩
  obtain ⟨st1, v1, i1, new, h1, -, hdr, hn⟩ := drainScreens_all_resolved st.screenCount 0
    { st with gl := { st.gl with framebuffer := .tFB, scissorTest := true } } 6 0
    (by simpa using hlen) (by
      intro k q _ hk hkq
      simp only [Nat.zero_add] at hk
      have hmem : q ∈ st.renderStates.take st.screenCount := by
        refine List.getElem?_mem (n := k) ?_
        rw [List.getElem?_take]
        simpa [hk] using hkq
      rw [drainableQueue_of_frame hfr, allResolve_of_frame hfr]
      exact ⟨hdq q hmem, hall k q hk hkq⟩)
  refine ⟨{ st1 with vboOff := 6, iboOff := 0 }, new, ?_, hdr, ?_⟩
  · unfold CopyFrameBuffer
    simp only [h1]
  · simpa using hn

theorem sum_eq_zero_of_all_zero (l : List Nat) (h : ∀ (k x : Nat), l[k]? = some x → x = 0) :
    l.sum = 0 := by
  induction l with
  | nil => rfl
  | cons a l ih =>
    have ha : a = 0 := h 0 a (List.getElem?_cons_zero)
    have hl : l.sum = 0 := ih (fun k x hk => h (k + 1) x (by rw [List.getElem?_cons_succ]; exact hk))
    rw [List.sum_cons, ha, hl]

theorem sum_eq_of_single (l : List Nat) :
    ∀ (s v : Nat), l[s]? = some v → (∀ (k x : Nat), k ≠ s → l[k]? = some x → x = 0) →
      l.sum = v := by
  induction l with
  | nil => intro s v hs; cases hs
  | cons a l ih =>
    intro s v hs h0
    cases s with
    | zero =>
      simp only [List.getElem?_cons_zero, Option.some.injEq] at hs
      have hl : l.sum = 0 := sum_eq_zero_of_all_zero l
        (fun k x hk => h0 (k + 1) x (by omega) (by rw [List.getElem?_cons_succ]; exact hk))
      rw [List.sum_cons, hs, hl]
      rfl
    | succ s =>
      have ha : a = 0 := h0 0 a (by omega) (List.getElem?_cons_zero)
      rw [List.getElem?_cons_succ] at hs
      rw [List.sum_cons, ha, Nat.zero_add]
      exact ih s v hs
        (fun k x hk hx => h0 (k + 1) x (by omega) (by rw [List.getElem?_cons_succ]; exact hx))

/-! ### The render-state queue (C1 to C3) -/

/-- C1: starting from a fresh or just-finished queue (both cursors zero,
any retained storage), for every sequence of pushes and pops in which each
pop is issued while `empty()` is false and which pushes fewer than `2 ^ 32`
commands (the range of the `uint32` write cursor), the run is defined and the
pops return, in order, exactly the first pushed values: the k-th pop returns
the k-th pushed `RenderState` unmodified. -/
theorem C1_queue_fifo (storage : List RenderState) (dflt : RenderState) (ops : List QueueOp)
    (hguard : popsGuarded { _vector := storage, i := 0, _default := dflt, size := 0 } ops = true)
    (hrange : (pushedValues ops).length < 2 ^ 32) :
    ∃ q', runOps { _vector := storage, i := 0, _default := dflt, size := 0 } ops =
      some (q', (pushedValues ops).take (popCount ops)) := by
  obtain ⟨q', hq'⟩ := runOps_fifo ops
    { _vector := storage, i := 0, _default := dflt, size := 0 } (Nat.le_refl _) (Nat.zero_le _)
    (by simpa using hrange) hguard
  exact ⟨q', by simpa using hq'⟩

/-- Witness of C1 on a reused queue: three pushes interleaved with three
guarded pops return the three pushed commands in push order. -/
theorem C1_queue_fifo_witness :
    popsGuarded { _vector := [quadCmd 1 2, quadCmd 3 4], i := 0, _default := {}, size := 0 }
        demoOps = true ∧
      (pushedValues demoOps).length < 2 ^ 32 ∧
      ∃ q', runOps { _vector := [quadCmd 1 2, quadCmd 3 4], i := 0, _default := {}, size := 0 }
        demoOps = some (q', (pushedValues demoOps).take (popCount demoOps)) :=
  ⟨by decide, by decide, C1_queue_fifo [quadCmd 1 2, quadCmd 3 4] {} demoOps (by decide) (by decide)⟩

/-- C2: for every queue state (so after every history of pushes and guarded
pops), after `finish()` the queue reports `empty()`, `finish()` leaves the
length of the backing storage unchanged, and `push(v)` followed at once by
`pop()` returns exactly `v`, leaving the queue empty again. -/
theorem C2_queue_reuse (q : RenderStateQueue) (v : RenderState) :
    q.finish.empty = true ∧ q.finish._vector.length = q._vector.length ∧
      ∃ q', (q.finish.push v).pop = some (v, q') ∧ q'.empty = true := by
  refine ⟨by simp [RenderStateQueue.finish, RenderStateQueue.empty], rfl, ?_⟩
  have h0 : (q.finish.push v)._vector[0]? = some v := by
    unfold RenderStateQueue.push RenderStateQueue.finish
    by_cases h : q._vector.length > 0
    · simp only [h, if_true, List.getElem?_set_self h]
    · have : q._vector = [] := List.length_eq_zero.mp (by omega)
      simp [this]
  refine ⟨{ q.finish.push v with i := 1 }, ?_, ?_⟩
  · unfold RenderStateQueue.pop
    have hi : (q.finish.push v).i = 0 := rfl
    rw [hi, h0]
    rfl
  · simp [RenderStateQueue.empty, RenderStateQueue.push, RenderStateQueue.finish]

/-- C3 fails on the code: a queue that was filled and then finished is
empty, yet `front()` returns the stale stored command; a queue whose only
command was popped is empty, yet `last()` returns that command. -/
theorem C3_counterexample :
    ((({} : RenderStateQueue).push (quadCmd 5000 6000)).finish.empty = true ∧
      (({} : RenderStateQueue).push (quadCmd 5000 6000)).finish.front = quadCmd 5000 6000 ∧
      (({} : RenderStateQueue).push (quadCmd 5000 6000)).finish.front ≠
        (({} : RenderStateQueue).push (quadCmd 5000 6000)).finish._default) ∧
    ∃ q', (({} : RenderStateQueue).push (quadCmd 5000 6000)).pop = some (quadCmd 5000 6000, q') ∧
      q'.empty = true ∧ q'.last = some (quadCmd 5000 6000) ∧ q'.last ≠ some q'._default := by
  refine ⟨by decide, ⟨_, rfl, ?_⟩⟩
  decide

/-- C3 as amended: `last()` returns the sentinel default when `size == 0`
(a fresh or just-finished queue) and `front()` returns it when the read
cursor is at or past the end of the backing storage (a fresh queue, or a queue
popped through all of its storage); otherwise `last()` is the most recently
pushed slot and `front()` the stored slot at the read cursor, whether or not
`empty()` holds. -/
theorem C3_front_last_sentinel (q : RenderStateQueue) :
    (q.size = 0 → q.last = some q._default) ∧
      (q._vector.length ≤ q.i → q.front = q._default) ∧
      (q.size ≠ 0 → q.last = q._vector[q.size - 1]?) ∧
      (q.i < q._vector.length → some q.front = q._vector[q.i]?) := by
  refine ⟨fun h => by simp [RenderStateQueue.last, h],
    fun h => by simp [RenderStateQueue.front, h],
    fun h => by simp [RenderStateQueue.last, h], fun h => ?_⟩
  unfold RenderStateQueue.front
  rw [if_neg (by omega), List.getD_eq_getElem?_getD, List.getElem?_eq_getElem h]
  rfl

/-- Witness of the amended C3 on a fresh queue, where both accessors return
the sentinel. -/
theorem C3_front_last_sentinel_witness :
    ({} : RenderStateQueue).empty = true ∧
      ({} : RenderStateQueue).last = some ({} : RenderStateQueue)._default ∧
      ({} : RenderStateQueue).front = ({} : RenderStateQueue)._default :=
  ⟨by decide, (C3_front_last_sentinel {}).1 rfl, (C3_front_last_sentinel {}).2.1 (Nat.le_refl _)⟩

/-! ### Pushing the current state (C4) -/

theorem arrayAt_natCast {α : Type} {l : List α} {k : Nat} {a : α} (h : l[k]? = some a) :
    arrayAt l (k : Int) = .ok a := by
  unfold arrayAt
  rw [if_neg (by omega), Int.toNat_ofNat, h]

theorem toU32_sub (a b : Int) :
    (toU32 a + 2 ^ 32 - toU32 b) % 2 ^ 32 = toU32 (a - b) := by
  unfold toU32
  omega

theorem pushAndAdvance_ok {st : HWState} {screen : Nat} {state : RenderState} {scr : ScreenInfo}
    {q : RenderStateQueue} (hstate : st.currentState[screen]? = some state)
    (hscr : st.screens[screen]? = some scr) (hq : st.renderStates[screen]? = some q) :
    pushAndAdvance st screen = .ok { st with
      renderStates := st.renderStates.set screen (q.push (queuedState state scr))
      vboOff := (st.vboOff + state.vertexCount) % 2 ^ 32
      iboOff := (st.iboOff + state.indexCount) % 2 ^ 32
      currentState := st.currentState.set screen
        { queuedState state scr with indexCount := 0, vertexCount := 0 } } := by
  unfold pushAndAdvance
  rw [arrayAt_natCast hstate, arrayAt_natCast hscr, arrayAt_natCast hq]
  simp only [Int.toNat_ofNat]
  rfl

theorem PushCurrentState_of_ne_tint {st : HWState} {screen : Nat} {state : RenderState}
    {scr : ScreenInfo} {q : RenderStateQueue} (hstate : st.currentState[screen]? = some state)
    (hscr : st.screens[screen]? = some scr) (hq : st.renderStates[screen]? = some q)
    (htint : state.fbShader ≠ st.fbTintShader.addr) :
    PushCurrentState st screen = pushAndAdvance st screen := by
  have hlt : screen < st.currentState.length := by
    rcases Nat.lt_or_ge screen st.currentState.length with h | h
    · exact h
    · rw [List.getElem?_eq_none h] at hstate; cases hstate
  unfold PushCurrentState
  rw [pushAndAdvance_ok hstate hscr hq]
  simp only
  rw [arrayAt_natCast (List.getElem?_set_self hlt)]
  simp only
  have hfb : (queuedState state scr).fbShader = state.fbShader := rfl
  rw [hfb, if_neg htint]

/-- C4: `PushCurrentState(screen)` returns with the screen's queue grown by
exactly one command, placed at the old write cursor and equal to the current
state with clip rectangle `(X1, Y1, X2 - X1, Y2 - Y1)` of the screen's clip
bounds in 32-bit wraparound and with its counts retained; the read cursor and
the earlier commands are untouched; the ring offsets become
`vboOff + vertexCount` and `iboOff + indexCount` in `uint32` arithmetic; the
current state's counts are 0; the queues of all other screens are unchanged.
This holds for every current state whose `fbShader` is not the address of
the global `fbTintShader` itself. No draw call stores that address
(`GetFBShader` and the draw functions store copies made by `new`, or
`nullptr`), and on it the flush that the special case starts would hand the
global to `delete`. -/
theorem C4_push_current_state (st : HWState) (screen : Nat) (state : RenderState)
    (scr : ScreenInfo) (q : RenderStateQueue)
    (hstate : st.currentState[screen]? = some state) (hscr : st.screens[screen]? = some scr)
    (hq : st.renderStates[screen]? = some q) (hsize : q.size ≤ q._vector.length)
    (hrange : q.size + 1 < 2 ^ 32) (htint : state.fbShader ≠ st.fbTintShader.addr) :
    ∃ st' q', PushCurrentState st screen = .ok st' ∧ st'.renderStates[screen]? = some q' ∧
      q'.size = q.size + 1 ∧ q'.i = q.i ∧ q'._vector.take q.size = q._vector.take q.size ∧
      q'._vector[q.size]? = some { state with
        clip_X1 := toU32 scr.clipBound_X1
        clip_Y1 := toU32 scr.clipBound_Y1
        clip_X2 := toU32 (scr.clipBound_X2 - scr.clipBound_X1)
        clip_Y2 := toU32 (scr.clipBound_Y2 - scr.clipBound_Y1) } ∧
      st'.vboOff = (st.vboOff + state.vertexCount) % 2 ^ 32 ∧
      st'.iboOff = (st.iboOff + state.indexCount) % 2 ^ 32 ∧
      (st'.currentState[screen]?).map (fun c => (c.vertexCount, c.indexCount)) = some (0, 0) ∧
      ∀ s, s ≠ screen → st'.renderStates[s]? = st.renderStates[s]? := by
  have hlt : screen < st.currentState.length := by
    rcases Nat.lt_or_ge screen st.currentState.length with h | h
    · exact h
    · rw [List.getElem?_eq_none h] at hstate; cases hstate
  have hltq : screen < st.renderStates.length := by
    rcases Nat.lt_or_ge screen st.renderStates.length with h | h
    · exact h
    · rw [List.getElem?_eq_none h] at hq; cases hq
  have hcmd : queuedState state scr = { state with
      clip_X1 := toU32 scr.clipBound_X1
      clip_Y1 := toU32 scr.clipBound_Y1
      clip_X2 := toU32 (scr.clipBound_X2 - scr.clipBound_X1)
      clip_Y2 := toU32 (scr.clipBound_Y2 - scr.clipBound_Y1) } := by
    unfold queuedState
    rw [toU32_sub, toU32_sub]
  have htake := q.push_take (queuedState state scr) hsize
  refine ⟨_, q.push (queuedState state scr),
    (PushCurrentState_of_ne_tint hstate hscr hq htint).trans (pushAndAdvance_ok hstate hscr hq),
    List.getElem?_set_self hltq, ?_, rfl, ?_, ?_, rfl, rfl, ?_, fun s hs => ?_⟩
  · show (q.size + 1) % 2 ^ 32 = q.size + 1
    exact Nat.mod_eq_of_lt hrange
  · have := congrArg (List.take q.size) htake
    rw [List.take_take, Nat.min_eq_left (Nat.le_succ _),
      List.take_append_of_le_length (by rw [List.length_take]; omega), List.take_take,
      Nat.min_self] at this
    exact this
  · have := congrArg (fun l => l[q.size]?) htake
    simp only at this
    rw [List.getElem?_take_of_lt (Nat.lt_succ_self _),
      List.getElem?_append_right (by rw [List.length_take]; omega)] at this
    rw [this, ← hcmd]
    simp [List.length_take, Nat.min_eq_left hsize]
  · simp only [List.getElem?_set_self hlt, Option.map_some']
  · simp only
    rw [List.getElem?_set_ne (Ne.symm hs)]

/-- Witness of C4: a quad pending on screen 0 with a heap copy as FB shader
is queued and the offsets move from `(6, 0)` to `(10, 6)`. -/
theorem C4_push_current_state_witness :
    demoPending.currentState[0]? = some (quadCmd 5000 6000) ∧
      (quadCmd 5000 6000).fbShader ≠ demoPending.fbTintShader.addr ∧
      ∃ st' q', PushCurrentState demoPending (0 : Nat) = .ok st' ∧
        st'.renderStates[0]? = some q' ∧ q'.size = 1 ∧ st'.vboOff = 10 ∧ st'.iboOff = 6 := by
  obtain ⟨st', q', h, hq', hs, _, _, _, hv, hi, _, _⟩ :=
    C4_push_current_state demoPending 0 (quadCmd 5000 6000)
      { clipBound_X2 := 424, clipBound_Y2 := 240 } {} rfl rfl rfl (by decide) (by decide)
      (by decide)
  exact ⟨rfl, by decide, st', q', h, hq', hs, hv, hi⟩

/-! ### The ring allocator (C5 to C7) -/

/-- C5: for every `count <= VERTEX_LIMIT` with
`vboOff + count <= VERTEX_LIMIT + 6`, `AllocateVertexBuffer(count)` returns
the region starting at offset `vboOff` and leaves the whole state (offsets
and queues included) as it was; likewise `AllocateIndexBuffer(count)` with
`iboOff + count <= VERTEX_LIMIT` returns the region starting at `iboOff` and
changes no state. -/
theorem C5_allocate_without_flush (st : HWState) (count : Nat) (hc : count ≤ VERTEX_LIMIT) :
    (st.vboOff + count ≤ VERTEX_LIMIT + 6 →
        AllocateVertexBuffer st count = .ok (st.vboOff, st)) ∧
      (st.iboOff + count ≤ VERTEX_LIMIT →
        AllocateIndexBuffer st count = .ok (st.iboOff, st)) := by
  unfold VERTEX_LIMIT at hc
  constructor
  · intro h
    unfold VERTEX_LIMIT at h
    unfold AllocateVertexBuffer
    rw [if_neg (by unfold VERTEX_LIMIT; omega), if_neg (by unfold VERTEX_LIMIT; omega)]
  · intro h
    unfold VERTEX_LIMIT at h
    unfold AllocateIndexBuffer
    rw [if_neg (by unfold VERTEX_LIMIT; omega), if_neg (by unfold VERTEX_LIMIT; omega)]

/-- Witness of C5: a quad's vertices and indices requested from the initial
offsets `(6, 0)`. -/
theorem C5_allocate_without_flush_witness :
    (4 ≤ VERTEX_LIMIT ∧ demoState.vboOff + 4 ≤ VERTEX_LIMIT + 6 ∧
        AllocateVertexBuffer demoState 4 = .ok (6, demoState)) ∧
      (6 ≤ VERTEX_LIMIT ∧ demoState.iboOff + 6 ≤ VERTEX_LIMIT ∧
        AllocateIndexBuffer demoState 6 = .ok (0, demoState)) :=
  ⟨⟨by decide, by decide, (C5_allocate_without_flush demoState 4 (by decide)).1 (by decide)⟩,
   ⟨by decide, by decide, (C5_allocate_without_flush demoState 6 (by decide)).2 (by decide)⟩⟩

/-- C7: with assertions enabled, `AllocateVertexBuffer(count)` and
`AllocateIndexBuffer(count)` end in the failed assertion if and only if
`count > VERTEX_LIMIT = 0x4000`; no request above the maximum returns a
region. -/
theorem C7_assert_iff_above_limit (st : HWState) (count : Nat) :
    VERTEX_LIMIT = 0x4000 ∧
      (AllocateVertexBuffer st count = .error .assertion ↔ count > VERTEX_LIMIT) ∧
      (AllocateIndexBuffer st count = .error .assertion ↔ count > VERTEX_LIMIT) ∧
      ¬ (count > VERTEX_LIMIT ∧
          ((∃ r, AllocateVertexBuffer st count = .ok r) ∨
            ∃ r, AllocateIndexBuffer st count = .ok r)) := by
  have hv : AllocateVertexBuffer st count = .error .assertion ↔ count > VERTEX_LIMIT := by
    unfold AllocateVertexBuffer
    by_cases hc : count ≤ VERTEX_LIMIT
    · rw [if_neg (not_not.mpr hc)]
      constructor
      · intro h
        split at h
        · split at h
          · next e he =>
            injection h with h
            exact absurd (h ▸ he) (CopyFrameBuffer_ne_assertion st)
          · cases h
        · cases h
      · intro h; omega
    · rw [if_pos hc]
      exact ⟨fun _ => by omega, fun _ => rfl⟩
  have hi : AllocateIndexBuffer st count = .error .assertion ↔ count > VERTEX_LIMIT := by
    unfold AllocateIndexBuffer
    by_cases hc : count ≤ VERTEX_LIMIT
    · rw [if_neg (not_not.mpr hc)]
      constructor
      · intro h
        split at h
        · split at h
          · next e he =>
            injection h with h
            exact absurd (h ▸ he) (CopyFrameBuffer_ne_assertion st)
          · cases h
        · cases h
      · intro h; omega
    · rw [if_pos hc]
      exact ⟨fun _ => by omega, fun _ => rfl⟩
  refine ⟨rfl, hv, hi, ?_⟩
  rintro ⟨hgt, ⟨r, hr⟩ | ⟨r, hr⟩⟩
  · rw [hv.mpr hgt] at hr; cases hr
  · rw [hi.mpr hgt] at hr; cases hr

/-- C6: for `count <= VERTEX_LIMIT` and a drainable state, whenever
`vboOff + count > VERTEX_LIMIT + 6` (the sum being a `uint32`),
`AllocateVertexBuffer(count)` runs `CopyFrameBuffer` and returns, in the
flushed state, the region starting at the reserved prefix 6; once the command
being built on a screen is given `vertexCount = count` and pushed (the
push-and-advance of `PushCurrentState`, which is all of it unless the FB
shader is the tint singleton) the vertex write offset is `6 + count`.
`AllocateIndexBuffer` behaves the same with capacity `VERTEX_LIMIT` and
prefix 0. -/
theorem C6_overflow_flush (st : HWState) (count : Nat) (hc : count ≤ VERTEX_LIMIT)
    (hd : st.drainable = true) :
    (VERTEX_LIMIT + 6 < st.vboOff + count → st.vboOff + count < 2 ^ 32 →
      ∃ st1, CopyFrameBuffer st = .ok st1 ∧ AllocateVertexBuffer st count = .ok (6, st1) ∧
        st1.vboOff = 6 ∧
        ∀ (screen : Nat) (state : RenderState),
          st.currentState[screen]? = some state → screen < st.screens.length →
          screen < st.renderStates.length →
          ∃ st2, pushAndAdvance (st1.setCurrent screen
              { state with vertexBuffer := 6, vertexCount := count }) screen = .ok st2 ∧
            st2.vboOff = 6 + count ∧
            (state.fbShader ≠ st.fbTintShader.addr →
              PushCurrentState (st1.setCurrent screen
                { state with vertexBuffer := 6, vertexCount := count }) screen = .ok st2)) ∧
    (VERTEX_LIMIT < st.iboOff + count → st.iboOff + count < 2 ^ 32 →
      ∃ st1, CopyFrameBuffer st = .ok st1 ∧ AllocateIndexBuffer st count = .ok (0, st1) ∧
        st1.iboOff = 0 ∧
        ∀ (screen : Nat) (state : RenderState),
          st.currentState[screen]? = some state → screen < st.screens.length →
          screen < st.renderStates.length →
          ∃ st2, pushAndAdvance (st1.setCurrent screen
              { state with indexBuffer := 0, indexCount := count }) screen = .ok st2 ∧
            st2.iboOff = count ∧
            (state.fbShader ≠ st.fbTintShader.addr →
              PushCurrentState (st1.setCurrent screen
                { state with indexBuffer := 0, indexCount := count }) screen = .ok st2)) := by
  obtain ⟨st1, h1, hv1, hi1, ⟨rs, gl, fr, hfr⟩, hlen, -⟩ := CopyFrameBuffer_ok st hd
  have hlim : VERTEX_LIMIT = 16384 := rfl
  have hcur : st1.currentState = st.currentState := by rw [hfr]
  have hscrs : st1.screens = st.screens := by rw [hfr]
  have htint : st1.fbTintShader = st.fbTintShader := by rw [hfr]
  constructor
  · intro hov hr
    refine ⟨st1, h1, ?_, hv1, ?_⟩
    · unfold AllocateVertexBuffer
      rw [if_neg (not_not.mpr hc), Nat.mod_eq_of_lt hr, if_pos hov, h1]
      simp only [hv1]
    · intro screen state hstate hsl hrl
      have hlt : screen < st1.currentState.length := by
        rw [hcur]
        rcases Nat.lt_or_ge screen st.currentState.length with h | h
        · exact h
        · rw [List.getElem?_eq_none h] at hstate; cases hstate
      have hstate' : (st1.setCurrent screen
          { state with vertexBuffer := 6, vertexCount := count }).currentState[screen]?
          = some { state with vertexBuffer := 6, vertexCount := count } :=
        List.getElem?_set_self hlt
      have hscr : st1.screens[screen]? = some st.screens[screen] := by
        rw [hscrs]; exact List.getElem?_eq_getElem hsl
      obtain ⟨q, hq⟩ : ∃ q, st1.renderStates[screen]? = some q :=
        ⟨_, List.getElem?_eq_getElem (by omega)⟩
      refine ⟨_, pushAndAdvance_ok hstate' hscr hq, ?_, fun ht => ?_⟩
      · show (st1.vboOff + count) % 2 ^ 32 = 6 + count
        rw [hv1]
        exact Nat.mod_eq_of_lt (by omega)
      · exact (PushCurrentState_of_ne_tint hstate' hscr hq (by
          show state.fbShader ≠ st1.fbTintShader.addr
          rw [htint]; exact ht)).trans
          (pushAndAdvance_ok hstate' hscr hq)
  · intro hov hr
    refine ⟨st1, h1, ?_, hi1, ?_⟩
    · unfold AllocateIndexBuffer
      rw [if_neg (not_not.mpr hc), Nat.mod_eq_of_lt hr, if_pos hov, h1]
      simp only [hi1]
    · intro screen state hstate hsl hrl
      have hlt : screen < st1.currentState.length := by
        rw [hcur]
        rcases Nat.lt_or_ge screen st.currentState.length with h | h
        · exact h
        · rw [List.getElem?_eq_none h] at hstate; cases hstate
      have hstate' : (st1.setCurrent screen
          { state with indexBuffer := 0, indexCount := count }).currentState[screen]?
          = some { state with indexBuffer := 0, indexCount := count } :=
        List.getElem?_set_self hlt
      have hscr : st1.screens[screen]? = some st.screens[screen] := by
        rw [hscrs]; exact List.getElem?_eq_getElem hsl
      obtain ⟨q, hq⟩ : ∃ q, st1.renderStates[screen]? = some q :=
        ⟨_, List.getElem?_eq_getElem (by omega)⟩
      refine ⟨_, pushAndAdvance_ok hstate' hscr hq, ?_, fun ht => ?_⟩
      · show (st1.iboOff + count) % 2 ^ 32 = count
        rw [hi1, Nat.zero_add]
        exact Nat.mod_eq_of_lt (by omega)
      · exact (PushCurrentState_of_ne_tint hstate' hscr hq (by
          show state.fbShader ≠ st1.fbTintShader.addr
          rw [htint]; exact ht)).trans
          (pushAndAdvance_ok hstate' hscr hq)

/-- Witness of C6: with offsets `(16386, 16380)`, a request of 8 vertices
and a request of 8 indices overflow the ring; each is served after the flush
from offset 6, respectively 0, and the push of the command built on screen 0
leaves the offset at 14, respectively 8. -/
theorem C6_overflow_flush_witness :
    8 ≤ VERTEX_LIMIT ∧ demoNearFull.drainable = true ∧
      VERTEX_LIMIT + 6 < demoNearFull.vboOff + 8 ∧ VERTEX_LIMIT < demoNearFull.iboOff + 8 ∧
      (∃ st1 st2, AllocateVertexBuffer demoNearFull 8 = .ok (6, st1) ∧
        PushCurrentState (st1.setCurrent 0
          { shader := 5100, fbShader := 6100, vertexBuffer := 6, vertexCount := 8 })
          (0 : Nat) = .ok st2 ∧ st2.vboOff = 14) ∧
      ∃ st1 st2, AllocateIndexBuffer demoNearFull 8 = .ok (0, st1) ∧
        PushCurrentState (st1.setCurrent 0
          { shader := 5100, fbShader := 6100, indexBuffer := 0, indexCount := 8 })
          (0 : Nat) = .ok st2 ∧ st2.iboOff = 8 := by
  have h := C6_overflow_flush demoNearFull 8 (by decide) (by decide)
  obtain ⟨a, -, ha, -, hpa⟩ := h.1 (by decide) (by decide)
  obtain ⟨b, -, hb, -, hpb⟩ := h.2 (by decide) (by decide)
  obtain ⟨a2, -, hva, hPa⟩ := hpa 0 { shader := 5100, fbShader := 6100 } rfl (by decide)
    (by decide)
  obtain ⟨b2, -, hvb, hPb⟩ := hpb 0 { shader := 5100, fbShader := 6100 } rfl (by decide)
    (by decide)
  exact ⟨by decide, by decide, by decide, by decide,
    ⟨a, a2, ha, hPa (by decide), hva⟩, ⟨b, b2, hb, hPb (by decide), hvb⟩⟩

/-! ### The compositor drain (C8 to C10) -/

/-- C8: on every drainable state (whatever valid commands the queues hold),
`CopyFrameBuffer` returns, and on return the queue of every active screen
(`s < videoSettings.screenCount`) is empty with both cursors at zero and the
ring offsets are `vboOff = 6` and `iboOff = 0`. -/
theorem C8_drain_resets (st : HWState) (hd : st.drainable = true) :
    ∃ st', CopyFrameBuffer st = .ok st' ∧ st'.vboOff = 6 ∧ st'.iboOff = 0 ∧
      ∀ s, s < st.screenCount →
        ∃ q, st'.renderStates[s]? = some q ∧ q.i = 0 ∧ q.size = 0 ∧ q.empty = true := by
  obtain ⟨st', h, hv, hi, -, hlen, hr⟩ := CopyFrameBuffer_ok st hd
  refine ⟨st', h, hv, hi, fun s hs => ?_⟩
  have hsl : s < st.renderStates.length := by
    simp only [HWState.drainable, Bool.and_eq_true, decide_eq_true_eq] at hd
    omega
  refine ⟨st.renderStates[s].finish, ?_, rfl, rfl, rfl⟩
  rw [hr s, if_pos hs, List.getElem?_eq_getElem hsl]
  rfl

/-- Witness of C8: three queued quads and offsets `(18, 18)` before, empty
queue and offsets `(6, 0)` after. -/
theorem C8_drain_resets_witness :
    demoQueued.drainable = true ∧
      ringSummary (.ok demoQueued) = some ([(0, 3)], 18, 18) ∧
      ∃ st', CopyFrameBuffer demoQueued = .ok st' ∧ st'.vboOff = 6 ∧ st'.iboOff = 0 ∧
        ∀ s, s < demoQueued.screenCount →
          ∃ q, st'.renderStates[s]? = some q ∧ q.i = 0 ∧ q.size = 0 ∧ q.empty = true :=
  ⟨by decide, by decide, C8_drain_resets demoQueued (by decide)⟩

/-- C9, what the code does instead: the shader `GetFBShader(INK_TINT, alpha)`
returns is a copy made by `new`, at an address `p` that is not the address
of the singleton `fbTintShader`; for a command carrying it the comparison
`state->fbShader == &fbTintShader` is false, so `PushCurrentState` returns
without the flush: the command stays queued (the queue is not empty) and the
ring offsets have advanced instead of being back at `(6, 0)`. -/
theorem C9_tint_copy_is_not_flushed (st : HWState) (p alpha : Nat) (screen : Nat)
    (state : RenderState) (scr : ScreenInfo) (q : RenderStateQueue)
    (hstate : st.currentState[screen]? = some state) (hscr : st.screens[screen]? = some scr)
    (hq : st.renderStates[screen]? = some q) (hcur : q.i ≤ q.size)
    (hrange : q.size + 1 < 2 ^ 32) (hp : p ≠ st.fbTintShader.addr) :
    (GetFBShader st p INK_TINT alpha).1 = p ∧
      (GetFBShader st p INK_TINT alpha).2.heap =
        (p, { st.fbTintShader.obj with lookupTable := st.tintLookupTable }) :: st.heap ∧
      ∃ st' q', PushCurrentState
          ((GetFBShader st p INK_TINT alpha).2.setCurrent screen
            { state with fbShader := (GetFBShader st p INK_TINT alpha).1 }) screen = .ok st' ∧
        st'.renderStates[screen]? = some q' ∧ q'.empty = false ∧ q'.size = q.size + 1 ∧
        st'.vboOff = (st.vboOff + state.vertexCount) % 2 ^ 32 ∧
        st'.iboOff = (st.iboOff + state.indexCount) % 2 ^ 32 := by
  have hG : GetFBShader st p INK_TINT alpha = (p, { st with heap :=
      (p, { st.fbTintShader.obj with lookupTable := st.tintLookupTable }) :: st.heap }) := by
    simp [GetFBShader, INK_TINT, INK_NONE, INK_BLEND, INK_ALPHA, INK_ADD, INK_SUB]
  rw [hG]
  refine ⟨rfl, rfl, ?_⟩
  have hlt : screen < st.currentState.length := by
    rcases Nat.lt_or_ge screen st.currentState.length with h | h
    · exact h
    · rw [List.getElem?_eq_none h] at hstate; cases hstate
  have hltq : screen < st.renderStates.length := by
    rcases Nat.lt_or_ge screen st.renderStates.length with h | h
    · exact h
    · rw [List.getElem?_eq_none h] at hq; cases hq
  have hstate' : (({ st with heap :=
      (p, { st.fbTintShader.obj with lookupTable := st.tintLookupTable }) :: st.heap } :
      HWState).setCurrent screen { state with fbShader := p }).currentState[screen]?
      = some { state with fbShader := p } := List.getElem?_set_self hlt
  have hsz : (q.push (queuedState { state with fbShader := p } scr)).size = q.size + 1 :=
    Nat.mod_eq_of_lt hrange
  refine ⟨_, q.push (queuedState { state with fbShader := p } scr),
    (PushCurrentState_of_ne_tint hstate' hscr hq hp).trans (pushAndAdvance_ok hstate' hscr hq),
    List.getElem?_set_self hltq, ?_, hsz, rfl, rfl⟩
  unfold RenderStateQueue.empty
  rw [hsz]
  show decide (q.i ≥ q.size + 1) = false
  exact decide_eq_false (by omega)

/-- Witness of C9: the tint copy made at address 7000 is pushed with the
quad pending on screen 0 of `demoPending`; on return one command is queued
and the offsets are `(10, 6)`. -/
theorem C9_tint_copy_is_not_flushed_witness :
    (7000 : Nat) ≠ demoPending.fbTintShader.addr ∧
      ∃ st' q', PushCurrentState
          ((GetFBShader demoPending 7000 INK_TINT 77).2.setCurrent 0
            { quadCmd 5000 6000 with
              fbShader := (GetFBShader demoPending 7000 INK_TINT 77).1 })
          (0 : Nat) = .ok st' ∧
        st'.renderStates[0]? = some q' ∧ q'.empty = false ∧ q'.size = 1 ∧
        st'.vboOff = 10 ∧ st'.iboOff = 6 := by
  obtain ⟨-, -, st', q', h, hq', he, hs, hv, hi⟩ :=
    C9_tint_copy_is_not_flushed demoPending 7000 77 0 (quadCmd 5000 6000)
      { clipBound_X2 := 424, clipBound_Y2 := 240 } {} rfl rfl rfl (by decide) (by decide)
      (by decide)
  exact ⟨by decide, st', q', h, hq', he, hs, hv, hi⟩

/-- C10 fails on the code: three quads drawn on screen 0 with ink modes
none, alpha, none are queued, and draining them issues three resolve passes
(`glDrawArrays`), one after each geometry pass, not two. -/
theorem C10_counterexample :
    demoThreeQueued = .ok demoQueued ∧
      ringSummary (.ok demoQueued) = some ([(0, 3)], 18, 18) ∧
      (drawsOf (CopyFrameBuffer demoQueued)).map GLDraw.isResolve =
        [false, true, false, true, false, true] ∧
      resolvePasses (drawsOf (CopyFrameBuffer demoQueued)) = 3 :=
  ⟨rfl, by decide, by decide, by decide⟩

/-- C10 as amended: with three commands queued on one screen (the queues of
the other active screens empty) where command 2 has a resolve program other
than the "none" program (and, as for any object, the address of its FB
shader is not the "none" program handle), draining performs exactly three
resolve passes, one after each command's geometry pass: command 1 is resolved
on its own before command 2 is drawn, whatever the modes of commands 1
and 3. -/
theorem C10_three_resolve_passes (st : HWState) (s : Nat) (c1 c2 c3 : RenderState)
    (rest : List RenderState) (dflt : RenderState) (fb2 : Shader)
    (hd : st.drainable = true) (hs : s < st.screenCount)
    (hq : st.renderStates[s]? =
      some { _vector := c1 :: c2 :: c3 :: rest, i := 0, _default := dflt, size := 3 })
    (hothers : ∀ k q, k < st.screenCount → k ≠ s → st.renderStates[k]? = some q →
      q.empty = true)
    (hfb2 : st.shaderAt c2.fbShader = some fb2)
    (hmode2 : fb2.internal ≠ st.fbNoneShader.obj.internal)
    (haddr2 : c2.fbShader ≠ st.fbNoneShader.obj.internal) :
    ∃ st' new, CopyFrameBuffer st = .ok st' ∧ st'.gl.draws = st.gl.draws ++ new ∧
      new.map GLDraw.isResolve = [false, true, false, true, false, true] ∧
      resolvePasses new = 3 := by
  have hall : ∀ k q, k < st.screenCount → st.renderStates[k]? = some q → st.allResolve q := by
    intro k q hk hkq
    by_cases hks : k = s
    · subst hks
      rw [hq] at hkq
      injection hkq with hkq
      subst hkq
      intro j c hj1 hj2 hjc
      simp only at hj2
      have hj : j = 0 ∨ j = 1 ∨ j = 2 := by omega
      rcases hj with rfl | rfl | rfl
      · simp only [List.getElem?_cons_zero, Option.some.injEq] at hjc
        subst hjc
        unfold resolveNow
        by_cases ha : c1.fbShader ≠ st.fbNoneShader.obj.internal
        · rw [if_pos ha]
        · have h0 : c2.fbShader ≠ 0 := by
            intro h0
            rw [h0] at hfb2
            simp [HWState.shaderAt] at hfb2
          rw [if_neg ha]
          simp [RenderStateQueue.empty, RenderStateQueue.front, h0, hfb2, hmode2]
      · simp only [List.getElem?_cons_succ, List.getElem?_cons_zero, Option.some.injEq] at hjc
        subst hjc
        unfold resolveNow
        rw [if_pos haddr2]
      · simp only [List.getElem?_cons_succ, List.getElem?_cons_zero, Option.some.injEq] at hjc
        subst hjc
        unfold resolveNow
        by_cases ha : c3.fbShader ≠ st.fbNoneShader.obj.internal
        · rw [if_pos ha]
        · rw [if_neg ha]
          simp [RenderStateQueue.empty]
    · intro j c hj1 hj2 _
      have he := hothers k q hk hks hkq
      simp only [RenderStateQueue.empty, decide_eq_true_eq] at he
      omega
  obtain ⟨st', new, h, hdr, hn⟩ := CopyFrameBuffer_all_resolved st hd hall
  have hsum : ((st.renderStates.take st.screenCount).map RenderStateQueue.pending).sum = 3 := by
    refine sum_eq_of_single _ s 3 ?_ ?_
    · rw [List.getElem?_map, List.getElem?_take, if_pos hs, hq]
      rfl
    · intro k x hks hkx
      rw [List.getElem?_map, List.getElem?_take] at hkx
      by_cases hk : k < st.screenCount
      · rw [if_pos hk] at hkx
        cases hkq : st.renderStates[k]? with
        | none => rw [hkq] at hkx; cases hkx
        | some q =>
          rw [hkq] at hkx
          simp only [Option.map_some', Option.some.injEq] at hkx
          have he := hothers k q hk hks hkq
          simp only [RenderStateQueue.empty, decide_eq_true_eq] at he
          rw [← hkx]
          unfold RenderStateQueue.pending
          omega
      · rw [if_neg hk] at hkx
        cases hkx
  rw [hsum] at hn
  exact ⟨st', new, h, hdr, hn, resolvePasses_of_pattern 3 new hn⟩

/-- Witness of the amended C10 on the three quads (none, alpha, none) queued
on screen 0. -/
theorem C10_three_resolve_passes_witness :
    demoQueued.drainable = true ∧
      demoQueued.shaderAt 6100 = some { cls := .FBAlphaShader, internal := 10, alpha := 77 } ∧
      (10 : Nat) ≠ demoQueued.fbNoneShader.obj.internal ∧
      (6100 : Nat) ≠ demoQueued.fbNoneShader.obj.internal ∧
      ∃ st' new, CopyFrameBuffer demoQueued = .ok st' ∧
        st'.gl.draws = demoQueued.gl.draws ++ new ∧
        new.map GLDraw.isResolve = [false, true, false, true, false, true] ∧
        resolvePasses new = 3 :=
  ⟨by decide, by decide, by decide, by decide,
    C10_three_resolve_passes demoQueued 0
      { quadCmd 5000 6000 with clip_X2 := 424, clip_Y2 := 240 }
      { quadCmd 5100 6100 with clip_X2 := 424, clip_Y2 := 240 }
      { quadCmd 5200 6200 with clip_X2 := 424, clip_Y2 := 240 } [] {}
      { cls := .FBAlphaShader, internal := 10, alpha := 77 } (by decide) (by decide) rfl
      (fun k _ hk hne _ => absurd (Nat.lt_one_iff.mp hk) hne) (by decide) (by decide)
      (by decide)⟩

/-! ### The 3D overlay, layer textures and display shaders (C13 to C15) -/

/-- C13, what the code does instead: the guard of `Draw3DScene` is
`sceneID >= SCENE3D_COUNT || true`, so for every scene id, valid or not, and
whatever the rest of the function would do, the call returns at once with the
state unchanged: no command is enqueued. -/
theorem C13_draw3d_enqueues_nothing (SCENE3D_COUNT : Nat)
    (body : HWState → Except Fault HWState) (st : HWState) (sceneID : Nat) :
    Draw3DScene SCENE3D_COUNT body st sceneID = .ok st ∧
      ringSummary (Draw3DScene SCENE3D_COUNT body st sceneID) = ringSummary (.ok st) := by
  have h : Draw3DScene SCENE3D_COUNT body st sceneID = .ok st := by
    unfold Draw3DScene
    simp
  exact ⟨h, by rw [h]⟩

theorem PrepareLayerTextures.loop_append (width height : Nat) (pre : List TileLayer) :
    ∀ (l : Nat) (layer : TileLayer) (rest : List TileLayer),
      (layer.xsize = 0 ∨ layer.ysize = 0) →
      PrepareLayerTextures.loop width height l (pre ++ layer :: rest) =
        PrepareLayerTextures.loop width height l pre := by
  induction pre with
  | nil =>
    intro l layer rest hz
    simp [PrepareLayerTextures.loop, hz]
  | cons a pre ih =>
    intro l layer rest hz
    rw [List.cons_append]
    unfold PrepareLayerTextures.loop
    split
    · rfl
    · rw [ih (l + 1) layer rest hz]

/-- C14, what the code does instead: `PrepareLayerTextures` leaves the
function at the first layer with `xsize == 0` or `ysize == 0`, so the layers
behind a zero-sized layer, whatever their sizes, get no texture: the calls
issued are those of the layers in front of it. -/
theorem C14_stops_at_first_empty_layer (width height : Nat) (pre : List TileLayer)
    (layer : TileLayer) (rest : List TileLayer) (hz : layer.xsize = 0 ∨ layer.ysize = 0) :
    PrepareLayerTextures width height (pre ++ layer :: rest) =
      PrepareLayerTextures width height pre :=
  PrepareLayerTextures.loop_append width height pre 0 layer rest hz

/-- Witness of C14: a zero-sized layer 0 followed by a 32 by 32 layer 1; no
texture is allocated, none for layer 1 either. -/
theorem C14_stops_at_first_empty_layer_witness :
    (({} : TileLayer).xsize = 0 ∨ ({} : TileLayer).ysize = 0) ∧
      demoLayer.xsize ≠ 0 ∧ demoLayer.ysize ≠ 0 ∧
      PrepareLayerTextures 512 256 ([] ++ ({} : TileLayer) :: [demoLayer]) = [] :=
  ⟨Or.inl rfl, by decide, by decide,
    C14_stops_at_first_empty_layer 512 256 [] {} [demoLayer] (Or.inl rfl)⟩

theorem LoadShader_shaderCount_le (load : String → String → Nat) (t : ShaderTable)
    (fileName : String) (linear : Bool) :
    t.shaderCount ≤ (LoadShader load t fileName linear).shaderCount := by
  unfold LoadShader
  split
  · exact Nat.le_refl _
  · split
    · exact Nat.le_refl _
    · exact Nat.le_succ _

theorem LoadShader_shaderCount_pos (load : String → String → Nat) (t : ShaderTable)
    (fileName : String) (linear : Bool) (hlen : 0 < t.shaderList.length) :
    0 < (LoadShader load t fileName linear).shaderCount := by
  unfold LoadShader
  split
  · next h =>
    rcases Nat.eq_zero_or_pos t.shaderCount with h0 | h0
    · rw [h0] at h; simp at h
    · exact h0
  · split
    · next h => rw [h]; exact hlen
    · exact Nat.succ_pos _

theorem LoadShader_foldl_shaderCount_le (load : String → String → Nat)
    (ms : List (String × Bool)) :
    ∀ t : ShaderTable,
      t.shaderCount ≤ (ms.foldl (fun a e => LoadShader load a e.1 e.2) t).shaderCount := by
  induction ms with
  | nil => intro t; exact Nat.le_refl _
  | cons m ms ih =>
    intro t
    exact Nat.le_trans (LoadShader_shaderCount_le load t m.1 m.2) (ih _)

theorem LoadShader_shaderSupport (load : String → String → Nat) (t : ShaderTable)
    (fileName : String) (linear : Bool) :
    (LoadShader load t fileName linear).shaderSupport = t.shaderSupport := by
  unfold LoadShader
  split
  · rfl
  · split <;> rfl

theorem LoadShader_foldl_shaderSupport (load : String → String → Nat)
    (ms : List (String × Bool)) :
    ∀ t : ShaderTable,
      (ms.foldl (fun a e => LoadShader load a e.1 e.2) t).shaderSupport = t.shaderSupport := by
  induction ms with
  | nil => intro t; rfl
  | cons m ms ih =>
    intro t
    exact (ih _).trans (LoadShader_shaderSupport load t m.1 m.2)

theorem LoadShader_length (load : String → String → Nat) (t : ShaderTable)
    (fileName : String) (linear : Bool) :
    (LoadShader load t fileName linear).shaderList.length = t.shaderList.length := by
  unfold LoadShader
  split
  · rfl
  · split
    · rfl
    · simp

theorem InitShaders.loads_spec (load : String → String → Nat) (modLoader : Bool)
    (modShaders : List (String × Bool)) (t : ShaderTable) (hlen : 0 < t.shaderList.length) :
    (InitShaders.loads load modLoader modShaders t).shaderSupport = true ∧
      0 < (InitShaders.loads load modLoader modShaders t).shaderCount := by
  unfold InitShaders.loads
  cases modLoader
  · simp only [Bool.false_eq_true, if_false]
    refine ⟨?_, ?_⟩
    · simp only [LoadShader_shaderSupport]
    · have h2 := LoadShader_shaderCount_pos load { t with shaderSupport := true } "None" false hlen
      refine Nat.lt_of_lt_of_le h2 ?_
      refine Nat.le_trans ?_ (LoadShader_shaderCount_le load _ _ _)
      refine Nat.le_trans ?_ (LoadShader_shaderCount_le load _ _ _)
      refine Nat.le_trans ?_ (LoadShader_shaderCount_le load _ _ _)
      refine Nat.le_trans ?_ (LoadShader_shaderCount_le load _ _ _)
      refine Nat.le_trans ?_ (LoadShader_shaderCount_le load _ _ _)
      refine Nat.le_trans ?_ (LoadShader_shaderCount_le load _ _ _)
      exact LoadShader_shaderCount_le load _ _ _
  · simp only [if_true]
    refine ⟨?_, ?_⟩
    · simp only [LoadShader_shaderSupport, LoadShader_foldl_shaderSupport]
    · have h2 := LoadShader_shaderCount_pos load
        { t with shaderSupport := true, shaderCount := 0 } "None" false hlen
      refine Nat.lt_of_lt_of_le h2 ?_
      refine Nat.le_trans ?_ (LoadShader_shaderCount_le load _ _ _)
      refine Nat.le_trans ?_ (LoadShader_shaderCount_le load _ _ _)
      refine Nat.le_trans ?_ (LoadShader_shaderCount_le load _ _ _)
      refine Nat.le_trans ?_ (LoadShader_shaderCount_le load _ _ _)
      refine Nat.le_trans ?_ (LoadShader_foldl_shaderCount_le load modShaders _)
      refine Nat.le_trans ?_ (LoadShader_shaderCount_le load _ _ _)
      refine Nat.le_trans ?_ (LoadShader_shaderCount_le load _ _ _)
      exact LoadShader_shaderCount_le load _ _ _

/-- C15, what the code does instead: `LoadShader` counts a shader whether
or not `GL_LoadShader` gave a program, so after the loads `shaderCount` is
never 0 and the fallback of `InitShaders` is never taken: for every loader
(one that fails every time included), with or without the mod loader,
`InitShaders` ends with `shaderSupport == true` and `shaderCount > 0`, and
it is the loaded table with only `shaderID` clamped. -/
theorem C15_fallback_never_taken (load : String → String → Nat) (modLoader : Bool)
    (modShaders : List (String × Bool)) (backupProgram : Nat) (t : ShaderTable)
    (hlen : 0 < t.shaderList.length) :
    (InitShaders load modLoader modShaders backupProgram t).shaderSupport = true ∧
      0 < (InitShaders load modLoader modShaders backupProgram t).shaderCount ∧
      (InitShaders load modLoader modShaders backupProgram t).shaderList =
        (InitShaders.loads load modLoader modShaders t).shaderList := by
  obtain ⟨hs, hc⟩ := InitShaders.loads_spec load modLoader modShaders t hlen
  have hne : (InitShaders.loads load modLoader modShaders t).shaderCount ≠ 0 := by omega
  unfold InitShaders
  simp only [if_neg hne]
  exact ⟨hs, hc, trivial⟩

/-- Witness of C15: every load fails (`GL_LoadShader` returns 0); the eight
slots keep the handle 0, `shaderSupport` is true and slot 0 does not hold the
built-in program 77. -/
theorem C15_fallback_never_taken_witness :
    0 < demoShaderTable.shaderList.length ∧
      (InitShaders (fun _ _ => 0) false [] 77 demoShaderTable).shaderSupport = true ∧
      0 < (InitShaders (fun _ _ => 0) false [] 77 demoShaderTable).shaderCount ∧
      (InitShaders (fun _ _ => 0) false [] 77 demoShaderTable).shaderList.map
        ShaderEntry.programID = [0, 0, 0, 0, 0, 0, 0, 0] := by
  obtain ⟨h1, h2, _⟩ := C15_fallback_never_taken (fun _ _ => 0) false [] 77 demoShaderTable
    (by decide)
  exact ⟨by decide, h1, h2, by decide⟩

/-! ### Resolve shaders and blending (C16, C18, C19) -/

theorem shaderAt_new (st : HWState) (p : Nat) (o : Shader) (hp : p ≠ 0) :
    ({ st with heap := (p, o) :: st.heap } : HWState).shaderAt p = some o := by
  unfold HWState.shaderAt
  simp [hp, List.lookup]

/-- C16: for a non-null address `p` handed out by `new` and singletons of
their declared classes, `GetFBShader(ink, alpha)` returns `p`, pointing to a
shader of the class matching `ink` with the program of that mode's singleton
and the mode's parameter (Alpha: `alpha`; Add and Subtract:
`intensity = alpha`; Tint: the current `tintLookupTable`; Masked and
Unmasked: the current `maskColor`; None and Blend: a plain copy), and it
returns null if and only if `ink` is none of the eight ink modes. -/
theorem C16_GetFBShader (st : HWState) (p : Nat) (ink : Int) (alpha : Nat) (hp : p ≠ 0)
    (ht : st.singletonsTyped = true) :
    ((GetFBShader st p ink alpha).1 = 0 ↔
        ¬ (ink = INK_NONE ∨ ink = INK_BLEND ∨ ink = INK_ALPHA ∨ ink = INK_ADD ∨ ink = INK_SUB ∨
            ink = INK_TINT ∨ ink = INK_MASKED ∨ ink = INK_UNMASKED)) ∧
      (ink = INK_NONE → (GetFBShader st p ink alpha).1 = p ∧
        ∃ sh, GetFBShader.made st p ink alpha = some sh ∧ sh.cls = .FBNoneShader ∧
          sh = st.fbNoneShader.obj) ∧
      (ink = INK_BLEND → (GetFBShader st p ink alpha).1 = p ∧
        ∃ sh, GetFBShader.made st p ink alpha = some sh ∧ sh.cls = .FBBlendShader ∧
          sh = st.fbBlendShader.obj) ∧
      (ink = INK_ALPHA → (GetFBShader st p ink alpha).1 = p ∧
        ∃ sh, GetFBShader.made st p ink alpha = some sh ∧ sh.cls = .FBAlphaShader ∧
          sh.internal = st.fbAlphaShader.obj.internal ∧ sh.alpha = alpha) ∧
      (ink = INK_ADD → (GetFBShader st p ink alpha).1 = p ∧
        ∃ sh, GetFBShader.made st p ink alpha = some sh ∧ sh.cls = .FBAddShader ∧
          sh.internal = st.fbAddShader.obj.internal ∧ sh.intensity = alpha) ∧
      (ink = INK_SUB → (GetFBShader st p ink alpha).1 = p ∧
        ∃ sh, GetFBShader.made st p ink alpha = some sh ∧ sh.cls = .FBSubShader ∧
          sh.internal = st.fbSubShader.obj.internal ∧ sh.intensity = alpha) ∧
      (ink = INK_TINT → (GetFBShader st p ink alpha).1 = p ∧
        ∃ sh, GetFBShader.made st p ink alpha = some sh ∧ sh.cls = .FBTintShader ∧
          sh.internal = st.fbTintShader.obj.internal ∧ sh.lookupTable = st.tintLookupTable) ∧
      (ink = INK_MASKED → (GetFBShader st p ink alpha).1 = p ∧
        ∃ sh, GetFBShader.made st p ink alpha = some sh ∧ sh.cls = .FBMaskedShader ∧
          sh.internal = st.fbMaskedShader.obj.internal ∧ sh.color = st.maskColor) ∧
      (ink = INK_UNMASKED → (GetFBShader st p ink alpha).1 = p ∧
        ∃ sh, GetFBShader.made st p ink alpha = some sh ∧ sh.cls = .FBUnmaskedShader ∧
          sh.internal = st.fbUnmaskedShader.obj.internal ∧ sh.color = st.maskColor) := by
  simp only [HWState.singletonsTyped, Bool.and_eq_true, decide_eq_true_eq] at ht
  obtain ⟨⟨⟨⟨⟨⟨⟨t0, t1⟩, t2⟩, t3⟩, t4⟩, t5⟩, t6⟩, t7⟩ := ht
  refine ⟨?_, ?_, ?_, ?_, ?_, ?_, ?_, ?_, ?_⟩
  · unfold GetFBShader
    constructor
    · intro h
      split at h
      · exact absurd h hp
      · split at h
        · exact absurd h hp
        · split at h
          · exact absurd h hp
          · split at h
            · exact absurd h hp
            · split at h
              · exact absurd h hp
              · split at h
                · exact absurd h hp
                · split at h
                  · exact absurd h hp
                  · split at h
                    · exact absurd h hp
                    · rintro (h' | h' | h' | h' | h' | h' | h' | h') <;> contradiction
    · intro h
      simp only [not_or] at h
      obtain ⟨h0, h1, h2, h3, h4, h5, h6, h7⟩ := h
      simp only [if_neg h0, if_neg h1, if_neg h2, if_neg h3, if_neg h4, if_neg h5, if_neg h6,
        if_neg h7]
  · rintro rfl
    have hG : GetFBShader st p INK_NONE alpha =
        (p, { st with heap := (p, st.fbNoneShader.obj) :: st.heap }) := by
      simp [GetFBShader]
    unfold GetFBShader.made
    rw [hG]
    exact ⟨rfl, _, shaderAt_new st p _ hp, t0, rfl⟩
  · rintro rfl
    have hG : GetFBShader st p INK_BLEND alpha =
        (p, { st with heap := (p, st.fbBlendShader.obj) :: st.heap }) := by
      simp [GetFBShader, INK_BLEND, INK_NONE]
    unfold GetFBShader.made
    rw [hG]
    exact ⟨rfl, _, shaderAt_new st p _ hp, t1, rfl⟩
  · rintro rfl
    have hG : GetFBShader st p INK_ALPHA alpha =
        (p, { st with heap := (p, { st.fbAlphaShader.obj with alpha := alpha }) :: st.heap }) := by
      simp [GetFBShader, INK_ALPHA, INK_BLEND, INK_NONE]
    unfold GetFBShader.made
    rw [hG]
    exact ⟨rfl, _, shaderAt_new st p _ hp, t2, rfl, rfl⟩
  · rintro rfl
    have hG : GetFBShader st p INK_ADD alpha =
        (p, { st with heap :=
          (p, { st.fbAddShader.obj with intensity := alpha }) :: st.heap }) := by
      simp [GetFBShader, INK_ADD, INK_ALPHA, INK_BLEND, INK_NONE]
    unfold GetFBShader.made
    rw [hG]
    exact ⟨rfl, _, shaderAt_new st p _ hp, t3, rfl, rfl⟩
  · rintro rfl
    have hG : GetFBShader st p INK_SUB alpha =
        (p, { st with heap :=
          (p, { st.fbSubShader.obj with intensity := alpha }) :: st.heap }) := by
      simp [GetFBShader, INK_SUB, INK_ADD, INK_ALPHA, INK_BLEND, INK_NONE]
    unfold GetFBShader.made
    rw [hG]
    exact ⟨rfl, _, shaderAt_new st p _ hp, t4, rfl, rfl⟩
  · rintro rfl
    have hG : GetFBShader st p INK_TINT alpha =
        (p, { st with heap :=
          (p, { st.fbTintShader.obj with lookupTable := st.tintLookupTable }) :: st.heap }) := by
      simp [GetFBShader, INK_TINT, INK_SUB, INK_ADD, INK_ALPHA, INK_BLEND, INK_NONE]
    unfold GetFBShader.made
    rw [hG]
    exact ⟨rfl, _, shaderAt_new st p _ hp, t5, rfl, rfl⟩
  · rintro rfl
    have hG : GetFBShader st p INK_MASKED alpha =
        (p, { st with heap :=
          (p, { st.fbMaskedShader.obj with color := st.maskColor }) :: st.heap }) := by
      simp [GetFBShader, INK_MASKED, INK_TINT, INK_SUB, INK_ADD, INK_ALPHA, INK_BLEND, INK_NONE]
    unfold GetFBShader.made
    rw [hG]
    exact ⟨rfl, _, shaderAt_new st p _ hp, t6, rfl, rfl⟩
  · rintro rfl
    have hG : GetFBShader st p INK_UNMASKED alpha =
        (p, { st with heap :=
          (p, { st.fbUnmaskedShader.obj with color := st.maskColor }) :: st.heap }) := by
      simp [GetFBShader, INK_UNMASKED, INK_MASKED, INK_TINT, INK_SUB, INK_ADD, INK_ALPHA,
        INK_BLEND, INK_NONE]
    unfold GetFBShader.made
    rw [hG]
    exact ⟨rfl, _, shaderAt_new st p _ hp, t7, rfl, rfl⟩

/-- Witness of C16 on `demoState`: ink 2 (alpha) with parameter 77 gives an
alpha shader at the new address carrying 77; ink 9 gives null. -/
theorem C16_GetFBShader_witness :
    (6000 : Nat) ≠ 0 ∧ demoState.singletonsTyped = true ∧
      ((GetFBShader demoState 6000 INK_ALPHA 77).1 = 6000 ∧
        ∃ sh, GetFBShader.made demoState 6000 INK_ALPHA 77 = some sh ∧
          sh.cls = .FBAlphaShader ∧
          sh.internal = demoState.fbAlphaShader.obj.internal ∧ sh.alpha = 77) ∧
      (GetFBShader demoState 6000 9 77).1 = 0 :=
  ⟨by decide, by decide,
    (C16_GetFBShader demoState 6000 INK_ALPHA 77 (by decide) (by decide)).2.2.2.1 rfl,
    (C16_GetFBShader demoState 6000 9 77 (by decide) (by decide)).1.mpr (by decide)⟩

theorem clamp01_of_mem {x : ℚ} (h0 : 0 ≤ x) (h1 : x ≤ 1) : clamp01 x = x := by
  unfold clamp01
  rw [min_eq_right h1, max_eq_right h0]

theorem clamp01_of_nonneg {x : ℚ} (h0 : 0 ≤ x) : clamp01 x = min 1 x := by
  unfold clamp01
  exact max_eq_right (le_min zero_le_one h0)

theorem clamp01_of_le_one {x : ℚ} (h1 : x ≤ 1) : clamp01 x = max 0 x := by
  unfold clamp01
  rw [min_eq_right h1]

theorem mix_mem (src dst a : ℚ) (hsrc : 0 ≤ src ∧ src ≤ 1) (hdst : 0 ≤ dst ∧ dst ≤ 1)
    (ha : 0 ≤ a ∧ a ≤ 1) :
    0 ≤ src * a + dst * (1 - a) ∧ src * a + dst * (1 - a) ≤ 1 := by
  obtain ⟨hs0, hs1⟩ := hsrc
  obtain ⟨hd0, hd1⟩ := hdst
  obtain ⟨ha0, ha1⟩ := ha
  have h1a : 0 ≤ 1 - a := by linarith
  constructor
  · exact add_nonneg (mul_nonneg hs0 ha0) (mul_nonneg hd0 h1a)
  · have e1 : src * a ≤ 1 * a := mul_le_mul_of_nonneg_right hs1 ha0
    have e2 : dst * (1 - a) ≤ 1 * (1 - a) := mul_le_mul_of_nonneg_right hd1 h1a
    linarith

/-- C18: with colour components and source alpha `a` as fractions in
`[0, 1]`, the blend state `SetArgs` configures makes the blending stage
compute, per channel, `src * a + dst * (1 - a)` for None, Blend (whose
`SetArgs` passes `alpha = 0.5`) and Alpha (whose `SetArgs` passes the
shader's `alpha`), and `src * a + dst * 1`, clamped to the channel maximum,
for Add (whose `SetArgs` passes `intensity`). -/
theorem C18_ink_equations (sh : Shader) (gl : GLState) (src dst a : ℚ)
    (hsrc : 0 ≤ src ∧ src ≤ 1) (hdst : 0 ≤ dst ∧ dst ≤ 1) (ha : 0 ≤ a ∧ a ≤ 1) :
    (sh.cls = .FBNoneShader →
        glBlend (sh.SetArgs gl) src dst a = src * a + dst * (1 - a)) ∧
      (sh.cls = .FBBlendShader →
        glBlend (sh.SetArgs gl) src dst a = src * a + dst * (1 - a) ∧
          (sh.SetArgs gl).uniformAlpha = [FLOAT_HALF]) ∧
      (sh.cls = .FBAlphaShader →
        glBlend (sh.SetArgs gl) src dst a = src * a + dst * (1 - a) ∧
          (sh.SetArgs gl).uniformAlpha = [sh.alpha]) ∧
      (sh.cls = .FBAddShader →
        glBlend (sh.SetArgs gl) src dst a = min 1 (src * a + dst * 1) ∧
          (sh.SetArgs gl).uniformAlpha = [sh.intensity]) := by
  obtain ⟨hm0, hm1⟩ := mix_mem src dst a hsrc hdst ha
  refine ⟨fun h => ?_, fun h => ⟨?_, ?_⟩, fun h => ⟨?_, ?_⟩, fun h => ⟨?_, ?_⟩⟩
  · simp only [Shader.SetArgs, h, glBlend, BlendFactor.weight]
    exact clamp01_of_mem hm0 hm1
  · simp only [Shader.SetArgs, h, glBlend, BlendFactor.weight]
    exact clamp01_of_mem hm0 hm1
  · simp only [Shader.SetArgs, h]
  · simp only [Shader.SetArgs, h, glBlend, BlendFactor.weight]
    exact clamp01_of_mem hm0 hm1
  · simp only [Shader.SetArgs, h]
  · simp only [Shader.SetArgs, h, glBlend, BlendFactor.weight]
    exact clamp01_of_nonneg
      (add_nonneg (mul_nonneg hsrc.1 ha.1) (mul_nonneg hdst.1 zero_le_one))
  · simp only [Shader.SetArgs, h]

/-- Witness of C18: Add with alpha 1 over `dst = 0x20` and `src = 0x10` (of
`0xFF`) gives `0x30`; Alpha with alpha one half over the same values gives
`0x18`. -/
theorem C18_ink_equations_witness :
    glBlend (Shader.SetArgs { cls := .FBAddShader } {}) (0x10 / 0xFF) (0x20 / 0xFF) 1 =
        0x30 / 0xFF ∧
      glBlend (Shader.SetArgs { cls := .FBAlphaShader } {}) (0x10 / 0xFF) (0x20 / 0xFF) (1 / 2) =
        0x18 / 0xFF := by
  have hr : (0 : ℚ) ≤ 0x10 / 0xFF ∧ (0x10 / 0xFF : ℚ) ≤ 1 := by norm_num
  have hd : (0 : ℚ) ≤ 0x20 / 0xFF ∧ (0x20 / 0xFF : ℚ) ≤ 1 := by norm_num
  have hAdd := (C18_ink_equations { cls := .FBAddShader } {} (0x10 / 0xFF) (0x20 / 0xFF) 1
    hr hd (by norm_num)).2.2.2 rfl
  have hAlpha := (C18_ink_equations { cls := .FBAlphaShader } {} (0x10 / 0xFF) (0x20 / 0xFF)
    (1 / 2) hr hd (by norm_num)).2.2.1 rfl
  refine ⟨?_, ?_⟩
  · rw [hAdd.1]; norm_num
  · rw [hAlpha.1]; norm_num

/-- C19, what the code does instead: `FBSubShader::SetArgs` selects
`GL_FUNC_SUBTRACT` with factors `(GL_SRC_ALPHA, GL_ONE)`, so the blending
stage computes, per channel, `src * a - dst` clamped at 0, the source minus
the destination, not `dst - src * a`. -/
theorem C19_sub_is_source_minus_destination (sh : Shader) (gl : GLState) (src dst a : ℚ)
    (hsrc : 0 ≤ src ∧ src ≤ 1) (hdst : 0 ≤ dst ∧ dst ≤ 1) (ha : 0 ≤ a ∧ a ≤ 1)
    (hcls : sh.cls = .FBSubShader) :
    (sh.SetArgs gl).blendEquation = .GL_FUNC_SUBTRACT ∧
      glBlend (sh.SetArgs gl) src dst a = max 0 (src * a - dst) := by
  constructor
  · simp only [Shader.SetArgs, hcls]
  · simp only [Shader.SetArgs, hcls, glBlend, BlendFactor.weight, mul_one]
    refine clamp01_of_le_one ?_
    have e1 : src * a ≤ 1 * 1 := mul_le_mul hsrc.2 ha.2 ha.1 zero_le_one
    linarith [hdst.1]

/-- Witness of C19: Subtract with alpha 1 over `dst = 0x20` and
`src = 0x10` (of `0xFF`) gives 0, where `dst - src * a` is `0x10`. -/
theorem C19_sub_is_source_minus_destination_witness :
    glBlend (Shader.SetArgs { cls := .FBSubShader } {}) (0x10 / 0xFF) (0x20 / 0xFF) 1 = 0 ∧
      (0x20 / 0xFF - 0x10 / 0xFF * 1 : ℚ) = 0x10 / 0xFF := by
  have h := (C19_sub_is_source_minus_destination { cls := .FBSubShader } {} (0x10 / 0xFF)
    (0x20 / 0xFF) 1 (by norm_num) (by norm_num) (by norm_num) rfl).2
  refine ⟨?_, by norm_num⟩
  rw [h]; norm_num

/-! ### The resolve decision (C20) -/

/-- C20, what the code does instead: the first operand of the resolve
condition compares the pointer `current.fbShader` with the program handle
`fbNoneShader.internal`; whenever these differ for the queued commands (an
object address is never the handle) the condition holds after every command,
so every command, a "none" command followed by another "none" command
included, gets a resolve pass of its own: the draw calls of the drain are
geometry pass, resolve pass, once per queued command. -/
theorem C20_every_command_resolved (st : HWState) (hd : st.drainable = true)
    (haddr : ∀ k q j c, k < st.screenCount → st.renderStates[k]? = some q → q.i ≤ j →
      j < q.size → q._vector[j]? = some c → c.fbShader ≠ st.fbNoneShader.obj.internal) :
    ∃ st' new, CopyFrameBuffer st = .ok st' ∧ st'.gl.draws = st.gl.draws ++ new ∧
      new.map GLDraw.isResolve = resolvePattern
        ((st.renderStates.take st.screenCount).map RenderStateQueue.pending).sum := by
  refine CopyFrameBuffer_all_resolved st hd ?_
  intro k q hk hkq j c hj1 hj2 hjc
  unfold resolveNow
  rw [if_pos (haddr k q j c hk hkq hj1 hj2 hjc)]

/-- Witness of C20: two "none" commands queued on screen 0 (FB shader
objects at 6000 and 6100, "none" program handle 8); each is followed by a
resolve pass. -/
theorem C20_every_command_resolved_witness :
    demoTwoNone.drainable = true ∧
      demoTwoNone.shaderAt 6000 = some { cls := .FBNoneShader, internal := 8 } ∧
      demoTwoNone.shaderAt 6100 = some { cls := .FBNoneShader, internal := 8 } ∧
      demoTwoNone.fbNoneShader.obj.internal = 8 ∧
      ∃ st' new, CopyFrameBuffer demoTwoNone = .ok st' ∧
        st'.gl.draws = demoTwoNone.gl.draws ++ new ∧
        new.map GLDraw.isResolve = [false, true, false, true] := by
  obtain ⟨st', new, h, hdr, hn⟩ := C20_every_command_resolved demoTwoNone (by decide) (by
    intro k q j c hk hkq hj1 hj2 hjc
    have hk0 : k = 0 := Nat.lt_one_iff.mp hk
    subst hk0
    have hq : q = { _vector := [{ quadCmd 5000 6000 with clip_X2 := 424, clip_Y2 := 240 },
        { quadCmd 5100 6100 with clip_X2 := 424, clip_Y2 := 240 }], i := 0, size := 2 } := by
      have : demoTwoNone.renderStates[0]? = some _ := rfl
      rw [this] at hkq
      exact (Option.some.inj hkq).symm
    subst hq
    simp only at hj2
    have hj : j = 0 ∨ j = 1 := by omega
    rcases hj with rfl | rfl
    · simp only [List.getElem?_cons_zero, Option.some.injEq] at hjc
      subst hjc
      decide
    · simp only [List.getElem?_cons_succ, List.getElem?_cons_zero, Option.some.injEq] at hjc
      subst hjc
      decide)
  exact ⟨by decide, by decide, by decide, by decide, st', new, h, hdr, hn⟩

/-! ### The deformation encoders: two runs make the same stores -/

theorem BufAgree.trans {buf buf' b b' r r' : List Flt} (h1 : BufAgree buf buf' b b')
    (h2 : BufAgree b b' r r') : BufAgree buf buf' r r' := by
  obtain ⟨hl1, hl1', hp1⟩ := h1
  obtain ⟨hl2, hl2', hp2⟩ := h2
  refine ⟨hl2.trans hl1, hl2'.trans hl1', fun p => ?_⟩
  rcases hp2 p with h | ⟨h, h'⟩
  · exact Or.inl h
  · rcases hp1 p with g | ⟨g, g'⟩
    · exact Or.inl (by rw [h, h', g])
    · exact Or.inr ⟨h.trans g, h'.trans g'⟩

theorem stageAndPush_neg (st : HWState) (s : Int) (shader fbShader vertexCount indexCount : Nat)
    (hs : s < 0) :
    stageAndPush st s shader fbShader vertexCount indexCount = .error .outOfRange := by
  unfold stageAndPush HWState.modifyCurrent arrayAt
  rw [if_pos hs]

theorem DrawLayer.queueQuad_off_screen_zero (env : DrawEnv) (p pf : Nat) (st : HWState)
    (bufs : Buffers) (tile : Shader) (l : Nat) (hk : 1 ≤ env.currentScreen) :
    DrawLayer.queueQuad env p pf st bufs tile l = .error .outOfRange := by
  unfold DrawLayer.queueQuad
  simp only
  rw [stageAndPush_neg _ _ _ _ _ _ (by omega)]

/-- An empty layer: the four layer functions return at once and change
neither the renderer state nor the buffers. -/
theorem DrawLayer_empty (env : DrawEnv) (p pf : Nat) (st : HWState) (bufs : Buffers) (l : Nat)
    (layer : TileLayer) (h : layer.xsize = 0 ∨ layer.ysize = 0) :
    DrawLayerHScroll env p pf st bufs l layer = .ok (st, bufs) ∧
      DrawLayerVScroll env p pf st bufs l layer = .ok (st, bufs) ∧
      DrawLayerRotozoom env p pf st bufs l layer = .ok (st, bufs) ∧
      DrawLayerBasic env p pf st bufs l layer = .ok (st, bufs) := by
  unfold DrawLayerBasic DrawLayerHScroll DrawLayerVScroll DrawLayerRotozoom
  simp only [if_pos h, and_self]

/-- On screen 0 of a two-screen state the horizontal-scroll layer function
queues one command of four vertices and six indices at the ring offsets
`(6, 0)`, and stores the indices `0, 1, 2, 1, 3, 2`. -/
theorem DrawLayerHScroll_demo_screen_zero :
    layerSummary (DrawLayerHScroll demoDrawEnv 7000 7100 demoTwoScreens demoBuffers 0 demoLayer) =
      some ([[{ shader := 7000, fbShader := 7100, clip_X2 := 424, clip_Y2 := 240,
                vertexBuffer := 6, indexBuffer := 0, vertexCount := 4, indexCount := 6 }], []],
            10, 6, [0, 1, 2, 1, 3, 2, 0, 0]) := by
  rfl

/-- C12, where the code diverges: the layer functions take the screen index
as `s = screens - currentScreen`, the negative of the index of the current
screen. For a layer with `xsize != 0` and `ysize != 0` drawn while the
current screen is not `screens[0]`, `currentState + s` lies before the
array: none of `DrawLayerHScroll`, `DrawLayerVScroll`, `DrawLayerRotozoom`
and `DrawLayerBasic` queues a command, each leaves the defined behaviour. -/
theorem C12_layer_draw_off_screen_zero (env : DrawEnv) (p pf : Nat) (st : HWState)
    (bufs : Buffers) (l : Nat) (layer : TileLayer) (hx : layer.xsize ≠ 0) (hy : layer.ysize ≠ 0)
    (hk : 1 ≤ env.currentScreen) :
    (∃ e, DrawLayerHScroll env p pf st bufs l layer = .error e) ∧
      (∃ e, DrawLayerVScroll env p pf st bufs l layer = .error e) ∧
      (∃ e, DrawLayerRotozoom env p pf st bufs l layer = .error e) ∧
      (∃ e, DrawLayerBasic env p pf st bufs l layer = .error e) := by
  have hne : ¬ (layer.xsize = 0 ∨ layer.ysize = 0) := by
    rintro (h | h)
    · exact hx h
    · exact hy h
  have hH : ∃ e, DrawLayerHScroll env p pf st bufs l layer = .error e := by
    unfold DrawLayerHScroll
    rw [if_neg hne]
    split
    · exact ⟨_, rfl⟩
    · split
      · exact ⟨_, rfl⟩
      · exact ⟨_, DrawLayer.queueQuad_off_screen_zero env p pf st _ _ l hk⟩
  refine ⟨hH, ?_, ?_, hH⟩
  · unfold DrawLayerVScroll
    rw [if_neg hne]
    split
    · exact ⟨_, rfl⟩
    · split
      · exact ⟨_, rfl⟩
      · rw [DrawLayer.queueQuad_off_screen_zero env p pf st _ _ l hk]
        exact ⟨_, rfl⟩
  · unfold DrawLayerRotozoom
    rw [if_neg hne]
    split
    · exact ⟨_, rfl⟩
    · split
      · exact ⟨_, rfl⟩
      · exact ⟨_, DrawLayer.queueQuad_off_screen_zero env p pf st _ _ l hk⟩

/-- Witness of C12: a 32 by 32 layer drawn while the current screen is
`screens[1]` of two active screens. -/
theorem C12_layer_draw_off_screen_zero_witness :
    demoLayer.xsize ≠ 0 ∧ demoLayer.ysize ≠ 0 ∧ demoTwoScreens.screenCount = 2 ∧
      layerSummary (DrawLayerHScroll { demoDrawEnv with currentScreen := 1 } 7000 7100
        demoTwoScreens demoBuffers 0 demoLayer) = none ∧
      ((∃ e, DrawLayerHScroll { demoDrawEnv with currentScreen := 1 } 7000 7100 demoTwoScreens
          demoBuffers 0 demoLayer = .error e) ∧
        (∃ e, DrawLayerVScroll { demoDrawEnv with currentScreen := 1 } 7000 7100 demoTwoScreens
          demoBuffers 0 demoLayer = .error e) ∧
        (∃ e, DrawLayerRotozoom { demoDrawEnv with currentScreen := 1 } 7000 7100 demoTwoScreens
          demoBuffers 0 demoLayer = .error e) ∧
        (∃ e, DrawLayerBasic { demoDrawEnv with currentScreen := 1 } 7000 7100 demoTwoScreens
          demoBuffers 0 demoLayer = .error e)) :=
  ⟨by decide, by decide, rfl, rfl,
    C12_layer_draw_off_screen_zero { demoDrawEnv with currentScreen := 1 } 7000 7100
      demoTwoScreens demoBuffers 0 demoLayer (by decide) (by decide) (by decide)⟩

/-! ### Draw calls across screens (C11) -/

theorem runningOffsets_append (a b : List RenderState) :
    ∀ v i, runningOffsets v i (a ++ b) =
      runningOffsets v i a ++ runningOffsets (endOffsets v i a).1 (endOffsets v i a).2 b := by
  induction a with
  | nil => intro v i; rfl
  | cons c cs ih =>
    intro v i
    show _ :: runningOffsets _ _ (cs ++ b) = _
    rw [ih]
    rfl

theorem endOffsets_append (a b : List RenderState) :
    ∀ v i, endOffsets v i (a ++ b) = endOffsets (endOffsets v i a).1 (endOffsets v i a).2 b := by
  induction a with
  | nil => intro v i; rfl
  | cons c cs ih =>
    intro v i
    show endOffsets _ _ (cs ++ b) = _
    rw [ih]
    rfl

theorem RenderStateQueue.pendingCmds_step {q : RenderStateQueue} {c : RenderState}
    (hlt : q.i < q.size) (hc : q._vector[q.i]? = some c) :
    q.pendingCmds = c :: RenderStateQueue.pendingCmds { q with i := q.i + 1 } := by
  unfold RenderStateQueue.pendingCmds
  have hlen : q.i < q._vector.length := by
    rcases Nat.lt_or_ge q.i q._vector.length with h | h
    · exact h
    · rw [List.getElem?_eq_none h] at hc; cases hc
  have hlen' : q.i < (q._vector.take q.size).length := by
    rw [List.length_take]; omega
  rw [List.drop_eq_getElem_cons hlen']
  congr 1
  have : (q._vector.take q.size)[q.i]? = some c := by
    rw [List.getElem?_take]; simp [hlt, hc]
  rw [List.getElem?_eq_getElem hlen'] at this
  exact Option.some.inj this

theorem RenderStateQueue.pendingCmds_of_empty {q : RenderStateQueue} (he : q.size ≤ q.i) :
    q.pendingCmds = [] := by
  unfold RenderStateQueue.pendingCmds
  rw [List.drop_eq_nil_iff]
  rw [List.length_take]
  omega

theorem RenderStateQueue.pendingCmds_finish (q : RenderStateQueue) :
    q.finish.pendingCmds = [] :=
  RenderStateQueue.pendingCmds_of_empty (Nat.le_refl _)

theorem drainStep_geometry {st : HWState} (s : Nat) (d : Drain)
    (h : st.drainableQueue d.queue = true) (hlt : d.queue.i < d.queue.size) {c : RenderState}
    (hc : d.queue._vector[d.queue.i]? = some c) :
    ∃ d' new, drainStep st s d = .ok d' ∧ d'.queue = { d.queue with i := d.queue.i + 1 } ∧
      d'.gl.draws = d.gl.draws ++ new ∧
      geometryPasses new = [(c.indexCount, d.iOff * 2, d.vOff)] ∧
      d'.vOff = (d.vOff + c.vertexCount) % 2 ^ 32 ∧
      d'.iOff = (d.iOff + c.indexCount) % 2 ^ 32 := by
  obtain ⟨c', hc', hv⟩ := validCmd_of_drainableQueue h (Nat.le_refl _) hlt
  rw [hc] at hc'
  obtain rfl := Option.some.inj hc'
  have hr : d.queue.size < 2 ^ 32 := by
    simp only [HWState.drainableQueue, Bool.and_eq_true, decide_eq_true_eq] at h
    exact h.1.2
  have hpop : d.queue.pop = some (c, { d.queue with i := d.queue.i + 1 }) := by
    unfold RenderStateQueue.pop
    rw [hc]
    simp only
    rw [Nat.mod_eq_of_lt (by omega)]
  simp only [HWState.validCmd, Bool.and_eq_true] at hv
  obtain ⟨sh, hsh⟩ := Option.isSome_iff_exists.mp hv.1
  obtain ⟨fb, hfb⟩ := Option.isSome_iff_exists.mp hv.2
  obtain ⟨b, hb⟩ := resolveNow_ok c (drainableQueue_step h)
  unfold drainStep
  rw [hpop]
  simp only [hsh, hb]
  cases b
  · exact ⟨_, _, rfl, rfl,
      (by simp only [Shader.SetArgs_draws, Shader.Use]
          rfl),
      (by rfl), rfl, rfl⟩
  · simp only [hfb]
    exact ⟨_, _, rfl, rfl,
      (by simp only [Shader.SetArgs_draws, Shader.Use, List.append_assoc, List.singleton_append]
          rfl),
      (by rfl), rfl, rfl⟩

theorem drainLoop_geometry {st : HWState} (s : Nat) (fuel : Nat) :
    ∀ d : Drain, st.drainableQueue d.queue = true → d.queue.size - d.queue.i ≤ fuel →
      ∃ d' new, drainLoop st s fuel d = .ok d' ∧ d'.queue.finish = d.queue.finish ∧
        d'.gl.draws = d.gl.draws ++ new ∧
        geometryPasses new = runningOffsets d.vOff d.iOff d.queue.pendingCmds ∧
        (d'.vOff, d'.iOff) = endOffsets d.vOff d.iOff d.queue.pendingCmds := by
  induction fuel with
  | zero =>
    intro d _ hf
    have he : d.queue.empty = true := by
      simp only [RenderStateQueue.empty, decide_eq_true_eq]; omega
    have hp : d.queue.pendingCmds = [] := RenderStateQueue.pendingCmds_of_empty (by omega)
    refine ⟨d, [], by simp [drainLoop, he], rfl, by simp, ?_, ?_⟩
    · rw [hp]; rfl
    · rw [hp]; rfl
  | succ n ih =>
    intro d h hf
    unfold drainLoop
    by_cases he : d.queue.empty = true
    · have hp : d.queue.pendingCmds = [] := by
        simp only [RenderStateQueue.empty, decide_eq_true_eq] at he
        exact RenderStateQueue.pendingCmds_of_empty he
      refine ⟨d, [], by simp [he], rfl, by simp, ?_, ?_⟩
      · rw [hp]; rfl
      · rw [hp]; rfl
    · have hlt : d.queue.i < d.queue.size := by
        simpa [RenderStateQueue.empty] using he
      obtain ⟨c, hc, -⟩ := validCmd_of_drainableQueue h (Nat.le_refl _) hlt
      obtain ⟨d1, new1, hd1, hq1, hdr1, hg1, hv1, hi1⟩ := drainStep_geometry s d h hlt hc
      have h1 : st.drainableQueue d1.queue = true := by
        rw [hq1]; exact drainableQueue_step h
      obtain ⟨d', new', hd', hq', hdr', hg', he'⟩ := ih d1 h1 (by rw [hq1]; simp only; omega)
      refine ⟨d', new1 ++ new', ?_, ?_, ?_, ?_, ?_⟩
      · simp only [he, hd1]
        exact hd'
      · rw [hq', hq1]; rfl
      · rw [hdr', hdr1, List.append_assoc]
      · rw [RenderStateQueue.pendingCmds_step hlt hc]
        unfold geometryPasses at hg1 hg' ⊢
        rw [List.filterMap_append, hg1, hg', hv1, hi1, hq1]
        rfl
      · rw [RenderStateQueue.pendingCmds_step hlt hc, he', hv1, hi1, hq1]
        rfl

theorem drainScreen_geometry {st : HWState} {s : Nat} {q : RenderStateQueue} (vOff iOff : Nat)
    (hq : st.renderStates[s]? = some q) (h : st.drainableQueue q = true) :
    ∃ st' vOff' iOff' new, drainScreen st s vOff iOff = .ok (st', vOff', iOff') ∧
      st.drainFrame st' ∧ st'.renderStates = st.renderStates.set s q.finish ∧
      st'.gl.draws = st.gl.draws ++ new ∧
      geometryPasses new = runningOffsets vOff iOff q.pendingCmds ∧
      (vOff', iOff') = endOffsets vOff iOff q.pendingCmds := by
  obtain ⟨d', new, hd', hfin, hdr, hg, he⟩ := drainLoop_geometry s (q.size - q.i)
    { queue := q, gl := st.gl, freed := st.freed, vOff := vOff, iOff := iOff } h (Nat.le_refl _)
  unfold drainScreen
  rw [hq]
  simp only [hd']
  refine ⟨_, _, _, new, rfl, ⟨_, _, _, rfl⟩, ?_, hdr, hg, he⟩
  simp only
  rw [hfin]

theorem drainScreens_geometry (n : Nat) :
    ∀ (s : Nat) (st : HWState) (vOff iOff : Nat), s + n ≤ st.renderStates.length →
      (∀ k q, s ≤ k → k < s + n → st.renderStates[k]? = some q →
        st.drainableQueue q = true) →
      ∃ st' vOff' iOff' new, drainScreens n s st vOff iOff = .ok (st', vOff', iOff') ∧
        st.drainFrame st' ∧ st'.gl.draws = st.gl.draws ++ new ∧
        geometryPasses new = runningOffsets vOff iOff
          (((st.renderStates.drop s).take n).map RenderStateQueue.pendingCmds).flatten ∧
        (vOff', iOff') = endOffsets vOff iOff
          (((st.renderStates.drop s).take n).map RenderStateQueue.pendingCmds).flatten := by
  induction n with
  | zero =>
    intro s st vOff iOff _ _
    exact ⟨st, vOff, iOff, [], rfl, ⟨_, _, _, rfl⟩, by simp, by simp [geometryPasses, runningOffsets],
      by simp [endOffsets]⟩
  | succ n ih =>
    intro s st vOff iOff hlen hall
    have hs : s < st.renderStates.length := by omega
    have hq : st.renderStates[s]? = some st.renderStates[s] := List.getElem?_eq_getElem hs
    have hd0 := hall s _ (Nat.le_refl _) (by omega) hq
    obtain ⟨st1, v1, i1, new1, h1, hf1, hr1, hdr1, hg1, he1⟩ :=
      drainScreen_geometry vOff iOff hq hd0
    obtain ⟨st2, v2, i2, new2, h2, hf2, hdr2, hg2, he2⟩ := ih (s + 1) st1 v1 i1
      (by rw [hr1, List.length_set]; omega) (by
        intro k q hk1 hk2 hkq
        rw [drainableQueue_of_frame hf1]
        refine hall k q (by omega) (by omega) ?_
        rw [hr1, List.getElem?_set_ne (by omega)] at hkq
        exact hkq)
    have hdrop : st1.renderStates.drop (s + 1) = st.renderStates.drop (s + 1) := by
      rw [hr1, List.drop_set_of_lt _ _ (Nat.lt_succ_self s)]
    rw [hdrop] at hg2 he2
    have hv1 : v1 = (endOffsets vOff iOff st.renderStates[s].pendingCmds).1 := by
      rw [← he1]
    have hi1 : i1 = (endOffsets vOff iOff st.renderStates[s].pendingCmds).2 := by
      rw [← he1]
    have hflat : (((st.renderStates.drop s).take (n + 1)).map RenderStateQueue.pendingCmds).flatten
        = st.renderStates[s].pendingCmds ++
          (((st.renderStates.drop (s + 1)).take n).map RenderStateQueue.pendingCmds).flatten := by
      rw [List.drop_eq_getElem_cons hs, List.take_succ_cons, List.map_cons, List.flatten_cons]
    refine ⟨st2, v2, i2, new1 ++ new2, ?_, ?_, ?_, ?_, ?_⟩
    · unfold drainScreens
      simp only [h1]
      exact h2
    · obtain ⟨rs1, gl1, fr1, rfl⟩ := hf1
      obtain ⟨rs2, gl2, fr2, rfl⟩ := hf2
      exact ⟨rs2, gl2, fr2, rfl⟩
    · rw [hdr2, hdr1, List.append_assoc]
    · rw [hflat, runningOffsets_append, ← hv1, ← hi1, ← hg1, ← hg2]
      unfold geometryPasses
      rw [List.filterMap_append]
    · rw [hflat, endOffsets_append, ← hv1, ← hi1, he2]

theorem CopyFrameBuffer_geometry (st : HWState) (hd : st.drainable = true) :
    ∃ st' new, CopyFrameBuffer st = .ok st' ∧ st'.gl.draws = st.gl.draws ++ new ∧
      geometryPasses new = runningOffsets 6 0 st.pendingCmds := by
  simp only [HWState.drainable, Bool.and_eq_true, decide_eq_true_eq, List.all_eq_true] at hd
  obtain ⟨hlen, hdq⟩ := hd
  have hfr : st.drainFrame
      { st with gl := { st.gl with framebuffer := .tFB, scissorTest := true } } :=
    ⟨_, _, _, rfl⟩
  obtain ⟨st1, v1, i1, new, h1, -, hdr, hg, -⟩ := drainScreens_geometry st.screenCount 0
    { st with gl := { st.gl with framebuffer := .tFB, scissorTest := true } } 6 0
    (by simpa using hlen) (by
      intro k q _ hk hkq
      simp only [Nat.zero_add] at hk
      have hmem : q ∈ st.renderStates.take st.screenCount := by
        refine List.getElem?_mem (n := k) ?_
        rw [List.getElem?_take]
        simpa [hk] using hkq
      rw [drainableQueue_of_frame hfr]
      exact hdq q hmem)
  refine ⟨{ st1 with vboOff := 6, iboOff := 0 }, new, ?_, hdr, ?_⟩
  · unfold CopyFrameBuffer
    simp only [h1]
  · simpa [HWState.pendingCmds] using hg

theorem AllocateVertexBuffer_fit (st : HWState) (count : Nat) (hc : count ≤ VERTEX_LIMIT)
    (hfit : st.vboOff + count ≤ VERTEX_LIMIT + 6) :
    AllocateVertexBuffer st count = .ok (st.vboOff, st) := by
  unfold AllocateVertexBuffer
  rw [if_neg (not_not.mpr hc), if_neg]
  unfold VERTEX_LIMIT at hfit ⊢
  omega

theorem AllocateIndexBuffer_fit (st : HWState) (count : Nat)
    (hfit : st.iboOff + count ≤ VERTEX_LIMIT) :
    AllocateIndexBuffer st count = .ok (st.iboOff, st) := by
  unfold AllocateIndexBuffer
  rw [if_neg (not_not.mpr (by omega)), if_neg]
  unfold VERTEX_LIMIT at hfit ⊢
  omega

theorem HWState.modifyCurrent_ok {st : HWState} {s : Nat} {state : RenderState}
    (hstate : st.currentState[s]? = some state) (f : RenderState → RenderState) :
    st.modifyCurrent (s : Int) f = .ok (st.setCurrent s (f state)) := by
  unfold HWState.modifyCurrent
  rw [arrayAt_natCast hstate]
  simp only [Int.toNat_ofNat]

theorem HWState.setCurrent_get {st : HWState} {s : Nat} (hs : s < st.currentState.length)
    (state : RenderState) : (st.setCurrent s state).currentState[s]? = some state := by
  unfold HWState.setCurrent
  exact List.getElem?_set_self hs

theorem HWState.setCurrent_setCurrent (st : HWState) (s : Nat) (a b : RenderState) :
    (st.setCurrent s a).setCurrent s b = st.setCurrent s b := by
  unfold HWState.setCurrent
  simp only [List.set_set]

theorem HWState.setCurrent_vboOff (st : HWState) (s : Nat) (a : RenderState) :
    (st.setCurrent s a).vboOff = st.vboOff := rfl

theorem HWState.setCurrent_iboOff (st : HWState) (s : Nat) (a : RenderState) :
    (st.setCurrent s a).iboOff = st.iboOff := rfl

theorem stageAndPush_fit {st : HWState} {s : Nat} {state : RenderState} {scr : ScreenInfo}
    {q : RenderStateQueue} (hstate : st.currentState[s]? = some state)
    (hscr : st.screens[s]? = some scr) (hq : st.renderStates[s]? = some q)
    (shader fbShader vertexCount indexCount : Nat)
    (hvc : vertexCount ≤ VERTEX_LIMIT) (hv : st.vboOff + vertexCount ≤ VERTEX_LIMIT + 6)
    (hi : st.iboOff + indexCount ≤ VERTEX_LIMIT)
    (hzv : state.vertexCount = 0) (hzi : state.indexCount = 0)
    (htint : fbShader ≠ st.fbTintShader.addr) :
    ∃ cmd : RenderState,
      cmd.shader = shader ∧ cmd.fbShader = fbShader ∧ cmd.vertexBuffer = st.vboOff ∧
      cmd.indexBuffer = st.iboOff ∧ cmd.vertexCount = vertexCount ∧
      cmd.indexCount = indexCount ∧
      stageAndPush st s shader fbShader vertexCount indexCount =
        .ok (st.vboOff, st.iboOff, { st with
          renderStates := st.renderStates.set s (q.push cmd)
          vboOff := st.vboOff + vertexCount
          iboOff := st.iboOff + indexCount
          currentState := st.currentState.set s { cmd with indexCount := 0, vertexCount := 0 } }) := by
  have hs : s < st.currentState.length := by
    rcases Nat.lt_or_ge s st.currentState.length with h | h
    · exact h
    · rw [List.getElem?_eq_none h] at hstate; cases hstate
  have hlim : VERTEX_LIMIT = 16384 := rfl
  refine ⟨queuedState
    { shader := shader, fbShader := fbShader, texture := 0, clip_X1 := state.clip_X1,
      clip_Y1 := state.clip_Y1, clip_X2 := state.clip_X2, clip_Y2 := state.clip_Y2,
      vertexBuffer := st.vboOff, indexBuffer := st.iboOff, vertexCount := vertexCount,
      indexCount := indexCount, shaderSize := state.shaderSize,
      fbShaderSize := state.fbShaderSize } scr, rfl, rfl, rfl, rfl, rfl, rfl, ?_⟩
  unfold stageAndPush
  rw [HWState.modifyCurrent_ok hstate]
  simp only
  rw [AllocateVertexBuffer_fit _ _ hvc (by exact hv)]
  simp only
  rw [HWState.modifyCurrent_ok (HWState.setCurrent_get hs _)]
  simp only
  rw [AllocateIndexBuffer_fit _ _ (by exact hi)]
  simp only
  rw [HWState.modifyCurrent_ok (HWState.setCurrent_get (by simpa [HWState.setCurrent] using hs) _)]
  simp only [HWState.setCurrent_setCurrent, HWState.setCurrent_vboOff, HWState.setCurrent_iboOff,
    hzv, hzi, Nat.zero_add]
  rw [Nat.mod_eq_of_lt (by omega : vertexCount < 2 ^ 32),
    Nat.mod_eq_of_lt (by omega : indexCount < 2 ^ 32)]
  rw [PushCurrentState_of_ne_tint (HWState.setCurrent_get hs _) hscr hq (by exact htint)]
  rw [pushAndAdvance_ok (HWState.setCurrent_get hs _) hscr hq]
  simp only [HWState.setCurrent, List.set_set]
  rw [Nat.mod_eq_of_lt (by omega : st.vboOff + vertexCount < 2 ^ 32),
    Nat.mod_eq_of_lt (by omega : st.iboOff + indexCount < 2 ^ 32)]

theorem RenderStateQueue.pendingCmds_push {q : RenderStateQueue} (c : RenderState)
    (hi : q.i ≤ q.size) (hs : q.size ≤ q._vector.length) (hr : q.size + 1 < 2 ^ 32) :
    (q.push c).pendingCmds = q.pendingCmds ++ [c] := by
  have hsize : (q.push c).size = q.size + 1 := by
    unfold RenderStateQueue.push
    simp only
    exact Nat.mod_eq_of_lt hr
  have hidx : (q.push c).i = q.i := rfl
  unfold RenderStateQueue.pendingCmds
  rw [hsize, hidx, RenderStateQueue.push_take q c hs, List.drop_append_of_le_length]
  rw [List.length_take]
  omega

theorem drainableQueue_push {st : HWState} {q : RenderStateQueue} (c : RenderState)
    (h : st.drainableQueue q = true) (hi : q.i ≤ q.size) (hr : q.size + 1 < 2 ^ 32)
    (hc : st.validCmd c = true) : st.drainableQueue (q.push c) = true := by
  have hs : q.size ≤ q._vector.length := by
    simp only [HWState.drainableQueue, Bool.and_eq_true, decide_eq_true_eq] at h
    exact h.1.1
  have hp := RenderStateQueue.pendingCmds_push c hi hs hr
  have hsize : (q.push c).size = q.size + 1 := by
    unfold RenderStateQueue.push
    simp only
    exact Nat.mod_eq_of_lt hr
  unfold RenderStateQueue.pendingCmds at hp
  simp only [HWState.drainableQueue, Bool.and_eq_true, decide_eq_true_eq, List.all_eq_true] at h ⊢
  refine ⟨⟨?_, ?_⟩, ?_⟩
  · rw [hsize]; exact RenderStateQueue.push_length q c hs
  · rw [hsize]; exact hr
  · intro x hx
    rw [hp, List.mem_append, List.mem_singleton] at hx
    rcases hx with hx | rfl
    · exact h.2 x hx
    · exact hc

theorem flatten_eq_nil_of_all_nil {α : Type} (L : List (List α))
    (h : ∀ (k : Nat) (x : List α), L[k]? = some x → x = []) : L.flatten = [] := by
  induction L with
  | nil => rfl
  | cons a L ih =>
    have ha : a = [] := h 0 a List.getElem?_cons_zero
    rw [List.flatten_cons, ha, List.nil_append]
    exact ih fun k x hk => h (k + 1) x (by rw [List.getElem?_cons_succ]; exact hk)

theorem flatten_set_append {α : Type} (L : List (List α)) :
    ∀ (s : Nat) (a : List α) (c : α), L[s]? = some a →
      (∀ (k : Nat) (x : List α), s < k → L[k]? = some x → x = []) →
      (L.set s (a ++ [c])).flatten = L.flatten ++ [c] := by
  induction L with
  | nil => intro s a c hs; cases hs
  | cons b L ih =>
    intro s a c hs hafter
    cases s with
    | zero =>
      simp only [List.getElem?_cons_zero, Option.some.injEq] at hs
      subst hs
      have hL : L.flatten = [] := flatten_eq_nil_of_all_nil L fun k x hk =>
        hafter (k + 1) x (by omega) (by rw [List.getElem?_cons_succ]; exact hk)
      simp only [List.set_cons_zero, List.flatten_cons, hL, List.append_nil]
    | succ s =>
      rw [List.getElem?_cons_succ] at hs
      simp only [List.set_cons_succ, List.flatten_cons]
      rw [ih s a c hs fun k x hk hx =>
        hafter (k + 1) x (by omega) (by rw [List.getElem?_cons_succ]; exact hx)]
      rw [List.append_assoc]

theorem validCmd_of_pushFrame {st st' : HWState} (hf : st.pushFrame st') (c : RenderState) :
    st'.validCmd c = st.validCmd c := by
  obtain ⟨rs, v, i, cs, rfl⟩ := hf
  rfl

theorem drainableQueue_of_pushFrame {st st' : HWState} (hf : st.pushFrame st')
    (q : RenderStateQueue) : st'.drainableQueue q = st.drainableQueue q := by
  obtain ⟨rs, v, i, cs, rfl⟩ := hf
  rfl

theorem validCall_of_pushFrame {st st' : HWState} (hf : st.pushFrame st') (dc : DrawCall) :
    st'.validCall dc = st.validCall dc := by
  obtain ⟨rs, v, i, cs, rfl⟩ := hf
  rfl

theorem pushFrame_trans {st st' st'' : HWState} (h1 : st.pushFrame st') (h2 : st'.pushFrame st'') :
    st.pushFrame st'' := by
  obtain ⟨rs, v, i, cs, rfl⟩ := h1
  obtain ⟨rs', v', i', cs', rfl⟩ := h2
  exact ⟨rs', v', i', cs', rfl⟩

theorem drainable_iff (st : HWState) :
    st.drainable = true ↔ st.screenCount ≤ st.renderStates.length ∧
      ∀ (k : Nat) (q : RenderStateQueue), k < st.screenCount → st.renderStates[k]? = some q →
        st.drainableQueue q = true := by
  simp only [HWState.drainable, Bool.and_eq_true, decide_eq_true_eq, List.all_eq_true]
  constructor
  · rintro ⟨hlen, hall⟩
    refine ⟨hlen, fun k q hk hkq => hall q ?_⟩
    refine List.getElem?_mem (n := k) ?_
    rw [List.getElem?_take]
    simpa [hk] using hkq
  · rintro ⟨hlen, hall⟩
    refine ⟨hlen, fun q hq => ?_⟩
    obtain ⟨k, hk⟩ := List.getElem?_of_mem hq
    rw [List.getElem?_take] at hk
    split at hk
    · next hlt => exact hall k q hlt hk
    · cases hk

theorem pendingCmds_push_screen {s : Nat} {q : RenderStateQueue} (c : RenderState)
    (rs : List RenderStateQueue) (n : Nat) (hs : s < n) (hq : rs[s]? = some q)
    (hi : q.i ≤ q.size) (hlen : q.size ≤ q._vector.length) (hr : q.size + 1 < 2 ^ 32)
    (hafter : ∀ (k : Nat) (q' : RenderStateQueue), s < k → k < n → rs[k]? = some q' →
      q'.size ≤ q'.i) :
    (((rs.set s (q.push c)).take n).map RenderStateQueue.pendingCmds).flatten =
      ((rs.take n).map RenderStateQueue.pendingCmds).flatten ++ [c] := by
  rw [List.set_take, List.map_set, RenderStateQueue.pendingCmds_push c hi hlen hr]
  refine flatten_set_append _ s q.pendingCmds c ?_ ?_
  · rw [List.getElem?_map, List.getElem?_take]
    simp [hs, hq]
  · intro k x hk hx
    rw [List.getElem?_map, List.getElem?_take] at hx
    split at hx
    · next hkn =>
      cases hq' : rs[k]? with
      | none => rw [hq'] at hx; cases hx
      | some q' =>
        rw [hq'] at hx
        simp only [Option.map_some', Option.some.injEq] at hx
        rw [← hx]
        exact RenderStateQueue.pendingCmds_of_empty (hafter k q' hk hkn hq')
    · cases hx

theorem inScreenOrder_step {st : HWState} {m N : Nat} (hinv : st.inScreenOrder m N)
    (dc : DrawCall) (hval : st.validCall dc = true) (hm : m ≤ dc.screen) (hN : N + 1 < 2 ^ 32)
    (hv : st.vboOff + dc.vertexCount ≤ VERTEX_LIMIT + 6)
    (hi : st.iboOff + dc.indexCount ≤ VERTEX_LIMIT) :
    ∃ st' cmd, stageAndPush st dc.screen dc.shader dc.fbShader dc.vertexCount dc.indexCount =
        .ok (st.vboOff, st.iboOff, st') ∧
      st.pushFrame st' ∧ st'.inScreenOrder dc.screen (N + 1) ∧
      st'.pendingCmds = st.pendingCmds ++ [cmd] ∧ cmd.key = dc.key ∧
      st'.vboOff = st.vboOff + dc.vertexCount ∧ st'.iboOff = st.iboOff + dc.indexCount := by
  obtain ⟨hdr, hcs, hscrs, h6, hzero, hqs, hrun, hend⟩ := hinv
  obtain ⟨hrl, hdq⟩ := (drainable_iff st).mp hdr
  simp only [HWState.validCall, Bool.and_eq_true, decide_eq_true_eq] at hval
  obtain ⟨⟨⟨hsn, hsh⟩, hfb⟩, htint⟩ := hval
  obtain ⟨state, hstate⟩ : ∃ x, st.currentState[dc.screen]? = some x :=
    ⟨_, List.getElem?_eq_getElem (by omega)⟩
  obtain ⟨scr, hscr⟩ : ∃ x, st.screens[dc.screen]? = some x :=
    ⟨_, List.getElem?_eq_getElem (by omega)⟩
  obtain ⟨q, hq⟩ : ∃ x, st.renderStates[dc.screen]? = some x :=
    ⟨_, List.getElem?_eq_getElem (by omega)⟩
  obtain ⟨hzv, hzi⟩ := hzero _ _ hsn hstate
  have hlim : VERTEX_LIMIT = 16384 := rfl
  obtain ⟨cmd, hc1, hc2, hc3, hc4, hc5, hc6, hrun1⟩ := stageAndPush_fit hstate hscr hq
    dc.shader dc.fbShader dc.vertexCount dc.indexCount (by omega) hv hi hzv hzi htint
  obtain ⟨hqi, hqN, -⟩ := hqs _ _ hsn hq
  have hdq0 := hdq _ _ hsn hq
  have hqlen : q.size ≤ q._vector.length := by
    simp only [HWState.drainableQueue, Bool.and_eq_true, decide_eq_true_eq] at hdq0
    exact hdq0.1.1
  have hvalid : st.validCmd cmd = true := by
    simp only [HWState.validCmd, Bool.and_eq_true, hc1, hc2]
    exact ⟨hsh, hfb⟩
  have hpend : ({ st with
        renderStates := st.renderStates.set dc.screen (q.push cmd)
        vboOff := st.vboOff + dc.vertexCount
        iboOff := st.iboOff + dc.indexCount
        currentState := st.currentState.set dc.screen
          { cmd with indexCount := 0, vertexCount := 0 } } : HWState).pendingCmds
      = st.pendingCmds ++ [cmd] := by
    unfold HWState.pendingCmds
    simp only
    exact pendingCmds_push_screen cmd _ _ hsn hq hqi hqlen (by omega)
      (fun k q' hk hkn hkq => (hqs k q' hkn hkq).2.2 (by omega))
  refine ⟨_, cmd, hrun1, ⟨_, _, _, _, rfl⟩, ?_, hpend, ?_, rfl, rfl⟩
  · refine ⟨?_, ?_, hscrs, ?_, ?_, ?_, ?_, ?_⟩
    · rw [drainable_iff]
      simp only [List.length_set]
      refine ⟨hrl, fun k q' hk hkq => ?_⟩
      have hfr : st.pushFrame { st with
          renderStates := st.renderStates.set dc.screen (q.push cmd)
          vboOff := st.vboOff + dc.vertexCount
          iboOff := st.iboOff + dc.indexCount
          currentState := st.currentState.set dc.screen
            { cmd with indexCount := 0, vertexCount := 0 } } := ⟨_, _, _, _, rfl⟩
      rw [drainableQueue_of_pushFrame hfr]
      by_cases hks : k = dc.screen
      · subst hks
        rw [List.getElem?_set_self (by omega)] at hkq
        obtain rfl := Option.some.inj hkq
        exact drainableQueue_push cmd hdq0 hqi (by omega) hvalid
      · rw [List.getElem?_set_ne (Ne.symm hks)] at hkq
        exact hdq k q' hk hkq
    · simp only [List.length_set]
      exact hcs
    · show 6 ≤ st.vboOff + dc.vertexCount
      omega
    · intro k state' hk hks
      simp only at hk hks
      by_cases hkk : k = dc.screen
      · subst hkk
        rw [List.getElem?_set_self (by omega)] at hks
        obtain rfl := Option.some.inj hks
        exact ⟨rfl, rfl⟩
      · rw [List.getElem?_set_ne (Ne.symm hkk)] at hks
        exact hzero k state' hk hks
    · intro k q' hk hkq
      simp only at hk hkq
      by_cases hkk : k = dc.screen
      · subst hkk
        rw [List.getElem?_set_self (by omega)] at hkq
        obtain rfl := Option.some.inj hkq
        have hsize : (q.push cmd).size = q.size + 1 := by
          unfold RenderStateQueue.push
          simp only
          exact Nat.mod_eq_of_lt (by omega)
        have hidx : (q.push cmd).i = q.i := rfl
        rw [hsize, hidx]
        exact ⟨by omega, by omega, fun h => absurd h (Nat.lt_irrefl _)⟩
      · rw [List.getElem?_set_ne (Ne.symm hkk)] at hkq
        obtain ⟨h1, h2, h3⟩ := hqs k q' hk hkq
        exact ⟨h1, by omega, fun h => h3 (by omega)⟩
    · rw [hpend, runningOffsets_append, hrun, hend]
      unfold allocatedOffsets
      rw [List.map_append]
      simp only [runningOffsets, List.map_cons, List.map_nil, hc3, hc4]
    · rw [hpend, endOffsets_append, hend]
      simp only [endOffsets, hc5, hc6]
      rw [Nat.mod_eq_of_lt (by omega), Nat.mod_eq_of_lt (by omega)]
  · unfold RenderState.key DrawCall.key
    rw [hc1, hc2, hc5, hc6]

theorem runDrawCalls_inScreenOrder (dcs : List DrawCall) :
    ∀ (st : HWState) (m N : Nat), st.inScreenOrder m N →
      (∀ dc, dc ∈ dcs → st.validCall dc = true) → (∀ dc, dc ∈ dcs → m ≤ dc.screen) →
      List.Pairwise (fun a b : DrawCall => a.screen ≤ b.screen) dcs →
      N + dcs.length < 2 ^ 32 →
      st.vboOff + (dcs.map DrawCall.vertexCount).sum ≤ VERTEX_LIMIT + 6 →
      st.iboOff + (dcs.map DrawCall.indexCount).sum ≤ VERTEX_LIMIT →
      ∃ st1 cmds m' N', runDrawCalls st dcs = .ok st1 ∧ st1.inScreenOrder m' N' ∧
        st1.pendingCmds = st.pendingCmds ++ cmds ∧
        cmds.map RenderState.key = dcs.map DrawCall.key := by
  induction dcs with
  | nil =>
    intro st m N hinv _ _ _ _ _ _
    exact ⟨st, [], m, N, rfl, hinv, by simp, rfl⟩
  | cons dc rest ih =>
    intro st m N hinv hval hm hord hN hv hi
    simp only [List.map_cons, List.sum_cons, List.length_cons] at hN hv hi
    rw [List.pairwise_cons] at hord
    obtain ⟨st', cmd, hrun, hfr, hinv', hpend, hkey, hv', hi'⟩ :=
      inScreenOrder_step hinv dc (hval dc (List.mem_cons_self _ _))
        (hm dc (List.mem_cons_self _ _)) (by omega) (by omega) (by omega)
    obtain ⟨st1, cmds, m', N', hrun1, hinv1, hpend1, hkey1⟩ := ih st' dc.screen (N + 1) hinv'
      (fun d hd => by
        rw [validCall_of_pushFrame hfr]
        exact hval d (List.mem_cons_of_mem _ hd))
      (fun d hd => hord.1 d hd) hord.2 (by omega) (by rw [hv']; omega) (by rw [hi']; omega)
    refine ⟨st1, cmd :: cmds, m', N', ?_, hinv1, ?_, ?_⟩
    · unfold runDrawCalls
      rw [hrun]
      exact hrun1
    · rw [hpend1, hpend, List.append_assoc]
      rfl
    · rw [List.map_cons, List.map_cons, hkey, hkey1]

theorem all_take_getElem {α : Type} {l : List α} {n k : Nat} {p : α → Bool} {x : α}
    (h : (l.take n).all p = true) (hk : k < n) (hx : l[k]? = some x) : p x = true := by
  rw [List.all_eq_true] at h
  refine h x (List.getElem?_mem (n := k) ?_)
  rw [List.getElem?_take]
  simpa [hk] using hx

theorem inScreenOrder_of_fresh {st : HWState} (h : st.fresh = true) :
    st.inScreenOrder 0 0 ∧ st.pendingCmds = [] := by
  simp only [HWState.fresh, Bool.and_eq_true, decide_eq_true_eq] at h
  obtain ⟨⟨⟨⟨⟨⟨hv, hi⟩, hrl⟩, hcl⟩, hsl⟩, hq⟩, hc⟩ := h
  have hqs : ∀ (k : Nat) (q : RenderStateQueue), k < st.screenCount →
      st.renderStates[k]? = some q → q.i = 0 ∧ q.size = 0 := by
    intro k q hk hkq
    have := all_take_getElem hq hk hkq
    simpa using this
  have hpend : st.pendingCmds = [] := by
    unfold HWState.pendingCmds
    refine flatten_eq_nil_of_all_nil _ fun k x hx => ?_
    rw [List.getElem?_map, List.getElem?_take] at hx
    split at hx
    · next hkn =>
      cases hq' : st.renderStates[k]? with
      | none => rw [hq'] at hx; cases hx
      | some q' =>
        rw [hq'] at hx
        simp only [Option.map_some', Option.some.injEq] at hx
        rw [← hx]
        obtain ⟨h1, h2⟩ := hqs k q' hkn hq'
        exact RenderStateQueue.pendingCmds_of_empty (by omega)
    · cases hx
  refine ⟨⟨?_, hcl, hsl, by omega, ?_, ?_, ?_, ?_⟩, hpend⟩
  · rw [drainable_iff]
    refine ⟨hrl, fun k q hk hkq => ?_⟩
    obtain ⟨h1, h2⟩ := hqs k q hk hkq
    simp only [HWState.drainableQueue, Bool.and_eq_true, decide_eq_true_eq, List.all_eq_true, h2]
    refine ⟨⟨Nat.zero_le _, by omega⟩, ?_⟩
    intro x hx
    simp at hx
  · intro k state hk hks
    have := all_take_getElem hc hk hks
    simpa using this
  · intro k q hk hkq
    obtain ⟨h1, h2⟩ := hqs k q hk hkq
    exact ⟨by omega, by omega, fun _ => by omega⟩
  · rw [hpend]; rfl
  · rw [hpend, hv, hi]; rfl

/-- C11 fails on the code: `CopyFrameBuffer` draws with the running offsets
`vOff` and `iOff`, screen by screen, and never reads the regions recorded in
the commands. A draw call on screen 1 (eight vertices at vertex 6, twelve
indices at index 0) followed by one on screen 0 (four vertices at vertex 14,
six indices at index 12): the compositor draws the command of screen 0 first,
with base vertex 6 and index byte offset 0, then the command of screen 1
with base vertex 10 and index byte offset 12. Entries are `(count, index
byte offset, base vertex)`, in drain order. -/
theorem C11_counterexample :
    demoTwoScreensHeap.fresh = true ∧
      demoInterleaved.all demoTwoScreensHeap.validCall = true ∧
      (pendingOf (runDrawCalls demoTwoScreensHeap demoInterleaved)).map RenderState.key =
        [(5100, 6100, 4, 6), (5000, 6000, 8, 12)] ∧
      allocatedOffsets (pendingOf (runDrawCalls demoTwoScreensHeap demoInterleaved)) =
        [(6, 24, 14), (12, 0, 6)] ∧
      geometryPasses (drawsOf (thenCopyFrameBuffer
        (runDrawCalls demoTwoScreensHeap demoInterleaved))) = [(6, 0, 6), (12, 12, 10)] :=
  ⟨rfl, rfl, rfl, rfl, rfl⟩

/-- C11, amended: for draw calls issued after a drain in non-decreasing order
of screen index, on active screens, with shader objects that exist and an FB
shader other than the singleton `fbTintShader`, and whose vertices and
indices fit in the ring together (so no allocation flushes): the draw calls
run, the drain that follows runs, the pending commands are the draw calls in
order, and each is drawn by the compositor with the base vertex and the
index offset at which its geometry was allocated. -/
theorem C11_screen_order_draws (st : HWState) (dcs : List DrawCall) (hfresh : st.fresh = true)
    (hvalid : dcs.all st.validCall = true)
    (hord : List.Pairwise (fun a b : DrawCall => a.screen ≤ b.screen) dcs)
    (hlen : dcs.length < 2 ^ 32)
    (hv : (dcs.map DrawCall.vertexCount).sum ≤ VERTEX_LIMIT)
    (hi : (dcs.map DrawCall.indexCount).sum ≤ VERTEX_LIMIT) :
    ∃ st1 st2 new, runDrawCalls st dcs = .ok st1 ∧ CopyFrameBuffer st1 = .ok st2 ∧
      st2.gl.draws = st1.gl.draws ++ new ∧
      st1.pendingCmds.map RenderState.key = dcs.map DrawCall.key ∧
      geometryPasses new = allocatedOffsets st1.pendingCmds := by
  obtain ⟨hinv, hp0⟩ := inScreenOrder_of_fresh hfresh
  have hv0 : st.vboOff = 6 := by
    simp only [HWState.fresh, Bool.and_eq_true, decide_eq_true_eq] at hfresh
    exact hfresh.1.1.1.1.1.1
  have hi0 : st.iboOff = 0 := by
    simp only [HWState.fresh, Bool.and_eq_true, decide_eq_true_eq] at hfresh
    exact hfresh.1.1.1.1.1.2
  rw [List.all_eq_true] at hvalid
  obtain ⟨st1, cmds, m', N', hrun, hinv1, hpend, hkey⟩ := runDrawCalls_inScreenOrder dcs st 0 0
    hinv hvalid (fun _ _ => Nat.zero_le _) hord (by omega) (by rw [hv0]; omega)
    (by rw [hi0]; omega)
  obtain ⟨st2, new, hcopy, hdraws, hgeo⟩ := CopyFrameBuffer_geometry st1 hinv1.1
  refine ⟨st1, st2, new, hrun, hcopy, hdraws, ?_, ?_⟩
  · rw [hpend, hp0, List.nil_append, hkey]
  · rw [hgeo, hinv1.2.2.2.2.2.2.1]

/-- Witness of C11 (amended): the two draw calls of the counterexample in
screen order; the command of screen 0 is drawn at `(6, 0)`, where it was
allocated, and the command of screen 1 at `(10, 6)`. -/
theorem C11_screen_order_draws_witness :
    demoTwoScreensHeap.fresh = true ∧
      demoScreenOrder.all demoTwoScreensHeap.validCall = true ∧
      allocatedOffsets (pendingOf (runDrawCalls demoTwoScreensHeap demoScreenOrder)) =
        [(6, 0, 6), (12, 12, 10)] ∧
      geometryPasses (drawsOf (thenCopyFrameBuffer
        (runDrawCalls demoTwoScreensHeap demoScreenOrder))) = [(6, 0, 6), (12, 12, 10)] ∧
      ∃ st1 st2 new, runDrawCalls demoTwoScreensHeap demoScreenOrder = .ok st1 ∧
        CopyFrameBuffer st1 = .ok st2 ∧ st2.gl.draws = st1.gl.draws ++ new ∧
        st1.pendingCmds.map RenderState.key = demoScreenOrder.map DrawCall.key ∧
        geometryPasses new = allocatedOffsets st1.pendingCmds :=
  ⟨rfl, rfl, rfl, rfl,
    C11_screen_order_draws demoTwoScreensHeap demoScreenOrder rfl rfl (by decide) (by decide)
      (by decide) (by decide)⟩

theorem runningOffsets_length (cmds : List RenderState) :
    ∀ v i, (runningOffsets v i cmds).length = cmds.length := by
  induction cmds with
  | nil => intro v i; rfl
  | cons c cs ih => intro v i; simp only [runningOffsets, List.length_cons, ih]

theorem runningOffsets_getElem (cmds : List RenderState) :
    ∀ (v i k : Nat) (c : RenderState), cmds[k]? = some c →
      (runningOffsets (v % 2 ^ 32) (i % 2 ^ 32) cmds)[k]? =
        some (c.indexCount,
          ((i + ((cmds.take k).map RenderState.indexCount).sum) % 2 ^ 32) * 2,
          (v + ((cmds.take k).map RenderState.vertexCount).sum) % 2 ^ 32) := by
  induction cmds with
  | nil => intro v i k c h; cases h
  | cons a cs ih =>
    intro v i k c h
    cases k with
    | zero =>
      simp only [List.getElem?_cons_zero, Option.some.injEq] at h
      subst h
      simp [runningOffsets]
    | succ k =>
      rw [List.getElem?_cons_succ] at h
      simp only [runningOffsets, List.getElem?_cons_succ, List.take_succ_cons, List.map_cons,
        List.sum_cons]
      have := ih (v % 2 ^ 32 + a.vertexCount) (i % 2 ^ 32 + a.indexCount) k c h
      rw [this]
      generalize (List.map RenderState.indexCount (List.take k cs)).sum = S1
      generalize (List.map RenderState.vertexCount (List.take k cs)).sum = S2
      have e1 : (i % 2 ^ 32 + a.indexCount + S1) % 2 ^ 32 = (i + (a.indexCount + S1)) % 2 ^ 32 := by
        omega
      have e2 : (v % 2 ^ 32 + a.vertexCount + S2) % 2 ^ 32 = (v + (a.vertexCount + S2)) % 2 ^ 32 := by
        omega
      rw [e1, e2]

/-- C21: on a state the compositor can drain, `CopyFrameBuffer` returns and
its geometry passes are, in order, one per pending command, the pending
commands being taken screen by screen and in push order within a screen; the
pass of the `k`-th command overall has the command's `indexCount` as element
count, index start (handed over as a byte offset, two bytes per index) the
sum of the `indexCount` of the commands drawn before it, and base vertex 6
plus the sum of their `vertexCount`, both sums in `uint32` arithmetic. -/
theorem C21_drain_order_and_offsets (st : HWState) (hd : st.drainable = true) :
    ∃ st' new, CopyFrameBuffer st = .ok st' ∧ st'.gl.draws = st.gl.draws ++ new ∧
      (geometryPasses new).length = st.pendingCmds.length ∧
      ∀ (k : Nat) (c : RenderState), st.pendingCmds[k]? = some c →
        (geometryPasses new)[k]? =
          some (c.indexCount, (drainOffsets st.pendingCmds k).2 * 2,
            (drainOffsets st.pendingCmds k).1) := by
  obtain ⟨st', new, hcopy, hdraws, hgeo⟩ := CopyFrameBuffer_geometry st hd
  refine ⟨st', new, hcopy, hdraws, ?_, fun k c hk => ?_⟩
  · rw [hgeo, runningOffsets_length]
  · rw [hgeo]
    have := runningOffsets_getElem st.pendingCmds 6 0 k c hk
    simp only [Nat.zero_add] at this
    exact this

/-- Witness of C21: three quads queued on screen 0; the passes use base
vertices 6, 10, 14 and index starts 0, 6, 12 (byte offsets 0, 12, 24). -/
theorem C21_drain_order_and_offsets_witness :
    demoQueued.drainable = true ∧
      demoQueued.pendingCmds.map RenderState.key =
        [(5000, 6000, 4, 6), (5100, 6100, 4, 6), (5200, 6200, 4, 6)] ∧
      geometryPasses (drawsOf (CopyFrameBuffer demoQueued)) = [(6, 0, 6), (6, 12, 10), (6, 24, 14)] ∧
      ∃ st' new, CopyFrameBuffer demoQueued = .ok st' ∧
        st'.gl.draws = demoQueued.gl.draws ++ new ∧
        (geometryPasses new).length = demoQueued.pendingCmds.length ∧
        ∀ (k : Nat) (c : RenderState), demoQueued.pendingCmds[k]? = some c →
          (geometryPasses new)[k]? =
            some (c.indexCount, (drainOffsets demoQueued.pendingCmds k).2 * 2,
              (drainOffsets demoQueued.pendingCmds k).1) :=
  ⟨by decide, rfl, rfl, C21_drain_order_and_offsets demoQueued (by decide)⟩

/-! ### Blend state of the resolve passes (C28) -/

/-- C28, where the code diverges: `FBTintShader::SetArgs`,
`FBMaskedShader::SetArgs` and `FBUnmaskedShader::SetArgs` have an empty body
and `FillShader::SetArgs` only passes the uniform `alpha`; none of them sets
the blend equation or the blend factors, so the resolve pass of a command
with such a resolve shader runs with whatever blend state the context was
left in, that of the resolve pass before it. -/
theorem C28_blend_state_leaks (sh : Shader) (gl : GLState)
    (hcls : sh.cls = .FBTintShader ∨ sh.cls = .FBMaskedShader ∨ sh.cls = .FBUnmaskedShader ∨
      sh.cls = .FillShader) :
    (sh.SetArgs (sh.Use gl)).blendEquation = gl.blendEquation ∧
      (sh.SetArgs (sh.Use gl)).sfactor = gl.sfactor ∧
      (sh.SetArgs (sh.Use gl)).dfactor = gl.dfactor := by
  rcases hcls with h | h | h | h <;> simp [Shader.SetArgs, Shader.Use, h]

/-- Witness of C28: two drains that differ only in the resolve shader of the
command drawn before a tint command (a copy of the add shader, program 11,
or of the none shader, program 8): the tint command (program 13) is resolved
with factors `(GL_SRC_ALPHA, GL_ONE)` in the first drain and
`(GL_SRC_ALPHA, GL_ONE_MINUS_SRC_ALPHA)` in the second. -/
theorem C28_blend_state_leaks_witness :
    resolveBlend (drawsOf (CopyFrameBuffer
        (demoThenTint { cls := .FBAddShader, internal := 11 }))) =
      [(11, .GL_FUNC_ADD, .GL_SRC_ALPHA, .GL_ONE), (13, .GL_FUNC_ADD, .GL_SRC_ALPHA, .GL_ONE)] ∧
    resolveBlend (drawsOf (CopyFrameBuffer
        (demoThenTint { cls := .FBNoneShader, internal := 8 }))) =
      [(8, .GL_FUNC_ADD, .GL_SRC_ALPHA, .GL_ONE_MINUS_SRC_ALPHA),
       (13, .GL_FUNC_ADD, .GL_SRC_ALPHA, .GL_ONE_MINUS_SRC_ALPHA)] ∧
    ∀ gl : GLState,
      (Shader.SetArgs { cls := .FBTintShader, internal := 13 }
          (Shader.Use { cls := .FBTintShader, internal := 13 } gl)).blendEquation =
        gl.blendEquation ∧
      (Shader.SetArgs { cls := .FBTintShader, internal := 13 }
          (Shader.Use { cls := .FBTintShader, internal := 13 } gl)).sfactor = gl.sfactor ∧
      (Shader.SetArgs { cls := .FBTintShader, internal := 13 }
          (Shader.Use { cls := .FBTintShader, internal := 13 } gl)).dfactor = gl.dfactor :=
  ⟨rfl, rfl, fun gl =>
    C28_blend_state_leaks { cls := .FBTintShader, internal := 13 } gl (Or.inl rfl)⟩

/-! ### Read bounds of the vertical-scroll encoder (C29) -/

theorem arrayAt_ok_lt {α : Type} {l : List α} {k : Int} {a : α} (h : arrayAt l k = .ok a) :
    0 ≤ k ∧ k < l.length := by
  unfold arrayAt at h
  split at h
  · cases h
  · next hk =>
    split at h
    · next hget =>
      have : k.toNat < l.length := by
        rcases Nat.lt_or_ge k.toNat l.length with h' | h'
        · exact h'
        · rw [List.getElem?_eq_none h'] at hget; cases hget
      omega
    · cases h

theorem DrawLayerVScroll_encode_past_end (scanlines : List ScanlineInfo)
    (gfxLineBuffer : List Nat) (scr : ScreenInfo) (layer : TileLayer)
    (hlen : (gfxLineBuffer.length : Int) ≤ scr.size_y) (n : Nat) :
    ∀ (cx : Nat) (scanline : Int) (buf : List Flt), (cx : Int) ≤ scr.size_y →
      scr.size_y < (cx : Int) + n →
      ∃ e, DrawLayerVScroll.encode scanlines gfxLineBuffer scr layer n cx scanline (cx : Int) buf
        = .error e := by
  induction n with
  | zero => intro cx scanline buf h1 h2; omega
  | succ n ih =>
    intro cx scanline buf h1 h2
    unfold DrawLayerVScroll.encode
    split
    · next sl lb hsl hlb =>
      obtain ⟨-, hlt⟩ := arrayAt_ok_lt hlb
      split
      · exact ⟨_, rfl⟩
      · next buf1 hw =>
        have hcx : (cx : Int) < scr.size_y := by omega
        rw [if_pos hcx]
        have := ih (cx + 1)
          (if scr.clipBound_X1 ≤ (cx : Int) ∧ (cx : Int) < scr.clipBound_X2 then scanline + 1
           else scanline) buf1 (by push_cast; omega) (by push_cast; omega)
        push_cast at this
        exact this
    · exact ⟨_, rfl⟩

/-- C29, where the code diverges: the line-buffer pointer of the
vertical-scroll encoder starts at entry 0 and advances while
`cx < currentScreen->size.y`, so column `cx` reads entry `min(cx, size.y)`.
With a screen as high as the line buffer is long (`size.y == SCREEN_YSIZE`)
and a target wider than that, column `size.y` reads the entry one past the
end of the line buffer: the encoder leaves the defined behaviour. -/
theorem C29_line_buffer_read_past_end (env : DrawEnv) (scr : ScreenInfo) (layer : TileLayer)
    (buf : List Flt) (hsize : scr.size_y = (env.gfxLineBuffer.length : Int))
    (hwide : scr.size_y < env.pixWidth) :
    ∃ e, encodeVScroll env scr layer buf = .error e := by
  unfold encodeVScroll
  have := DrawLayerVScroll_encode_past_end env.scanlines env.gfxLineBuffer scr layer
    (by omega) env.pixWidth.toNat 0 scr.clipBound_X1 buf (by omega) (by omega)
  exact this

/-- Witness of C29: a 424 pixel wide target, a screen 240 lines high and a
line buffer of 240 entries. -/
theorem C29_line_buffer_read_past_end_witness :
    demoWideScreen.size_y = (demoWideEnv.gfxLineBuffer.length : Int) ∧
      demoWideScreen.size_y < demoWideEnv.pixWidth ∧
      demoWideEnv.gfxLineBuffer.length = 240 ∧ demoWideEnv.scanlines.length = 424 ∧
      ∃ e, encodeVScroll demoWideEnv demoWideScreen demoLayer (List.replicate 1696 (.raw 0))
        = .error e :=
  ⟨by simp only [demoWideEnv, demoWideScreen, List.length_replicate]; rfl, by decide,
    by simp only [demoWideEnv, List.length_replicate],
    by simp only [demoWideEnv, List.length_replicate],
    C29_line_buffer_read_past_end demoWideEnv demoWideScreen demoLayer _
      (by simp only [demoWideEnv, demoWideScreen, List.length_replicate]; rfl) (by decide)⟩

/-! ### The 3D overlay: face depths and the face sort (C25, C26) -/

/-- C26 fails on the code for faces of three vertices: with vertex depths
0, 0 and 300 the face gets depth 150, while the arithmetic mean is 100; the
difference, 50, is not below 3. -/
theorem C26_counterexample :
    Draw3DScene.faceDepth 3 [0, 0, 300] = .ok 150 ∧ (0 + 0 + 300 : Int) = 3 * 100 ∧
      ¬ ((150 : Int) - 100 < 3) :=
  ⟨rfl, by decide, by decide⟩

/-- C26, amended: a face of one vertex gets that vertex's depth; for two and
for four vertices the depth is the sum of the halves resp. quarters of the
vertex depths, which lies below the exact mean by at most `n - 1` (the sum of
the depths exceeds `n` times the face depth by at most `n * (n - 1)`); for
three vertices the depth is `((z0 >> 1) + (z1 >> 1) >> 1) + (z2 >> 1)`, the
weighted mean `(z0 + z1 + 2 * z2) / 4` up to truncation (four times the face
depth lies below `z0 + z1 + 2 * z2` by at most 6), not the arithmetic
mean. -/
theorem C26_face_depth (z0 z1 z2 z3 : Int) (rest : List Int) :
    Draw3DScene.faceDepth 1 (z0 :: rest) = .ok z0 ∧
      (∃ d, Draw3DScene.faceDepth 2 (z0 :: z1 :: rest) = .ok d ∧
        0 ≤ z0 + z1 - 2 * d ∧ z0 + z1 - 2 * d ≤ 2) ∧
      (∃ d, Draw3DScene.faceDepth 3 (z0 :: z1 :: z2 :: rest) = .ok d ∧
        d = asr (asr z0 1 + asr z1 1) 1 + asr z2 1 ∧
        0 ≤ z0 + z1 + 2 * z2 - 4 * d ∧ z0 + z1 + 2 * z2 - 4 * d ≤ 6) ∧
      (∃ d, Draw3DScene.faceDepth 4 (z0 :: z1 :: z2 :: z3 :: rest) = .ok d ∧
        0 ≤ z0 + z1 + z2 + z3 - 4 * d ∧ z0 + z1 + z2 + z3 - 4 * d ≤ 12) := by
  refine ⟨rfl, ⟨_, rfl, ?_⟩, ⟨_, rfl, rfl, ?_⟩, ⟨_, rfl, ?_⟩⟩
  · unfold asr; norm_num; omega
  · unfold asr; norm_num; omega
  · unfold asr; norm_num; omega

theorem getElem?_append_length {α : Type} (l : List α) (x : α) (t : List α) :
    (l ++ x :: t)[l.length]? = some x := by
  rw [List.getElem?_append_right (Nat.le_refl _)]
  simp

theorem set_append_length {α : Type} (l : List α) (x v : α) (t : List α) :
    (l ++ x :: t).set l.length v = l ++ v :: t := by
  induction l with
  | nil => rfl
  | cons a l ih => simp only [List.cons_append, List.length_cons, List.set_cons_succ, ih]

theorem Draw3DScene.store_append (l : List Scene3DFace) (x v : Scene3DFace)
    (t : List Scene3DFace) :
    Draw3DScene.store (l ++ x :: t) l.length v = .ok (l ++ v :: t) := by
  unfold Draw3DScene.store
  rw [if_pos (by simp), set_append_length]

theorem Draw3DScene.sortInner_spec (temp : Scene3DFace) (Lr : List Scene3DFace) :
    ∀ (h : Scene3DFace) (t : List Scene3DFace),
      Draw3DScene.sortInner temp Lr.length (Lr.reverse ++ h :: t) =
        .ok ((List.orderedInsert (fun a b : Scene3DFace => a.depth ≤ b.depth) temp Lr).reverse
          ++ t) := by
  induction Lr with
  | nil =>
    intro h t
    exact Draw3DScene.store_append [] h temp t
  | cons x Lr ih =>
    intro h t
    have harr : (x :: Lr).reverse ++ h :: t = Lr.reverse ++ x :: h :: t := by
      simp
    have hlen : Lr.length = Lr.reverse.length := by simp
    rw [harr, List.length_cons]
    unfold Draw3DScene.sortInner
    have hget : (Lr.reverse ++ x :: h :: t)[Lr.length]? = some x := by
      rw [hlen]; exact getElem?_append_length _ _ _
    rw [hget]
    simp only
    have hstore : ∀ v, Draw3DScene.store (Lr.reverse ++ x :: h :: t) (Lr.length + 1) v =
        .ok (Lr.reverse ++ x :: v :: t) := by
      intro v
      have := Draw3DScene.store_append (Lr.reverse ++ [x]) h v t
      simp only [List.append_assoc, List.singleton_append, List.length_append,
        List.length_reverse, List.length_singleton] at this
      exact this
    by_cases hlt : x.depth < temp.depth
    · rw [if_pos hlt, hstore x]
      simp only
      rw [ih x (x :: t)]
      have : ¬ temp.depth ≤ x.depth := by omega
      simp [List.orderedInsert, this]
    · rw [if_neg hlt, hstore temp]
      have : temp.depth ≤ x.depth := by omega
      simp [List.orderedInsert, this]

theorem Draw3DScene.sortOuter_spec (n : Nat) :
    ∀ (i : Nat) (orig : List Scene3DFace), i + n ≤ orig.length →
      Draw3DScene.sortOuter n i
          ((List.insertionSort (fun a b : Scene3DFace => a.depth ≤ b.depth)
            (orig.take i).reverse).reverse ++ orig.drop i) =
        .ok ((List.insertionSort (fun a b : Scene3DFace => a.depth ≤ b.depth)
          (orig.take (i + n)).reverse).reverse ++ orig.drop (i + n)) := by
  induction n with
  | zero => intro i orig _; rfl
  | succ n ih =>
    intro i orig hlen
    have hi : i < orig.length := by omega
    have hsl : (List.insertionSort (fun a b : Scene3DFace => a.depth ≤ b.depth)
        (orig.take i).reverse).length = i := by
      rw [List.length_insertionSort, List.length_reverse, List.length_take]
      omega
    have hdrop : orig.drop i = orig[i] :: orig.drop (i + 1) := List.drop_eq_getElem_cons hi
    unfold Draw3DScene.sortOuter
    rw [hdrop]
    have hget : ((List.insertionSort (fun a b : Scene3DFace => a.depth ≤ b.depth)
        (orig.take i).reverse).reverse ++ orig[i] :: orig.drop (i + 1))[i]? = some orig[i] := by
      have := getElem?_append_length (List.insertionSort
        (fun a b : Scene3DFace => a.depth ≤ b.depth) (orig.take i).reverse).reverse orig[i]
        (orig.drop (i + 1))
      rw [List.length_reverse, hsl] at this
      exact this
    rw [hget]
    simp only
    have hin := Draw3DScene.sortInner_spec orig[i] (List.insertionSort
      (fun a b : Scene3DFace => a.depth ≤ b.depth) (orig.take i).reverse) orig[i]
      (orig.drop (i + 1))
    rw [hsl] at hin
    rw [hin]
    simp only
    have htake : (orig.take (i + 1)).reverse = orig[i] :: (orig.take i).reverse := by
      rw [List.take_succ, List.getElem?_eq_getElem hi]
      simp
    have key : List.orderedInsert (fun a b : Scene3DFace => a.depth ≤ b.depth) orig[i]
        (List.insertionSort (fun a b : Scene3DFace => a.depth ≤ b.depth) (orig.take i).reverse)
        = List.insertionSort (fun a b : Scene3DFace => a.depth ≤ b.depth)
          (orig.take (i + 1)).reverse := by
      rw [htake]; rfl
    rw [key]
    have := ih (i + 1) orig (by omega)
    rw [this]
    have e : i + 1 + n = i + (n + 1) := by omega
    rw [e]

theorem filter_orderedInsert_depth (d : Int) (b : Scene3DFace) (S : List Scene3DFace) :
    (List.orderedInsert (fun a b : Scene3DFace => a.depth ≤ b.depth) b S).filter
        (fun f => decide (f.depth = d)) =
      if b.depth = d then b :: S.filter (fun f => decide (f.depth = d))
      else S.filter (fun f => decide (f.depth = d)) := by
  induction S with
  | nil => by_cases hb : b.depth = d <;> simp [hb]
  | cons x S ih =>
    by_cases hle : b.depth ≤ x.depth
    · simp only [List.orderedInsert, if_pos hle]
      by_cases hb : b.depth = d <;> simp [List.filter_cons, hb]
    · simp only [List.orderedInsert, if_neg hle]
      rw [List.filter_cons, ih]
      by_cases hb : b.depth = d
      · have hx : x.depth ≠ d := by omega
        simp [hb, hx, List.filter_cons]
      · simp [hb, List.filter_cons]

theorem filter_insertionSort_depth (d : Int) (l : List Scene3DFace) :
    (List.insertionSort (fun a b : Scene3DFace => a.depth ≤ b.depth) l).filter
        (fun f => decide (f.depth = d)) = l.filter (fun f => decide (f.depth = d)) := by
  induction l with
  | nil => rfl
  | cons b l ih =>
    rw [List.insertionSort, filter_orderedInsert_depth, ih, List.filter_cons]
    by_cases hb : b.depth = d <;> simp [hb]

/-- C25: on a face buffer holding at least `faceCount` faces the insertion
sort of `Draw3DScene` returns; the first `faceCount` faces are then a
permutation of what they were, in non-increasing order of depth (back to
front), the faces of any one depth in their original relative order, and the
faces behind them are untouched. -/
theorem C25_face_sort (faceCount : Nat) (a : List Scene3DFace) (hlen : faceCount ≤ a.length) :
    ∃ sorted, Draw3DScene.sortFaces faceCount a = .ok (sorted ++ a.drop faceCount) ∧
      sorted.Perm (a.take faceCount) ∧
      sorted.Pairwise (fun x y : Scene3DFace => y.depth ≤ x.depth) ∧
      ∀ d : Int, sorted.filter (fun f => decide (f.depth = d)) =
        (a.take faceCount).filter (fun f => decide (f.depth = d)) := by
  haveI : IsTotal Scene3DFace (fun a b : Scene3DFace => a.depth ≤ b.depth) :=
    ⟨fun a b => le_total a.depth b.depth⟩
  haveI : IsTrans Scene3DFace (fun a b : Scene3DFace => a.depth ≤ b.depth) :=
    ⟨fun a b c h1 h2 => le_trans h1 h2⟩
  refine ⟨(List.insertionSort (fun a b : Scene3DFace => a.depth ≤ b.depth)
    (a.take faceCount).reverse).reverse, ?_, ?_, ?_, fun d => ?_⟩
  · unfold Draw3DScene.sortFaces
    cases faceCount with
    | zero => simp [Draw3DScene.sortOuter]
    | succ n =>
      have h0 : 0 < a.length := by omega
      have hstart : a = (List.insertionSort (fun a b : Scene3DFace => a.depth ≤ b.depth)
          (a.take 1).reverse).reverse ++ a.drop 1 := by
        cases a with
        | nil => simp at h0
        | cons x t => simp
      have := Draw3DScene.sortOuter_spec n 1 a (by omega)
      rw [← hstart] at this
      rw [Nat.add_sub_cancel, this, Nat.add_comm 1 n]
  · exact (List.reverse_perm _).trans
      ((List.perm_insertionSort _ _).trans (List.reverse_perm _))
  · rw [List.pairwise_reverse]
    exact List.sorted_insertionSort (fun a b : Scene3DFace => a.depth ≤ b.depth) _
  · rw [List.filter_reverse, filter_insertionSort_depth, List.filter_reverse, List.reverse_reverse]

/-- Witness of C25: four faces with depths 5, 9, 5, 9; the faces of depth 9
come first, in their original order 1, 3, then those of depth 5 in their
original order 0, 2. -/
theorem C25_face_sort_witness :
    4 ≤ demoFaces.length ∧
      Draw3DScene.sortFaces 4 demoFaces =
        .ok [{ depth := 9, index := 1 }, { depth := 9, index := 3 }, { depth := 5, index := 0 },
             { depth := 5, index := 2 }] ∧
      ∃ sorted, Draw3DScene.sortFaces 4 demoFaces = .ok (sorted ++ demoFaces.drop 4) ∧
        sorted.Perm (demoFaces.take 4) ∧
        sorted.Pairwise (fun x y : Scene3DFace => y.depth ≤ x.depth) ∧
        ∀ d : Int, sorted.filter (fun f => decide (f.depth = d)) =
          (demoFaces.take 4).filter (fun f => decide (f.depth = d)) :=
  ⟨by decide, rfl, C25_face_sort 4 demoFaces (by decide)⟩

/-! ### Closed forms of the deformation encoders (C23, C24, C30) -/

theorem writeRecord_ok {buf : List Flt} {k : Nat} (x y z : Flt) (h : 4 * k + 2 < buf.length) :
    ∃ b, writeRecord buf k x y z = .ok b ∧ b.length = buf.length ∧
      b[4 * k]? = some x ∧ b[4 * k + 1]? = some y ∧ b[4 * k + 2]? = some z ∧
      ∀ p : Nat, p ≠ 4 * k → p ≠ 4 * k + 1 → p ≠ 4 * k + 2 → b[p]? = buf[p]? := by
  unfold writeRecord
  rw [if_pos h]
  refine ⟨_, rfl, by simp, ?_, ?_, ?_, ?_⟩
  · simp only [List.getElem?_set, List.length_set]
    simp
    omega
  · simp only [List.getElem?_set, List.length_set]
    simp
    omega
  · simp only [List.getElem?_set, List.length_set]
    simp
    omega
  · intro p h0 h1 h2
    rw [List.getElem?_set_ne (Ne.symm h2), List.getElem?_set_ne (Ne.symm h1),
      List.getElem?_set_ne (Ne.symm h0)]

theorem clipCount_closed (lo hi : Int) (n : Nat) :
    ∀ a : Nat, (clipCount lo hi a n : Int) = max 0 (min ((a : Int) + n) hi - max (a : Int) lo) := by
  induction n with
  | zero =>
    intro a
    simp only [clipCount]
    omega
  | succ n ih =>
    intro a
    simp only [clipCount]
    have := ih (a + 1)
    push_cast at this ⊢
    split <;> omega

theorem clipCount_clamp (lo hi : Int) (h0 : 0 ≤ lo) (h1 : lo ≤ hi) (cy : Nat) :
    lo + (clipCount lo hi 0 cy : Int) = clampInt cy lo hi := by
  rw [clipCount_closed]
  unfold clampInt
  push_cast
  omega

theorem DrawLayerHScroll_encode_spec (scanlines : List ScanlineInfo) (gfxLineBuffer : List Nat)
    (scr : ScreenInfo) (layer : TileLayer) (n : Nat) :
    ∀ (cy s0 l0 : Nat) (buf : List Flt), 4 * (cy + n) ≤ buf.length →
      (∀ j, j < n →
        s0 + clipCount scr.clipBound_Y1 scr.clipBound_Y2 cy j < scanlines.length ∧
        l0 + clipCount scr.clipBound_Y1 scr.clipBound_Y2 cy j < gfxLineBuffer.length) →
      ∃ r, DrawLayerHScroll.encode scanlines gfxLineBuffer scr layer n cy (s0 : Int) (l0 : Int) buf
          = .ok r ∧ r.length = buf.length ∧
        (∀ (j : Nat) (sl : ScanlineInfo) (lb : Nat), j < n →
          scanlines[s0 + clipCount scr.clipBound_Y1 scr.clipBound_Y2 cy j]? = some sl →
          gfxLineBuffer[l0 + clipCount scr.clipBound_Y1 scr.clipBound_Y2 cy j]? = some lb →
          r[4 * (cy + j)]? = some (.quot sl.position_x (20 + layer.widthShift)) ∧
          r[4 * (cy + j) + 1]? = some (.quot sl.position_y (20 + layer.heightShift)) ∧
          r[4 * (cy + j) + 2]? = some (.ofInt lb)) ∧
        (∀ p : Nat, (p < 4 * cy ∨ 4 * (cy + n) ≤ p ∨ p % 4 = 3) → r[p]? = buf[p]?) := by
  induction n with
  | zero =>
    intro cy s0 l0 buf _ _
    exact ⟨buf, rfl, rfl, fun j _ _ hj => absurd hj (Nat.not_lt_zero _), fun _ _ => rfl⟩
  | succ n ih =>
    intro cy s0 l0 buf hlen hread
    obtain ⟨hs, hl⟩ := hread 0 (by omega)
    simp only [clipCount, Nat.add_zero] at hs hl
    have hsl : arrayAt scanlines (s0 : Int) = .ok scanlines[s0] :=
      arrayAt_natCast (List.getElem?_eq_getElem hs)
    have hlb : arrayAt gfxLineBuffer (l0 : Int) = .ok gfxLineBuffer[l0] :=
      arrayAt_natCast (List.getElem?_eq_getElem hl)
    obtain ⟨buf1, hw, hlen1, hx, hy, hz, hframe⟩ := writeRecord_ok
      (.quot scanlines[s0].position_x (20 + layer.widthShift))
      (.quot scanlines[s0].position_y (20 + layer.heightShift))
      (.ofInt gfxLineBuffer[l0]) (show 4 * cy + 2 < buf.length by omega)
    have hstep : DrawLayerHScroll.encode scanlines gfxLineBuffer scr layer (n + 1) cy (s0 : Int)
          (l0 : Int) buf =
        DrawLayerHScroll.encode scanlines gfxLineBuffer scr layer n (cy + 1)
          ((s0 + clipCount scr.clipBound_Y1 scr.clipBound_Y2 cy 1 : Nat) : Int)
          ((l0 + clipCount scr.clipBound_Y1 scr.clipBound_Y2 cy 1 : Nat) : Int) buf1 := by
      rw [DrawLayerHScroll.encode, hsl, hlb]
      simp only [hw]
      by_cases hc : scr.clipBound_Y1 ≤ (cy : Int) ∧ (cy : Int) < scr.clipBound_Y2
      · simp only [clipCount, if_pos hc, Nat.add_zero]
        push_cast
        rfl
      · simp only [clipCount, if_neg hc, Nat.add_zero]
    have hcount : ∀ j, clipCount scr.clipBound_Y1 scr.clipBound_Y2 cy (j + 1) =
        clipCount scr.clipBound_Y1 scr.clipBound_Y2 cy 1 +
          clipCount scr.clipBound_Y1 scr.clipBound_Y2 (cy + 1) j := by
      intro j
      simp only [clipCount, Nat.add_zero]
    obtain ⟨r, hr, hrlen, hrec, hfr⟩ := ih (cy + 1)
      (s0 + clipCount scr.clipBound_Y1 scr.clipBound_Y2 cy 1)
      (l0 + clipCount scr.clipBound_Y1 scr.clipBound_Y2 cy 1) buf1 (by omega) (by
        intro j hj
        have := hread (j + 1) (by omega)
        rw [hcount] at this
        omega)
    refine ⟨r, hstep.trans hr, hrlen.trans hlen1, ?_, ?_⟩
    · intro j sl lb hj hsj hlj
      cases j with
      | zero =>
        simp only [clipCount, Nat.add_zero] at hsj hlj
        rw [List.getElem?_eq_getElem hs] at hsj
        rw [List.getElem?_eq_getElem hl] at hlj
        obtain rfl := Option.some.inj hsj
        obtain rfl := Option.some.inj hlj
        rw [hfr _ (Or.inl (by omega)), hfr _ (Or.inl (by omega)), hfr _ (Or.inl (by omega))]
        exact ⟨hx, hy, hz⟩
      | succ j =>
        rw [hcount, ← Nat.add_assoc] at hsj hlj
        have := hrec j sl lb (by omega) hsj hlj
        have e : cy + (j + 1) = cy + 1 + j := by omega
        rw [e]
        exact this
    · intro p hp
      rw [hfr p (by omega)]
      exact hframe p (by omega) (by omega) (by omega)

theorem encodeHScroll_closed_form (env : DrawEnv) (scr : ScreenInfo) (layer : TileLayer)
    (buf : List Flt) (h0 : 0 ≤ scr.clipBound_Y1) (h1 : scr.clipBound_Y1 ≤ scr.clipBound_Y2)
    (hread : ∀ cy : Nat, cy < env.pixHeight.toNat →
      (clampInt cy scr.clipBound_Y1 scr.clipBound_Y2).toNat < env.scanlines.length ∧
      (clampInt cy scr.clipBound_Y1 scr.clipBound_Y2).toNat < env.gfxLineBuffer.length)
    (hbuf : 4 * env.pixHeight.toNat ≤ buf.length) :
    ∃ r, encodeHScroll env scr layer buf = .ok r ∧ r.length = buf.length ∧
      (∀ cy : Nat, cy < env.pixHeight.toNat →
        ∃ sl lb,
          env.scanlines[(clampInt cy scr.clipBound_Y1 scr.clipBound_Y2).toNat]? = some sl ∧
          env.gfxLineBuffer[(clampInt cy scr.clipBound_Y1 scr.clipBound_Y2).toNat]? = some lb ∧
          r[4 * cy]? = some (.quot sl.position_x (20 + layer.widthShift)) ∧
          r[4 * cy + 1]? = some (.quot sl.position_y (20 + layer.heightShift)) ∧
          r[4 * cy + 2]? = some (.ofInt lb)) ∧
      (∀ p : Nat, (4 * env.pixHeight.toNat ≤ p ∨ p % 4 = 3) → r[p]? = buf[p]?) := by
  have hidx : ∀ j : Nat, scr.clipBound_Y1.toNat +
      clipCount scr.clipBound_Y1 scr.clipBound_Y2 0 j =
        (clampInt j scr.clipBound_Y1 scr.clipBound_Y2).toNat := by
    intro j
    have := clipCount_clamp scr.clipBound_Y1 scr.clipBound_Y2 h0 h1 j
    omega
  obtain ⟨r, hr, hlen, hrec, hfr⟩ := DrawLayerHScroll_encode_spec env.scanlines
    env.gfxLineBuffer scr layer env.pixHeight.toNat 0 scr.clipBound_Y1.toNat
    scr.clipBound_Y1.toNat buf (by omega) (by
      intro j hj
      rw [hidx]
      exact hread j hj)
  have hcast : ((scr.clipBound_Y1.toNat : Nat) : Int) = scr.clipBound_Y1 := Int.toNat_of_nonneg h0
  rw [hcast] at hr
  refine ⟨r, hr, hlen, fun cy hcy => ?_, fun p hp => hfr p (by omega)⟩
  obtain ⟨hs, hl⟩ := hread cy hcy
  refine ⟨_, _, List.getElem?_eq_getElem hs, List.getElem?_eq_getElem hl, ?_⟩
  have := hrec cy _ _ hcy (by rw [hidx]; exact List.getElem?_eq_getElem hs)
    (by rw [hidx]; exact List.getElem?_eq_getElem hl)
  simpa using this

/-- C30: for clip bounds `0 <= Y1 <= Y2`, an attribute array of at least
`pixHeight` records and scanline and line-buffer arrays that hold the entries
read, the horizontal-scroll encoder returns; record `cy`, for every row
`cy < pixHeight`, is built from scanline entry and line-buffer entry number
`clamp(cy, Y1, Y2)`; component 3 of every record and everything from record
`pixHeight` on is left as it was. -/
theorem C30_hscroll_closed_form (env : DrawEnv) (scr : ScreenInfo) (layer : TileLayer)
    (buf : List Flt) (h0 : 0 ≤ scr.clipBound_Y1) (h1 : scr.clipBound_Y1 ≤ scr.clipBound_Y2)
    (hread : ∀ cy : Nat, cy < env.pixHeight.toNat →
      (clampInt cy scr.clipBound_Y1 scr.clipBound_Y2).toNat < env.scanlines.length ∧
      (clampInt cy scr.clipBound_Y1 scr.clipBound_Y2).toNat < env.gfxLineBuffer.length)
    (hbuf : 4 * env.pixHeight.toNat ≤ buf.length) :
    ∃ r, encodeHScroll env scr layer buf = .ok r ∧ r.length = buf.length ∧
      (∀ cy : Nat, cy < env.pixHeight.toNat →
        ∃ sl lb,
          env.scanlines[(clampInt cy scr.clipBound_Y1 scr.clipBound_Y2).toNat]? = some sl ∧
          env.gfxLineBuffer[(clampInt cy scr.clipBound_Y1 scr.clipBound_Y2).toNat]? = some lb ∧
          r[4 * cy]? = some (.quot sl.position_x (20 + layer.widthShift)) ∧
          r[4 * cy + 1]? = some (.quot sl.position_y (20 + layer.heightShift)) ∧
          r[4 * cy + 2]? = some (.ofInt lb)) ∧
      (∀ p : Nat, (4 * env.pixHeight.toNat ≤ p ∨ p % 4 = 3) → r[p]? = buf[p]?) :=
  encodeHScroll_closed_form env scr layer buf h0 h1 hread hbuf

/-- Witness of C30: the 2 by 2 target with the top row as clip rectangle
(`Y1 = 0`, `Y2 = 1`): record 0 is built from entries number 0, record 1 from
entries number 1, and the rest of the four-record array keeps its data. -/
theorem C30_hscroll_closed_form_witness :
    encodeHScroll demoDrawEnv demoClipTop demoLayer demoAttributeBuf =
        .ok [.quot 1048576 29, .quot 2097152 29, .ofInt 3, .raw 7,
             .quot 3145728 29, .quot 0 29, .ofInt 1, .raw 7,
             .raw 7, .raw 7, .raw 7, .raw 7, .raw 7, .raw 7, .raw 7, .raw 7] ∧
      ∃ r, encodeHScroll demoDrawEnv demoClipTop demoLayer demoAttributeBuf = .ok r ∧
        r.length = demoAttributeBuf.length ∧
        (∀ cy : Nat, cy < demoDrawEnv.pixHeight.toNat →
          ∃ sl lb,
            demoDrawEnv.scanlines[(clampInt cy demoClipTop.clipBound_Y1
              demoClipTop.clipBound_Y2).toNat]? = some sl ∧
            demoDrawEnv.gfxLineBuffer[(clampInt cy demoClipTop.clipBound_Y1
              demoClipTop.clipBound_Y2).toNat]? = some lb ∧
            r[4 * cy]? = some (.quot sl.position_x (20 + demoLayer.widthShift)) ∧
            r[4 * cy + 1]? = some (.quot sl.position_y (20 + demoLayer.heightShift)) ∧
            r[4 * cy + 2]? = some (.ofInt lb)) ∧
        (∀ p : Nat, (4 * demoDrawEnv.pixHeight.toNat ≤ p ∨ p % 4 = 3) →
          r[p]? = demoAttributeBuf[p]?) :=
  ⟨rfl, C30_hscroll_closed_form demoDrawEnv demoClipTop demoLayer demoAttributeBuf (by decide)
    (by decide) (by decide) (by decide)⟩

/-- C23 fails on the code: on the 2 by 2 target with the top row as clip
rectangle (`0 <= Y1 = 0 < Y2 = 1 <= pixHeight = 2`), row 1 lies outside the
clip and its nearest row inside is row 0; the record of row 1 carries
line-buffer entry number 1 (value 1) and scanline entry number 1, the entries
one past the last row of the clip, not those of row 0 (line-buffer value
3). -/
theorem C23_counterexample :
    demoClipTop.clipBound_Y1 = 0 ∧ demoClipTop.clipBound_Y2 = 1 ∧ demoDrawEnv.pixHeight = 2 ∧
      demoDrawEnv.gfxLineBuffer = [3, 1, 2, 0] ∧
      recordAt (encodeHScroll demoDrawEnv demoClipTop demoLayer demoAttributeBuf) 0 =
        some (.quot 1048576 29, .quot 2097152 29, .ofInt 3) ∧
      recordAt (encodeHScroll demoDrawEnv demoClipTop demoLayer demoAttributeBuf) 1 =
        some (.quot 3145728 29, .quot 0 29, .ofInt 1) :=
  ⟨rfl, rfl, rfl, rfl, rfl, rfl⟩

/-- C23, amended: for clip bounds `0 <= Y1 < Y2` (and arrays that hold the
entries read) the horizontal-scroll encoder returns, and the
record of a row outside `[Y1, Y2)` carries the scanline and line-buffer
entry at which the pointers stand: entry number `Y1`, that of the first row
of the clip, for the rows `cy < Y1`, and entry number `Y2`, the one just past
the last row of the clip, for the rows `cy >= Y2`. -/
theorem C23_rows_outside_clip (env : DrawEnv) (scr : ScreenInfo) (layer : TileLayer)
    (buf : List Flt) (h0 : 0 ≤ scr.clipBound_Y1) (h1 : scr.clipBound_Y1 < scr.clipBound_Y2)
    (hread : ∀ cy : Nat, cy < env.pixHeight.toNat →
      (clampInt cy scr.clipBound_Y1 scr.clipBound_Y2).toNat < env.scanlines.length ∧
      (clampInt cy scr.clipBound_Y1 scr.clipBound_Y2).toNat < env.gfxLineBuffer.length)
    (hbuf : 4 * env.pixHeight.toNat ≤ buf.length) :
    ∃ r, encodeHScroll env scr layer buf = .ok r ∧
      ∀ cy : Nat, cy < env.pixHeight.toNat →
        ((cy : Int) < scr.clipBound_Y1 →
          ∃ sl lb, env.scanlines[scr.clipBound_Y1.toNat]? = some sl ∧
            env.gfxLineBuffer[scr.clipBound_Y1.toNat]? = some lb ∧
            recordAt (.ok r) cy = some (.quot sl.position_x (20 + layer.widthShift),
              .quot sl.position_y (20 + layer.heightShift), .ofInt lb)) ∧
        (scr.clipBound_Y2 ≤ (cy : Int) →
          ∃ sl lb, env.scanlines[scr.clipBound_Y2.toNat]? = some sl ∧
            env.gfxLineBuffer[scr.clipBound_Y2.toNat]? = some lb ∧
            recordAt (.ok r) cy = some (.quot sl.position_x (20 + layer.widthShift),
              .quot sl.position_y (20 + layer.heightShift), .ofInt lb)) := by
  obtain ⟨r, hr, -, hrec, -⟩ := encodeHScroll_closed_form env scr layer buf h0 (by omega) hread
    hbuf
  refine ⟨r, hr, fun cy hcy => ?_⟩
  obtain ⟨sl, lb, hs, hl, hx, hy, hz⟩ := hrec cy hcy
  have hrecord : recordAt (.ok r) cy = some (.quot sl.position_x (20 + layer.widthShift),
      .quot sl.position_y (20 + layer.heightShift), .ofInt lb) := by
    simp only [recordAt, hx, hy, hz]
  constructor
  · intro hlt
    have e : clampInt cy scr.clipBound_Y1 scr.clipBound_Y2 = scr.clipBound_Y1 := by
      unfold clampInt; omega
    rw [e] at hs hl
    exact ⟨sl, lb, hs, hl, hrecord⟩
  · intro hge
    have e : clampInt cy scr.clipBound_Y1 scr.clipBound_Y2 = scr.clipBound_Y2 := by
      unfold clampInt; omega
    rw [e] at hs hl
    exact ⟨sl, lb, hs, hl, hrecord⟩

/-- Witness of C23 (amended): the 2 by 2 target with the top row as clip
rectangle. -/
theorem C23_rows_outside_clip_witness :
    ∃ r, encodeHScroll demoDrawEnv demoClipTop demoLayer demoAttributeBuf = .ok r ∧
      ∀ cy : Nat, cy < demoDrawEnv.pixHeight.toNat →
        ((cy : Int) < demoClipTop.clipBound_Y1 →
          ∃ sl lb, demoDrawEnv.scanlines[demoClipTop.clipBound_Y1.toNat]? = some sl ∧
            demoDrawEnv.gfxLineBuffer[demoClipTop.clipBound_Y1.toNat]? = some lb ∧
            recordAt (.ok r) cy = some (.quot sl.position_x (20 + demoLayer.widthShift),
              .quot sl.position_y (20 + demoLayer.heightShift), .ofInt lb)) ∧
        (demoClipTop.clipBound_Y2 ≤ (cy : Int) →
          ∃ sl lb, demoDrawEnv.scanlines[demoClipTop.clipBound_Y2.toNat]? = some sl ∧
            demoDrawEnv.gfxLineBuffer[demoClipTop.clipBound_Y2.toNat]? = some lb ∧
            recordAt (.ok r) cy = some (.quot sl.position_x (20 + demoLayer.widthShift),
              .quot sl.position_y (20 + demoLayer.heightShift), .ofInt lb)) :=
  C23_rows_outside_clip demoDrawEnv demoClipTop demoLayer demoAttributeBuf (by decide)
    (by decide) (by decide) (by decide)

theorem wrap32_wrap32_add (a b : Int) : wrap32 (wrap32 a + b) = wrap32 (a + b) := by
  unfold wrap32
  omega

theorem wrap32_of_int32 (a : Int) (h1 : -2147483648 ≤ a) (h2 : a < 2147483648) : wrap32 a = a := by
  unfold wrap32
  omega

theorem accumulated_add (pos d : Int) (a b : Nat) :
    accumulated (accumulated pos d a) d b = accumulated pos d (a + b) := by
  unfold accumulated
  by_cases ha : a = 0
  · subst ha
    simp
  · by_cases hb : b = 0
    · subst hb
      simp [ha]
    · have hab : a + b ≠ 0 := by omega
      simp only [ha, hb, hab, if_false]
      rw [wrap32_wrap32_add]
      congr 1
      push_cast
      ring

theorem accumulated_one (pos d : Int) : accumulated pos d 1 = wrap32 (pos + d) := by
  unfold accumulated
  simp

theorem DrawLayerRotozoom_row_spec (scr : ScreenInfo) (layer : TileLayer) (sl : ScanlineInfo)
    (lb : Nat) (n : Nat) :
    ∀ (cx k : Nat) (posX posY : Int) (buf : List Flt), 4 * (k + n) ≤ buf.length →
      ∃ r, DrawLayerRotozoom.row scr layer sl lb n cx k posX posY buf = .ok r ∧
        r.length = buf.length ∧
        (∀ j : Nat, j < n →
          r[4 * (k + j)]? = some (.quot (accumulated posX sl.deform_x
            (clipCount scr.clipBound_X1 scr.clipBound_X2 cx j)) (20 + layer.widthShift)) ∧
          r[4 * (k + j) + 1]? = some (.quot (accumulated posY sl.deform_y
            (clipCount scr.clipBound_X1 scr.clipBound_X2 cx j)) (20 + layer.heightShift)) ∧
          r[4 * (k + j) + 2]? = some (.ofInt lb)) ∧
        (∀ p : Nat, (p < 4 * k ∨ 4 * (k + n) ≤ p ∨ p % 4 = 3) → r[p]? = buf[p]?) := by
  induction n with
  | zero =>
    intro cx k posX posY buf _
    exact ⟨buf, rfl, rfl, fun j hj => absurd hj (Nat.not_lt_zero _), fun _ _ => rfl⟩
  | succ n ih =>
    intro cx k posX posY buf hlen
    obtain ⟨buf1, hw, hlen1, hx, hy, hz, hframe⟩ := writeRecord_ok
      (.quot posX (20 + layer.widthShift)) (.quot posY (20 + layer.heightShift))
      (.ofInt lb) (show 4 * k + 2 < buf.length by omega)
    have hstep : DrawLayerRotozoom.row scr layer sl lb (n + 1) cx k posX posY buf =
        DrawLayerRotozoom.row scr layer sl lb n (cx + 1) (k + 1)
          (accumulated posX sl.deform_x (clipCount scr.clipBound_X1 scr.clipBound_X2 cx 1))
          (accumulated posY sl.deform_y (clipCount scr.clipBound_X1 scr.clipBound_X2 cx 1))
          buf1 := by
      rw [DrawLayerRotozoom.row]
      simp only [hw]
      by_cases hc : scr.clipBound_X1 ≤ (cx : Int) ∧ (cx : Int) < scr.clipBound_X2
      · simp only [clipCount, if_pos hc, Nat.add_zero, accumulated_one]
      · simp only [clipCount, if_neg hc, Nat.add_zero, accumulated, if_true]
    have hcount : ∀ j, clipCount scr.clipBound_X1 scr.clipBound_X2 cx (j + 1) =
        clipCount scr.clipBound_X1 scr.clipBound_X2 cx 1 +
          clipCount scr.clipBound_X1 scr.clipBound_X2 (cx + 1) j := by
      intro j
      simp only [clipCount, Nat.add_zero]
    obtain ⟨r, hr, hrlen, hrec, hfr⟩ := ih (cx + 1) (k + 1)
      (accumulated posX sl.deform_x (clipCount scr.clipBound_X1 scr.clipBound_X2 cx 1))
      (accumulated posY sl.deform_y (clipCount scr.clipBound_X1 scr.clipBound_X2 cx 1))
      buf1 (by omega)
    refine ⟨r, hstep.trans hr, hrlen.trans hlen1, ?_, ?_⟩
    · intro j hj
      cases j with
      | zero =>
        rw [hfr _ (Or.inl (by omega)), hfr _ (Or.inl (by omega)), hfr _ (Or.inl (by omega))]
        simp only [clipCount, accumulated, if_true, Nat.add_zero]
        exact ⟨hx, hy, hz⟩
      | succ j =>
        have := hrec j (by omega)
        rw [accumulated_add, accumulated_add, ← hcount] at this
        have e : k + (j + 1) = k + 1 + j := by omega
        rw [e]
        exact this
    · intro p hp
      rw [hfr p (by omega)]
      exact hframe p (by omega) (by omega) (by omega)

theorem DrawLayerRotozoom_encode_spec (scanlines : List ScanlineInfo) (gfxLineBuffer : List Nat)
    (scr : ScreenInfo) (layer : TileLayer) (W : Nat) (n : Nat) :
    ∀ (cy k s0 l0 : Nat) (buf : List Flt), 4 * (k + n * W) ≤ buf.length →
      (∀ j, j < n →
        s0 + clipCount scr.clipBound_Y1 scr.clipBound_Y2 cy j < scanlines.length ∧
        l0 + clipCount scr.clipBound_Y1 scr.clipBound_Y2 cy j < gfxLineBuffer.length) →
      ∃ r, DrawLayerRotozoom.encode scanlines gfxLineBuffer scr layer W n cy k (s0 : Int)
          (l0 : Int) buf = .ok r ∧ r.length = buf.length ∧
        (∀ (j cx : Nat) (sl : ScanlineInfo) (lb : Nat), j < n → cx < W →
          scanlines[s0 + clipCount scr.clipBound_Y1 scr.clipBound_Y2 cy j]? = some sl →
          gfxLineBuffer[l0 + clipCount scr.clipBound_Y1 scr.clipBound_Y2 cy j]? = some lb →
          r[4 * (k + j * W + cx)]? = some (.quot (accumulated sl.position_x sl.deform_x
            (clipCount scr.clipBound_X1 scr.clipBound_X2 0 cx)) (20 + layer.widthShift)) ∧
          r[4 * (k + j * W + cx) + 1]? = some (.quot (accumulated sl.position_y sl.deform_y
            (clipCount scr.clipBound_X1 scr.clipBound_X2 0 cx)) (20 + layer.heightShift)) ∧
          r[4 * (k + j * W + cx) + 2]? = some (.ofInt lb)) ∧
        (∀ p : Nat, (p < 4 * k ∨ 4 * (k + n * W) ≤ p ∨ p % 4 = 3) → r[p]? = buf[p]?) := by
  induction n with
  | zero =>
    intro cy k s0 l0 buf _ _
    exact ⟨buf, rfl, rfl, fun j _ _ _ hj => absurd hj (Nat.not_lt_zero _), fun _ _ => rfl⟩
  | succ n ih =>
    intro cy k s0 l0 buf hlen hread
    have hmul : (n + 1) * W = n * W + W := Nat.succ_mul n W
    obtain ⟨hs, hl⟩ := hread 0 (by omega)
    simp only [clipCount, Nat.add_zero] at hs hl
    have hsl : arrayAt scanlines (s0 : Int) = .ok scanlines[s0] :=
      arrayAt_natCast (List.getElem?_eq_getElem hs)
    have hlb : arrayAt gfxLineBuffer (l0 : Int) = .ok gfxLineBuffer[l0] :=
      arrayAt_natCast (List.getElem?_eq_getElem hl)
    obtain ⟨buf1, hrow, hlen1, hrowrec, hrowfr⟩ := DrawLayerRotozoom_row_spec scr layer
      scanlines[s0] gfxLineBuffer[l0] W 0 k scanlines[s0].position_x scanlines[s0].position_y buf
      (by omega)
    have hstep : DrawLayerRotozoom.encode scanlines gfxLineBuffer scr layer W (n + 1) cy k
          (s0 : Int) (l0 : Int) buf =
        DrawLayerRotozoom.encode scanlines gfxLineBuffer scr layer W n (cy + 1) (k + W)
          ((s0 + clipCount scr.clipBound_Y1 scr.clipBound_Y2 cy 1 : Nat) : Int)
          ((l0 + clipCount scr.clipBound_Y1 scr.clipBound_Y2 cy 1 : Nat) : Int) buf1 := by
      rw [DrawLayerRotozoom.encode, hsl, hlb]
      simp only [hrow]
      by_cases hc : scr.clipBound_Y1 ≤ (cy : Int) ∧ (cy : Int) < scr.clipBound_Y2
      · simp only [clipCount, if_pos hc, Nat.add_zero]
        push_cast
        rfl
      · simp only [clipCount, if_neg hc, Nat.add_zero]
    have hcount : ∀ j, clipCount scr.clipBound_Y1 scr.clipBound_Y2 cy (j + 1) =
        clipCount scr.clipBound_Y1 scr.clipBound_Y2 cy 1 +
          clipCount scr.clipBound_Y1 scr.clipBound_Y2 (cy + 1) j := by
      intro j
      simp only [clipCount, Nat.add_zero]
    obtain ⟨r, hr, hrlen, hrec, hfr⟩ := ih (cy + 1) (k + W)
      (s0 + clipCount scr.clipBound_Y1 scr.clipBound_Y2 cy 1)
      (l0 + clipCount scr.clipBound_Y1 scr.clipBound_Y2 cy 1) buf1 (by omega) (by
        intro j hj
        have := hread (j + 1) (by omega)
        rw [hcount] at this
        omega)
    refine ⟨r, hstep.trans hr, hrlen.trans hlen1, ?_, ?_⟩
    · intro j cx sl lb hj hcx hsj hlj
      cases j with
      | zero =>
        simp only [clipCount, Nat.add_zero] at hsj hlj
        rw [List.getElem?_eq_getElem hs] at hsj
        rw [List.getElem?_eq_getElem hl] at hlj
        obtain rfl := Option.some.inj hsj
        obtain rfl := Option.some.inj hlj
        have e : k + 0 * W + cx = k + cx := by omega
        rw [e, hfr _ (Or.inl (by omega)), hfr _ (Or.inl (by omega)), hfr _ (Or.inl (by omega))]
        exact hrowrec cx hcx
      | succ j =>
        rw [hcount, ← Nat.add_assoc] at hsj hlj
        have := hrec j cx sl lb (by omega) hcx hsj hlj
        have hmul' : (j + 1) * W = j * W + W := Nat.succ_mul j W
        have e : k + (j + 1) * W + cx = k + W + j * W + cx := by omega
        rw [e]
        exact this
    · intro p hp
      rw [hfr p (by omega)]
      exact hrowfr p (by omega)

/-- C24: for `0 <= Y1`, an attribute array of at least `pixWidth * pixHeight`
records, scanline and line-buffer arrays that hold the entries read, and
scanline positions that are `int32` values, the rotozoom encoder returns, and
for every row `cy < pixHeight` and column `cx < pixWidth` the position in
record `(cy, cx)` is the position of the row's scanline entry plus `k` times
its deform vector in 32-bit wrap-around arithmetic, `k` being the number of
columns `c < cx` with `clipBound_X1 <= c < clipBound_X2`; the row's scanline
entry is the one `Y1` plus the number of rows `c < cy` inside
`[clipBound_Y1, clipBound_Y2)`. -/
theorem C24_rotozoom_accumulation (env : DrawEnv) (scr : ScreenInfo) (layer : TileLayer)
    (buf : List Flt) (h0 : 0 ≤ scr.clipBound_Y1)
    (hread : ∀ cy : Nat, cy < env.pixHeight.toNat →
      scr.clipBound_Y1.toNat + clipCount scr.clipBound_Y1 scr.clipBound_Y2 0 cy
        < env.scanlines.length ∧
      scr.clipBound_Y1.toNat + clipCount scr.clipBound_Y1 scr.clipBound_Y2 0 cy
        < env.gfxLineBuffer.length)
    (hpos : ∀ sl, sl ∈ env.scanlines →
      (-2147483648 ≤ sl.position_x ∧ sl.position_x < 2147483648) ∧
      (-2147483648 ≤ sl.position_y ∧ sl.position_y < 2147483648))
    (hbuf : 4 * (env.pixHeight.toNat * env.pixWidth.toNat) ≤ buf.length) :
    ∃ r, encodeRotozoom env scr layer buf = .ok r ∧
      ∀ cy cx : Nat, cy < env.pixHeight.toNat → cx < env.pixWidth.toNat →
        ∃ sl, env.scanlines[scr.clipBound_Y1.toNat +
            clipCount scr.clipBound_Y1 scr.clipBound_Y2 0 cy]? = some sl ∧
          r[4 * (cy * env.pixWidth.toNat + cx)]? =
            some (.quot (wrap32 (sl.position_x +
              (clipCount scr.clipBound_X1 scr.clipBound_X2 0 cx : Int) * sl.deform_x))
              (20 + layer.widthShift)) ∧
          r[4 * (cy * env.pixWidth.toNat + cx) + 1]? =
            some (.quot (wrap32 (sl.position_y +
              (clipCount scr.clipBound_X1 scr.clipBound_X2 0 cx : Int) * sl.deform_y))
              (20 + layer.heightShift)) := by
  obtain ⟨r, hr, -, hrec, -⟩ := DrawLayerRotozoom_encode_spec env.scanlines env.gfxLineBuffer
    scr layer env.pixWidth.toNat env.pixHeight.toNat 0 0 scr.clipBound_Y1.toNat
    scr.clipBound_Y1.toNat buf (by omega) hread
  have hcast : ((scr.clipBound_Y1.toNat : Nat) : Int) = scr.clipBound_Y1 := Int.toNat_of_nonneg h0
  rw [hcast] at hr
  refine ⟨r, hr, fun cy cx hcy hcx => ?_⟩
  obtain ⟨hs, hl⟩ := hread cy hcy
  have hsl := List.getElem?_eq_getElem hs
  obtain ⟨hx, hy, -⟩ := hrec cy cx _ _ hcy hcx hsl (List.getElem?_eq_getElem hl)
  obtain ⟨⟨hx1, hx2⟩, hy1, hy2⟩ := hpos _ (List.getElem?_mem hsl)
  have hacc : ∀ (pos d : Int) (m : Nat), -2147483648 ≤ pos → pos < 2147483648 →
      accumulated pos d m = wrap32 (pos + (m : Int) * d) := by
    intro pos d m h1 h2
    unfold accumulated
    split
    · next hm => subst hm; simp [wrap32_of_int32 pos h1 h2]
    · rfl
  rw [hacc _ _ _ hx1 hx2] at hx
  rw [hacc _ _ _ hy1 hy2] at hy
  refine ⟨_, hsl, ?_, ?_⟩
  · simpa using hx
  · simpa using hy

/-- Witness of C24: the 2 by 2 target with the left column as horizontal
clip; in each row the record of column 1 holds the row's scanline position
plus once its deform vector. -/
theorem C24_rotozoom_accumulation_witness :
    encodeRotozoom demoDrawEnv demoClip demoLayer demoAttributeBuf =
        .ok [.quot 1048576 29, .quot 2097152 29, .ofInt 3, .raw 7,
             .quot 1114112 29, .quot 2031616 29, .ofInt 3, .raw 7,
             .quot 3145728 29, .quot 0 29, .ofInt 1, .raw 7,
             .quot 3276800 29, .quot 1 29, .ofInt 1, .raw 7] ∧
      ∃ r, encodeRotozoom demoDrawEnv demoClip demoLayer demoAttributeBuf = .ok r ∧
        ∀ cy cx : Nat, cy < demoDrawEnv.pixHeight.toNat → cx < demoDrawEnv.pixWidth.toNat →
          ∃ sl, demoDrawEnv.scanlines[demoClip.clipBound_Y1.toNat +
              clipCount demoClip.clipBound_Y1 demoClip.clipBound_Y2 0 cy]? = some sl ∧
            r[4 * (cy * demoDrawEnv.pixWidth.toNat + cx)]? =
              some (.quot (wrap32 (sl.position_x +
                (clipCount demoClip.clipBound_X1 demoClip.clipBound_X2 0 cx : Int) * sl.deform_x))
                (20 + demoLayer.widthShift)) ∧
            r[4 * (cy * demoDrawEnv.pixWidth.toNat + cx) + 1]? =
              some (.quot (wrap32 (sl.position_y +
                (clipCount demoClip.clipBound_X1 demoClip.clipBound_X2 0 cx : Int) * sl.deform_y))
                (20 + demoLayer.heightShift)) :=
  ⟨rfl, C24_rotozoom_accumulation demoDrawEnv demoClip demoLayer demoAttributeBuf (by decide)
    (by decide) (by decide) (by decide)⟩

/-! ### The ring bounds (C27) -/

theorem stageAndPush_of_steps {st st1 st2 st3 st4 st5 st6 : HWState} {s : Int}
    {shader fbShader vertexCount indexCount v i : Nat}
    (h1 : st.modifyCurrent s
      (fun state => { state with shader := shader, fbShader := fbShader, texture := 0 })
      = .ok st1)
    (h2 : AllocateVertexBuffer st1 vertexCount = .ok (v, st2))
    (h3 : st2.modifyCurrent s (fun state => { state with vertexBuffer := v }) = .ok st3)
    (h4 : AllocateIndexBuffer st3 indexCount = .ok (i, st4))
    (h5 : st4.modifyCurrent s (fun state => { state with
        indexBuffer := i
        vertexCount := (state.vertexCount + vertexCount) % 2 ^ 32
        indexCount := (state.indexCount + indexCount) % 2 ^ 32 }) = .ok st5)
    (h6 : PushCurrentState st5 s = .ok st6) :
    stageAndPush st s shader fbShader vertexCount indexCount = .ok (v, i, st6) := by
  unfold stageAndPush
  rw [h1]
  simp only
  rw [h2]
  simp only
  rw [h3]
  simp only
  rw [h4]
  simp only
  rw [h5]
  simp only
  rw [h6]

theorem AllocateIndexBuffer_flush (st : HWState) {st1 : HWState} (count : Nat)
    (hc : count ≤ VERTEX_LIMIT)
    (hov : VERTEX_LIMIT < st.iboOff + count) (hr : st.iboOff + count < 2 ^ 32)
    (h1 : CopyFrameBuffer st = .ok st1) (hi1 : st1.iboOff = 0) :
    AllocateIndexBuffer st count = .ok (0, st1) := by
  unfold AllocateIndexBuffer
  rw [if_neg (not_not.mpr hc), Nat.mod_eq_of_lt hr, if_pos hov, h1]
  simp only [hi1]

theorem pendingCmds_all_finished (rs : List RenderStateQueue) (n : Nat)
    (h : ∀ (k : Nat) (q : RenderStateQueue), k < n → rs[k]? = some q → q.size ≤ q.i) :
    ((rs.take n).map RenderStateQueue.pendingCmds).flatten = [] := by
  refine flatten_eq_nil_of_all_nil _ fun k x hx => ?_
  rw [List.getElem?_map, List.getElem?_take] at hx
  split at hx
  · next hkn =>
    cases hq' : rs[k]? with
    | none => rw [hq'] at hx; cases hx
    | some q' =>
      rw [hq'] at hx
      simp only [Option.map_some', Option.some.injEq] at hx
      rw [← hx]
      exact RenderStateQueue.pendingCmds_of_empty (h k q' hkn hq')
  · cases hx

theorem stageAndPush_index_flush {st : HWState} {s : Nat} {state : RenderState}
    {scr : ScreenInfo} (hd : st.drainable = true) (hsn : s < st.screenCount)
    (hstate : st.currentState[s]? = some state) (hscr : st.screens[s]? = some scr)
    (shader fbShader : Nat) (hv : st.vboOff + 4 ≤ VERTEX_LIMIT + 6)
    (hi : VERTEX_LIMIT < st.iboOff + 6) (hir : st.iboOff + 6 < 2 ^ 32)
    (hzv : state.vertexCount = 0) (hzi : state.indexCount = 0)
    (htint : fbShader ≠ st.fbTintShader.addr)
    (hsh : (st.shaderAt shader).isSome = true) (hfb : (st.shaderAt fbShader).isSome = true) :
    ∃ st1 cmd, stageAndPush st s shader fbShader 4 6 = .ok (st.vboOff, 0, st1) ∧
      st1.drainable = true ∧ st1.pendingCmds = [cmd] ∧ cmd.vertexBuffer = st.vboOff ∧
      cmd.indexBuffer = 0 ∧ cmd.vertexCount = 4 ∧ cmd.indexCount = 6 ∧
      st1.vboOff = 10 ∧ st1.iboOff = 6 := by
  have hlim : VERTEX_LIMIT = 16384 := rfl
  have hs : s < st.currentState.length := by
    rcases Nat.lt_or_ge s st.currentState.length with h | h
    · exact h
    · rw [List.getElem?_eq_none h] at hstate; cases hstate
  obtain ⟨hrl, hdq⟩ := (drainable_iff st).mp hd
  obtain ⟨q, hq⟩ : ∃ x, st.renderStates[s]? = some x :=
    ⟨_, List.getElem?_eq_getElem (by omega)⟩
  have h1 := HWState.modifyCurrent_ok hstate
    (fun state => { state with shader := shader, fbShader := fbShader, texture := 0 })
  have h2 := AllocateVertexBuffer_fit (st.setCurrent s
    { state with shader := shader, fbShader := fbShader, texture := 0 }) 4 (by omega)
    (by exact hv)
  have h3 := HWState.modifyCurrent_ok (HWState.setCurrent_get hs
    { state with shader := shader, fbShader := fbShader, texture := 0 })
    (fun state => { state with vertexBuffer := st.vboOff })
  rw [HWState.setCurrent_setCurrent] at h3
  obtain ⟨b, hb⟩ : ∃ b : RenderState, b = ({ state with
      shader := shader, fbShader := fbShader, texture := 0, vertexBuffer := st.vboOff } :
      RenderState) := ⟨_, rfl⟩
  have h3b : (st.setCurrent s { state with
      shader := shader, fbShader := fbShader, texture := 0 }).modifyCurrent (s : Int)
      (fun state => { state with vertexBuffer := st.vboOff }) = .ok (st.setCurrent s b) := by
    rw [hb]; exact h3
  obtain ⟨stF, hF, hvF, hiF, ⟨rs, gl, fr, hfr⟩, hlen, hrs⟩ := CopyFrameBuffer_ok
    (st.setCurrent s b) hd
  have h4 := AllocateIndexBuffer_flush (st.setCurrent s b) 6 (by omega) (by exact hi)
    (by exact hir)
    hF hiF
  have hcur : stF.currentState = st.currentState.set s b := by
    rw [hfr]; rfl
  have hscrs : stF.screens = st.screens := by rw [hfr]; rfl
  have hsc : stF.screenCount = st.screenCount := by rw [hfr]; rfl
  have hti : stF.fbTintShader = st.fbTintShader := by rw [hfr]; rfl
  have hshF : ∀ p, stF.shaderAt p = st.shaderAt p := by intro p; rw [hfr]; rfl
  have hstF : stF.currentState[s]? = some b := by
    rw [hcur]; exact List.getElem?_set_self hs
  have hsF : s < stF.currentState.length := by rw [hcur, List.length_set]; exact hs
  obtain ⟨c, hc⟩ : ∃ c : RenderState, c = ({ b with
      indexBuffer := 0
      vertexCount := (b.vertexCount + 4) % 2 ^ 32
      indexCount := (b.indexCount + 6) % 2 ^ 32 } : RenderState) := ⟨_, rfl⟩
  have h5 : stF.modifyCurrent (s : Int) (fun state => { state with
        indexBuffer := 0
        vertexCount := (state.vertexCount + 4) % 2 ^ 32
        indexCount := (state.indexCount + 6) % 2 ^ 32 }) = .ok (stF.setCurrent s c) := by
    rw [hc]
    exact HWState.modifyCurrent_ok hstF _
  have hqF : ∀ (k : Nat) (q' : RenderStateQueue), k < st.screenCount →
      stF.renderStates[k]? = some q' → q'.i = 0 ∧ q'.size = 0 := by
    intro k q' hk hkq
    have := hrs k
    rw [if_pos (by exact hk), hkq] at this
    cases hq0 : st.renderStates[k]? with
    | none =>
      have hq0' : (st.setCurrent s b).renderStates[k]? = none := hq0
      rw [hq0'] at this; cases this
    | some q0 =>
      have hq0' : (st.setCurrent s b).renderStates[k]? = some q0 := hq0
      rw [hq0'] at this
      simp only [Option.map_some', Option.some.injEq] at this
      rw [this]
      exact ⟨rfl, rfl⟩
  obtain ⟨qf, hqf⟩ : ∃ x, stF.renderStates[s]? = some x :=
    ⟨_, List.getElem?_eq_getElem (by rw [hlen]; exact (by omega : s < st.renderStates.length))⟩
  obtain ⟨hqfi, hqfs⟩ := hqF s qf hsn hqf
  have hscrF : stF.screens[s]? = some scr := by rw [hscrs]; exact hscr
  have hcfb : c.fbShader = fbShader := by rw [hc, hb]
  have h6a : PushCurrentState (stF.setCurrent s c) s = pushAndAdvance (stF.setCurrent s c) s :=
    PushCurrentState_of_ne_tint (HWState.setCurrent_get hsF c) hscrF hqf (by
      show c.fbShader ≠ stF.fbTintShader.addr
      rw [hti, hcfb]; exact htint)
  have h6 := h6a.trans (pushAndAdvance_ok (HWState.setCurrent_get hsF c) hscrF hqf)
  have hcvb : c.vertexBuffer = st.vboOff := by rw [hc, hb]
  have hcib : c.indexBuffer = 0 := by rw [hc]
  have hcsh : c.shader = shader := by rw [hc, hb]
  have hcvc : c.vertexCount = 4 := by
    rw [hc, hb]
    show (state.vertexCount + 4) % 2 ^ 32 = 4
    rw [hzv]
    rfl
  have hcic : c.indexCount = 6 := by
    rw [hc, hb]
    show (state.indexCount + 6) % 2 ^ 32 = 6
    rw [hzi]
    rfl
  have hempty : ∀ q' : RenderStateQueue, q'.i = 0 → q'.size = 0 →
      stF.drainableQueue q' = true := by
    intro q' h1 h2
    simp [HWState.drainableQueue, h2]
  have hvalid : stF.validCmd (queuedState c scr) = true := by
    simp only [HWState.validCmd, Bool.and_eq_true, hshF]
    exact ⟨by
      show (st.shaderAt c.shader).isSome = true
      rw [hcsh]; exact hsh, by
      show (st.shaderAt c.fbShader).isSome = true
      rw [hcfb]; exact hfb⟩
  refine ⟨_, queuedState c scr, stageAndPush_of_steps h1 h2 h3b h4 h5 h6, ?_, ?_, hcvb, hcib,
    hcvc, hcic, ?_, ?_⟩
  · rw [drainable_iff]
    refine ⟨?_, fun k q' hk hkq => ?_⟩
    · show stF.screenCount ≤ (stF.renderStates.set s (qf.push (queuedState c scr))).length
      rw [List.length_set, hlen, hsc]
      exact hrl
    · have hk' : k < st.screenCount := by rw [← hsc]; exact hk
      have hkq' : (stF.renderStates.set s (qf.push (queuedState c scr)))[k]? = some q' := hkq
      show stF.drainableQueue q' = true
      by_cases hks : k = s
      · subst hks
        rw [List.getElem?_set_self (by
          rw [hlen]; exact (by omega : k < st.renderStates.length))] at hkq'
        obtain rfl := Option.some.inj hkq'
        exact drainableQueue_push _ (hempty qf hqfi hqfs) (by omega) (by omega) hvalid
      · rw [List.getElem?_set_ne (Ne.symm hks)] at hkq'
        obtain ⟨e1, e2⟩ := hqF k q' hk' hkq'
        exact hempty q' e1 e2
  · show (((stF.renderStates.set s (qf.push (queuedState c scr))).take stF.screenCount).map
      RenderStateQueue.pendingCmds).flatten = [queuedState c scr]
    rw [hsc, pendingCmds_push_screen (queuedState c scr) stF.renderStates st.screenCount hsn hqf
      (by omega) (by omega) (by omega) (fun k q' _ hkn hkq => by
        obtain ⟨e1, e2⟩ := hqF k q' hkn hkq
        omega),
      pendingCmds_all_finished stF.renderStates st.screenCount (fun k q' hkn hkq => by
        obtain ⟨e1, e2⟩ := hqF k q' hkn hkq
        omega)]
    rfl
  · show (stF.vboOff + c.vertexCount) % 2 ^ 32 = 10
    rw [hvF, hcvc]
    rfl
  · show (stF.iboOff + c.indexCount) % 2 ^ 32 = 6
    rw [hiF, hcic]
    rfl

/-- C22 (code defect): the claim fails when the second allocation of a
layer draw flushes. The draw runs on an active screen `s` of a drainable
state whose vertex offset still has room for four vertices
(`vboOff + 4 <= VERTEX_LIMIT + 6`) and whose index offset has no room for six
indices (`iboOff + 6 > VERTEX_LIMIT`). The staging of the layer functions
returns: the vertex region is `vboOff`, taken before the flush, the index
region is `0`, taken after it, and the one pending command records both.
The next run of the compositor returns and draws that command with index
start `0` and base vertex `6`, not `vboOff`: the four vertices the draw
stored at `vboOff` are not the ones read unless `vboOff = 6`. -/
theorem C22_region_lost_on_second_flush (st : HWState) (s : Nat) (state : RenderState)
    (scr : ScreenInfo) (shader fbShader : Nat) (hd : st.drainable = true)
    (hsn : s < st.screenCount) (hstate : st.currentState[s]? = some state)
    (hscr : st.screens[s]? = some scr) (hv : st.vboOff + 4 ≤ VERTEX_LIMIT + 6)
    (hi : VERTEX_LIMIT < st.iboOff + 6) (hir : st.iboOff + 6 < 2 ^ 32)
    (hzv : state.vertexCount = 0) (hzi : state.indexCount = 0)
    (htint : fbShader ≠ st.fbTintShader.addr)
    (hsh : (st.shaderAt shader).isSome = true) (hfb : (st.shaderAt fbShader).isSome = true) :
    ∃ st1 st2 cmd new, stageAndPush st s shader fbShader 4 6 = .ok (st.vboOff, 0, st1) ∧
      st1.pendingCmds = [cmd] ∧ cmd.vertexBuffer = st.vboOff ∧ cmd.indexBuffer = 0 ∧
      CopyFrameBuffer st1 = .ok st2 ∧ st2.gl.draws = st1.gl.draws ++ new ∧
      geometryPasses new = [(6, 0, 6)] := by
  obtain ⟨st1, cmd, hrun, hd1, hp, hvb, hib, hvc, hic, -, -⟩ :=
    stageAndPush_index_flush hd hsn hstate hscr shader fbShader hv hi hir hzv hzi htint hsh hfb
  obtain ⟨st2, new, hcopy, hdraws, hgeo⟩ := CopyFrameBuffer_geometry st1 hd1
  refine ⟨st1, st2, cmd, new, hrun, hp, hvb, hib, hcopy, hdraws, ?_⟩
  rw [hgeo, hp]
  simp only [runningOffsets, hic]

/-- Witness of C22: in `demoNearFull` (`vboOff = 16386`, `iboOff = 16380`)
the quad of a layer draw is stored at vertex `16386` and drawn from base
vertex `6`. -/
theorem C22_region_lost_on_second_flush_witness :
    demoNearFull.vboOff = 16386 ∧ demoNearFull.iboOff = 16380 ∧
      allocatedOffsets (pendingOf ((stageAndPush demoNearFull 0 5100 6100 4 6).map
        (fun r => r.2.2))) = [(6, 0, 16386)] ∧
      geometryPasses ((drawsOf (thenCopyFrameBuffer ((stageAndPush demoNearFull 0 5100 6100 4 6).map
        (fun r => r.2.2)))).drop 2) = [(6, 0, 6)] ∧
      ∃ st1 st2 cmd new,
        stageAndPush demoNearFull (0 : Nat) 5100 6100 4 6 = .ok (demoNearFull.vboOff, 0, st1) ∧
        st1.pendingCmds = [cmd] ∧ cmd.vertexBuffer = demoNearFull.vboOff ∧
        cmd.indexBuffer = 0 ∧ CopyFrameBuffer st1 = .ok st2 ∧
        st2.gl.draws = st1.gl.draws ++ new ∧ geometryPasses new = [(6, 0, 6)] :=
  ⟨rfl, rfl, rfl, rfl,
    C22_region_lost_on_second_flush demoNearFull 0 { shader := 5100, fbShader := 6100 }
      { clipBound_X2 := 424, clipBound_Y2 := 240 } 5100 6100 rfl (by decide) rfl rfl (by decide) (by decide) (by decide) rfl rfl (by decide)
      rfl rfl⟩

end RSDK
